import Mathlib

/-!
Contact force and friction pyramid constraint of towr.

A shallow embedding of `towr/src/force_constraint.cc` (class `ForceConstraint`)
and theorems about the rows, bounds and Jacobian entries it produces.

Conventions of the embedding:

* a C++ `double` is a rational number and arithmetic on it is exact (every
  finite double is a rational; rounding is not modelled). The theorems say
  which expressions the code assigns to which rows and entries; nothing is
  stated about properties that hold only up to rounding, such as the
  equivalence of the rows with `|f.t| <= mu (f.n)` or a row being exactly 0;
* a C++ `int` expression is an `Int` wrapped to 32 bits by `toInt32`, a
  `size_t` expression is reduced modulo `2^64`;
* a thrown exception (`std::vector::at`), a failed index assertion of Eigen and
  a dereferenced null pointer are the result `none`;
* the statements `g(row++) = v` executed by `GetValues` are recorded, in
  execution order, in a list (the k-th element is the value assigned to row k);
  the statements `jac.coeffRef(r, c) = v` of `FillJacobianBlock` are recorded in
  the same way as triplets before they are applied to the matrix.
-/

namespace towr

/-! ## Machine integers -/

/-- Value of a 32-bit two's-complement `int` holding the mathematical integer `x`. -/
def toInt32 (x : Int) : Int := (x + 2147483648) % 4294967296 - 2147483648

/-- Value of a 64-bit `size_t` holding the mathematical integer `x`. -/
def toSizeT (x : Int) : Int := x % 18446744073709551616

/-- Range of the values an `int` represents without wrapping. -/
def InInt32 (x : Int) : Prop := -2147483648 ≤ x ∧ x < 2147483648

instance (x : Int) : Decidable (InInt32 x) := by
  unfold InInt32
  exact inferInstance

/-! ## Vectors, nodes and the collaborators of the constraint -/

/-- The three Cartesian dimensions `X, Y, Z` (`enum Dim3D`). -/
inductive Dim3D where
  | X
  | Y
  | Z
deriving DecidableEq, Repr

/-- The two horizontal dimensions `X_, Y_` (`enum Dim2D`). -/
inductive Dim2D where
  | X_
  | Y_
deriving DecidableEq, Repr

/-- Conversion `Dim2D -> Dim3D` that happens when a `Dim2D` is passed as the
dimension of a `NodeValueInfo`: `X_` and `Y_` have the values of `X` and `Y`. -/
def Dim2D.to3D : Dim2D → Dim3D
  | .X_ => .X
  | .Y_ => .Y

/-- Derivative order stored in a node (`enum Dx`). -/
inductive Dx where
  | kPos
  | kVel
deriving DecidableEq, Repr

/-- Basis vector kinds of the terrain (`HeightMap::Direction`). -/
inductive Direction where
  | Normal
  | Tangent1
  | Tangent2
deriving DecidableEq, Repr

/-- An `Eigen::Vector3d`. -/
structure Vector3d where
  x : ℚ
  y : ℚ
  z : ℚ
deriving DecidableEq, Repr

/-- Component access `v(dim)`. -/
def Vector3d.coeff (v : Vector3d) : Dim3D → ℚ
  | .X => v.x
  | .Y => v.y
  | .Z => v.z

/-- Sum `a + b` of two vectors. -/
def Vector3d.add (a b : Vector3d) : Vector3d := ⟨a.x + b.x, a.y + b.y, a.z + b.z⟩

/-- Difference `a - b` of two vectors. -/
def Vector3d.sub (a b : Vector3d) : Vector3d := ⟨a.x - b.x, a.y - b.y, a.z - b.z⟩

/-- Scaling `s * a` of a vector. -/
def Vector3d.smul (s : ℚ) (a : Vector3d) : Vector3d := ⟨s * a.x, s * a.y, s * a.z⟩

/-- Inner product `a.transpose() * b`. The source evaluates it in double
precision; here it is the exact value of the same expression. -/
def Vector3d.dot (a b : Vector3d) : ℚ := a.x * b.x + a.y * b.y + a.z * b.z

/-- A spline node: `p()` is its position value, `v()` its velocity value. -/
structure Node where
  p : Vector3d
  v : Vector3d
deriving DecidableEq, Repr

/-- The terrain, seen through the three accessors the constraint calls. -/
structure HeightMap where
  GetNormalizedBasis : Direction → ℚ → ℚ → Vector3d
  GetDerivativeOfNormalizedBasisWrt : Direction → Dim2D → ℚ → ℚ → Vector3d
  GetFrictionCoeff : ℚ

/-- A phase-based node variable set, seen through the accessors the constraint
calls: its name, its nodes, the phase tag of a node for an end-effector, the
flat optimization index of a node value and the node at the start of a phase. -/
structure NodesVariablesPhaseBased where
  GetName : String
  GetNodes : List Node
  GetPhase : Nat → Nat → Int
  GetOptIndex : Nat → Dx → Dim3D → Nat
  GetNodeIDAtStartOfPhase : Int → Nat

/-- Modelled from the spec: `GetIndicesOfAllNodes` of the variable set, whose
code is not part of the sources; the spec describes it as the full set of
force-node indices (all knots), so it is the list `0, 1, ..., size - 1`. -/
def NodesVariablesPhaseBased.GetIndicesOfAllNodes (s : NodesVariablesPhaseBased) : List Nat :=
  List.range s.GetNodes.length

/-- The composite of optimization variables handed to
`InitVariableDependedQuantities`: the two lookups
`GetComponent(id::EEForceNodes(ee))` and `GetComponent(id::EEMotionNodes(ee))`. -/
structure Variables where
  EEForceNodes : Nat → NodesVariablesPhaseBased
  EEMotionNodes : Nat → NodesVariablesPhaseBased

/-- An `ifopt::Bounds`: `none` as lower bound stands for `-inf`, `none` as upper
bound for `+inf`. -/
structure Bounds where
  lower : Option ℚ
  upper : Option ℚ
deriving DecidableEq, Repr

/-- The bound `ifopt::BoundSmallerZero`, the interval `(-inf, 0]`. -/
def BoundSmallerZero : Bounds := ⟨none, some 0⟩

/-- The bound `ifopt::BoundGreaterZero`, the interval `[0, +inf)`. -/
def BoundGreaterZero : Bounds := ⟨some 0, none⟩

/-- The bound `ifopt::BoundZero`, the interval `[0, 0]`. -/
def BoundZero : Bounds := ⟨some 0, some 0⟩

/-- A value `v` respects a bound: `lower <= v <= upper`. -/
def Bounds.contains (b : Bounds) (v : ℚ) : Prop :=
  (match b.lower with
    | none => True
    | some l => l ≤ v) ∧
  (match b.upper with
    | none => True
    | some u => v ≤ u)

instance (b : Bounds) (v : ℚ) : Decidable (b.contains v) := by
  unfold Bounds.contains
  cases b.lower <;> cases b.upper <;> exact inferInstance

/-- Modelled from the spec: the constant `k2D` of `cartesian_dimensions.h`, which
is not part of the sources; the spec gives five rows per regular node, which
is `1 + 2*k2D` for `k2D = 2`. -/
def k2D : Int := 2

/-- The constant `kSpecifyLater` of ifopt, the row count of a constraint set
whose size is not known at construction. -/
def kSpecifyLater : Int := -1

/-! ## The constraint object -/

/-- Members of a `ForceConstraint`. `ee_force_` and `ee_motion_` are null until
`InitVariableDependedQuantities` binds them; `rows` is the count kept by
`SetRows` and returned by `GetRows`; `force_polynomials_per_stance_phase_` is
the member of `params_` that the constraint reads. -/
structure ForceConstraint where
  terrain_ : HeightMap
  fn_max_ : ℚ
  mu_ : ℚ
  ee_ : Nat
  n_constraints_per_node_ : Int
  n_constraints_drift_node_ : Int
  force_polynomials_per_stance_phase_ : Int
  ee_force_ : Option NodesVariablesPhaseBased
  ee_motion_ : Option NodesVariablesPhaseBased
  pure_stance_force_node_ids_ : List Nat
  rows : Int

/-- The constructor `ForceConstraint::ForceConstraint`. The value of
`params_.force_polynomials_per_stance_phase_` is an argument here because the
declaration of `params_` is not part of the sources. -/
def ForceConstraint.new (terrain : HeightMap) (force_limit : ℚ) (ee : Nat)
    (force_polynomials_per_stance_phase : Int) : ForceConstraint where
  terrain_ := terrain
  fn_max_ := force_limit
  mu_ := terrain.GetFrictionCoeff
  ee_ := ee
  n_constraints_per_node_ := toInt32 (1 + toInt32 (2 * k2D))
  n_constraints_drift_node_ := 3
  force_polynomials_per_stance_phase_ := force_polynomials_per_stance_phase
  ee_force_ := none
  ee_motion_ := none
  pure_stance_force_node_ids_ := []
  rows := kSpecifyLater

/-- The method `SetRows`. -/
def ForceConstraint.SetRows (c : ForceConstraint) (constraint_count : Int) : ForceConstraint :=
  { c with rows := constraint_count }

/-- The method `GetRows`. -/
def ForceConstraint.GetRows (c : ForceConstraint) : Int := c.rows

/-- The row count `constraint_count` computed by
`InitVariableDependedQuantities` from the end-effector, the node ids and
`nodes_per_phase`. The product for end-effectors 0 and 1 is taken in `size_t`
and converted to `int`; the other arithmetic is `int` arithmetic. -/
def constraintCount (ee : Nat) (ids : List Nat) (n_constraints_per_node n_constraints_drift_node
    force_polynomials_per_stance_phase : Int) : Int :=
  let nodes_per_phase := toInt32 (force_polynomials_per_stance_phase + 1)
  let constraint_count : Int := 0
  let constraint_count :=
    if ee = 0 ∨ ee = 1 then
      toInt32 (toSizeT ((ids.length : Int) * toSizeT n_constraints_per_node))
    else constraint_count
  let constraint_count :=
    if ee = 2 ∨ ee = 3 then
      toInt32 (toInt32 (toInt32 (toInt32 (2 * nodes_per_phase) - 1) * n_constraints_per_node)
        + toInt32 (toInt32 (nodes_per_phase - 1) * n_constraints_drift_node))
    else constraint_count
  constraint_count

/-- The method `ForceConstraint::InitVariableDependedQuantities`. -/
def InitVariableDependedQuantities (c : ForceConstraint) (x : Variables) : ForceConstraint :=
  let ee_force := x.EEForceNodes c.ee_
  let ee_motion := x.EEMotionNodes c.ee_
  let ids := ee_force.GetIndicesOfAllNodes
  let c := { c with ee_force_ := some ee_force, ee_motion_ := some ee_motion,
                    pure_stance_force_node_ids_ := ids }
  c.SetRows (constraintCount c.ee_ ids c.n_constraints_per_node_ c.n_constraints_drift_node_
    c.force_polynomials_per_stance_phase_)

/-! ## Values and bounds -/

/-- The test `phase == 0 or phase == 1 or phase == 2 or phase == 3 or phase == 5`
that selects the friction pyramid rows. -/
def isPyramidPhase (phase : Int) : Bool :=
  phase == 0 || phase == 1 || phase == 2 || phase == 3 || phase == 5

/-- One iteration of the loop of `GetValues` for the node `f_node_id`: `g` holds
the values assigned so far by `g(row++) = ...`, the result holds those assigned
after the iteration. -/
def GetValuesBody (c : ForceConstraint) (ee_force ee_motion : NodesVariablesPhaseBased)
    (g : List ℚ) (f_node_id : Nat) : Option (List ℚ) := do
  let force_nodes := ee_force.GetNodes
  let nodes := ee_motion.GetNodes
  let phase := ee_force.GetPhase f_node_id c.ee_
  let p := (← nodes[f_node_id]?).p
  let n := c.terrain_.GetNormalizedBasis Direction.Normal p.x p.y
  let f := (← force_nodes[f_node_id]?).p
  let g := g ++ [f.dot n]
  let t1 := c.terrain_.GetNormalizedBasis Direction.Tangent1 p.x p.y
  let t2 := c.terrain_.GetNormalizedBasis Direction.Tangent2 p.x p.y
  if isPyramidPhase phase then
    let g := g ++ [f.dot (t1.sub (n.smul c.mu_))]
    let g := g ++ [f.dot (t1.add (n.smul c.mu_))]
    let g := g ++ [f.dot (t2.sub (n.smul c.mu_))]
    let g := g ++ [f.dot (t2.add (n.smul c.mu_))]
    pure g
  else if phase = 4 then
    let g := g ++ [f.dot (t1.sub (n.smul c.mu_))]
    let g := g ++ [f.dot (t2.sub (n.smul c.mu_))]
    pure g
  else
    pure g

/-- The loop `for (int f_node_id : pure_stance_force_node_ids_)` of `GetValues`. -/
def GetValuesLoop (c : ForceConstraint) (ee_force ee_motion : NodesVariablesPhaseBased) :
    List Nat → List ℚ → Option (List ℚ)
  | [], g => some g
  | f_node_id :: ids, g =>
    match GetValuesBody c ee_force ee_motion g f_node_id with
    | none => none
    | some g => GetValuesLoop c ee_force ee_motion ids g

/-- The values that `GetValues` assigns to the rows `0, 1, 2, ...` of `g`, in
this order; its length is the final value of the counter `row`. -/
def GetValuesWritten (c : ForceConstraint) : Option (List ℚ) := do
  let ee_force ← c.ee_force_
  let ee_motion ← c.ee_motion_
  GetValuesLoop c ee_force ee_motion c.pure_stance_force_node_ids_ []

/-- The method `ForceConstraint::GetValues`: the vector `g` of `GetRows()`
entries in which the first rows hold the assigned values; an entry that was
never assigned is `none`. Assigning a row beyond the size of `g`, like a
negative size, is a failure. -/
def GetValues (c : ForceConstraint) : Option (List (Option ℚ)) := do
  let written ← GetValuesWritten c
  if 0 ≤ c.GetRows ∧ (written.length : Int) ≤ c.GetRows then
    pure (written.map some ++ List.replicate (c.GetRows.toNat - written.length) none)
  else
    none

/-- One iteration of the loop of `GetBounds` for the node `f_node_id`. -/
def GetBoundsBody (c : ForceConstraint) (ee_force : NodesVariablesPhaseBased)
    (bounds : List Bounds) (f_node_id : Nat) : List Bounds :=
  let phase := ee_force.GetPhase f_node_id c.ee_
  if isPyramidPhase phase then
    let bounds := bounds ++ [Bounds.mk (some 0) (some c.fn_max_)]
    let bounds := bounds ++ [BoundSmallerZero]
    let bounds := bounds ++ [BoundGreaterZero]
    let bounds := bounds ++ [BoundSmallerZero]
    let bounds := bounds ++ [BoundGreaterZero]
    bounds
  else if phase = 4 then
    let bounds := bounds ++ [Bounds.mk (some 0) (some c.fn_max_)]
    let bounds := bounds ++ [BoundZero]
    let bounds := bounds ++ [BoundZero]
    bounds
  else
    bounds

/-- The loop `for (int f_node_id : pure_stance_force_node_ids_)` of `GetBounds`;
`ee_force_` is dereferenced in every iteration. -/
def GetBoundsLoop (c : ForceConstraint) : List Nat → List Bounds → Option (List Bounds)
  | [], bounds => some bounds
  | f_node_id :: ids, bounds =>
    match c.ee_force_ with
    | none => none
    | some ee_force => GetBoundsLoop c ids (GetBoundsBody c ee_force bounds f_node_id)

/-- The method `ForceConstraint::GetBounds`. -/
def GetBounds (c : ForceConstraint) : Option (List Bounds) :=
  GetBoundsLoop c c.pure_stance_force_node_ids_ []

/-! ## Jacobian -/

/-- One executed statement `jac.coeffRef(row, col) = val`. -/
structure Triplet where
  row : Int
  col : Nat
  val : ℚ
deriving DecidableEq, Repr

/-- The sparse matrix handed to `FillJacobianBlock`: its dimensions and its
coefficients (zero where no entry is stored). -/
structure Jacobian where
  nrows : Nat
  ncols : Nat
  coeff : Nat → Nat → ℚ

/-- The statement `jac.coeffRef(row, col) = val`; an index outside the matrix
is a failure. -/
def Jacobian.assign (jac : Jacobian) (t : Triplet) : Option Jacobian :=
  if 0 ≤ t.row ∧ t.row < jac.nrows ∧ t.col < jac.ncols then
    some { jac with coeff := fun i j => if (i : Int) = t.row ∧ j = t.col then t.val else jac.coeff i j }
  else
    none

/-- A sequence of statements `jac.coeffRef(row, col) = val`, in order. -/
def Jacobian.assignAll (jac : Jacobian) : List Triplet → Option Jacobian
  | [] => some jac
  | t :: ts =>
    match jac.assign t with
    | none => none
    | some jac => Jacobian.assignAll jac ts

/-- The body of the loop `for (auto dim : {X,Y,Z})` in the force branch of
`FillJacobianBlock`: the entries written in the column of `dim`, through the
two `if` statements that follow each other, each advancing `row_reset`. -/
def forceJacobianDim (c : ForceConstraint) (ee_force : NodesVariablesPhaseBased)
    (f_node_id : Nat) (phase : Int) (n t1 t2 : Vector3d) (row : Int) (dim : Dim3D) :
    List Triplet :=
  let idx := ee_force.GetOptIndex f_node_id Dx.kPos dim
  let row_reset := row
  let (written, row_reset) :=
    if isPyramidPhase phase then
      ([ Triplet.mk row_reset idx (n.coeff dim),
         Triplet.mk (toInt32 (row_reset + 1)) idx (t1.coeff dim - c.mu_ * n.coeff dim),
         Triplet.mk (toInt32 (row_reset + 2)) idx (t1.coeff dim + c.mu_ * n.coeff dim),
         Triplet.mk (toInt32 (row_reset + 3)) idx (t2.coeff dim - c.mu_ * n.coeff dim),
         Triplet.mk (toInt32 (row_reset + 4)) idx (t2.coeff dim + c.mu_ * n.coeff dim) ],
        toInt32 (row_reset + 5))
    else ([], row_reset)
  if phase = 4 then
    written ++
      [ Triplet.mk row_reset idx (n.coeff dim),
        Triplet.mk (toInt32 (row_reset + 1)) idx (t1.coeff dim - c.mu_ * n.coeff dim),
        Triplet.mk (toInt32 (row_reset + 2)) idx (t2.coeff dim - c.mu_ * n.coeff dim) ]
  else written

/-- The row counter after a node: `row += n_constraints_drift_node_` for the
drift tag, `row += n_constraints_per_node_` otherwise. -/
def advanceRow (c : ForceConstraint) (phase : Int) (row : Int) : Int :=
  if phase = 4 then toInt32 (row + c.n_constraints_drift_node_)
  else toInt32 (row + c.n_constraints_per_node_)

/-- One iteration of the node loop in the force branch of `FillJacobianBlock`:
from the row counter before the node to the entries written for the node and
the row counter after it. -/
def forceJacobianBody (c : ForceConstraint) (ee_force ee_motion : NodesVariablesPhaseBased)
    (row : Int) (f_node_id : Nat) : Option (List Triplet × Int) := do
  let nodes := ee_motion.GetNodes
  let p := (← nodes[f_node_id]?).p
  let phase := ee_force.GetPhase f_node_id c.ee_
  let n := c.terrain_.GetNormalizedBasis Direction.Normal p.x p.y
  let t1 := c.terrain_.GetNormalizedBasis Direction.Tangent1 p.x p.y
  let t2 := c.terrain_.GetNormalizedBasis Direction.Tangent2 p.x p.y
  let written := [Dim3D.X, Dim3D.Y, Dim3D.Z].flatMap
    (forceJacobianDim c ee_force f_node_id phase n t1 t2 row)
  pure (written, advanceRow c phase row)

/-- The body of the loop `for (auto dim : {X_,Y_})` in the motion branch of
`FillJacobianBlock`: the entries written in the column of `dim`. -/
def motionJacobianDim (c : ForceConstraint) (ee_motion : NodesVariablesPhaseBased)
    (f_node_id : Nat) (phase : Int) (p f : Vector3d) (row : Int) (dim : Dim2D) :
    List Triplet :=
  let dn := c.terrain_.GetDerivativeOfNormalizedBasisWrt Direction.Normal dim p.x p.y
  let dt1 := c.terrain_.GetDerivativeOfNormalizedBasisWrt Direction.Tangent1 dim p.x p.y
  let dt2 := c.terrain_.GetDerivativeOfNormalizedBasisWrt Direction.Tangent2 dim p.x p.y
  let idx := ee_motion.GetOptIndex f_node_id Dx.kPos dim.to3D
  let row_reset := row
  let w0 := [Triplet.mk row_reset idx (f.dot dn)]
  if isPyramidPhase phase then
    w0 ++
      [ Triplet.mk (toInt32 (row_reset + 1)) idx (f.dot (dt1.sub (dn.smul c.mu_))),
        Triplet.mk (toInt32 (row_reset + 2)) idx (f.dot (dt1.add (dn.smul c.mu_))),
        Triplet.mk (toInt32 (row_reset + 3)) idx (f.dot (dt2.sub (dn.smul c.mu_))),
        Triplet.mk (toInt32 (row_reset + 4)) idx (f.dot (dt2.add (dn.smul c.mu_))) ]
  else if phase = 4 then
    w0 ++
      [ Triplet.mk (toInt32 (row_reset + 1)) idx (f.dot (dt1.sub (dn.smul c.mu_))),
        Triplet.mk (toInt32 (row_reset + 2)) idx (f.dot (dt2.sub (dn.smul c.mu_))) ]
  else
    w0

/-- One iteration of the node loop in the motion branch of `FillJacobianBlock`. -/
def motionJacobianBody (c : ForceConstraint) (ee_force ee_motion : NodesVariablesPhaseBased)
    (row : Int) (f_node_id : Nat) : Option (List Triplet × Int) := do
  let force_nodes := ee_force.GetNodes
  let nodes := ee_motion.GetNodes
  let phase := ee_force.GetPhase f_node_id c.ee_
  let _ee_node_id := ee_motion.GetNodeIDAtStartOfPhase phase
  let p := (← nodes[f_node_id]?).p
  let f := (← force_nodes[f_node_id]?).p
  let written := [Dim2D.X_, Dim2D.Y_].flatMap
    (motionJacobianDim c ee_motion f_node_id phase p f row)
  pure (written, advanceRow c phase row)

/-- A node loop of `FillJacobianBlock` over the ids, for either body: the
entries written, in order, starting with the row counter `row`. -/
def jacobianLoop (body : Int → Nat → Option (List Triplet × Int)) :
    List Nat → Int → Option (List Triplet)
  | [], _ => some []
  | f_node_id :: ids, row =>
    match body row f_node_id with
    | none => none
    | some (written, row) =>
      match jacobianLoop body ids row with
      | none => none
      | some rest => some (written ++ rest)

/-- The entries written by the force branch of `FillJacobianBlock`. -/
def forceJacobianWritten (c : ForceConstraint) (ee_force ee_motion : NodesVariablesPhaseBased) :
    Option (List Triplet) :=
  jacobianLoop (forceJacobianBody c ee_force ee_motion) c.pure_stance_force_node_ids_ 0

/-- The entries written by the motion branch of `FillJacobianBlock`. -/
def motionJacobianWritten (c : ForceConstraint) (ee_force ee_motion : NodesVariablesPhaseBased) :
    Option (List Triplet) :=
  jacobianLoop (motionJacobianBody c ee_force ee_motion) c.pure_stance_force_node_ids_ 0

/-- The method `ForceConstraint::FillJacobianBlock`: the two `if` statements on
the name of the variable set, one after the other. -/
def FillJacobianBlock (c : ForceConstraint) (var_set : String) (jac : Jacobian) :
    Option Jacobian := do
  let ee_force ← c.ee_force_
  let jac ←
    if var_set = ee_force.GetName then do
      let ee_motion ← c.ee_motion_
      let written ← forceJacobianWritten c ee_force ee_motion
      jac.assignAll written
    else pure jac
  let ee_motion ← c.ee_motion_
  if var_set = ee_motion.GetName then do
    let written ← motionJacobianWritten c ee_force ee_motion
    jac.assignAll written
  else pure jac

/-! ## Row counts per phase tag (used in the statements) -/

/-- Number of rows `GetValues` assigns for a node with the given phase tag. -/
def valueRowsOfPhase (phase : Int) : Nat :=
  if isPyramidPhase phase then 5 else if phase = 4 then 3 else 1

/-- Number of bounds `GetBounds` appends for a node with the given phase tag. -/
def boundRowsOfPhase (phase : Int) : Nat :=
  if isPyramidPhase phase then 5 else if phase = 4 then 3 else 0

/-- The values one iteration of `GetValues` assigns, as a function of the phase
tag, the friction coefficient, the force and the terrain basis. -/
def nodeValueRows (mu : ℚ) (phase : Int) (f n t1 t2 : Vector3d) : List ℚ :=
  if isPyramidPhase phase then
    [f.dot n, f.dot (t1.sub (n.smul mu)), f.dot (t1.add (n.smul mu)),
      f.dot (t2.sub (n.smul mu)), f.dot (t2.add (n.smul mu))]
  else if phase = 4 then
    [f.dot n, f.dot (t1.sub (n.smul mu)), f.dot (t2.sub (n.smul mu))]
  else [f.dot n]

/-- Number of ids in a list whose phase tag is one of the pyramid tags 0, 1, 2, 3, 5. -/
def pyramidCount (F : NodesVariablesPhaseBased) (ee : Nat) (ids : List Nat) : Nat :=
  ids.countP (fun id => isPyramidPhase (F.GetPhase id ee))

/-- Number of ids in a list whose phase tag is the drift tag 4. -/
def driftCount (F : NodesVariablesPhaseBased) (ee : Nat) (ids : List Nat) : Nat :=
  ids.countP (fun id => decide (F.GetPhase id ee = 4))

/-- Number of ids in a list whose phase tag is neither a pyramid tag nor the
drift tag 4, that is, lies outside 0..5. -/
def otherCount (F : NodesVariablesPhaseBased) (ee : Nat) (ids : List Nat) : Nat :=
  ids.countP (fun id => !isPyramidPhase (F.GetPhase id ee) && decide (F.GetPhase id ee ≠ 4))

/-- For a phase tag in 0..5, the combinations of the vectors `n, t1, t2` that a
node's rows are built from, in row order: `n, t1 − μn, t1 + μn, t2 − μn,
t2 + μn` for a pyramid tag and `n, t1 − μn, t2 − μn` for the drift tag. -/
def basisCombinations (mu : ℚ) (phase : Int) (n t1 t2 : Vector3d) : List Vector3d :=
  if isPyramidPhase phase then
    [n, t1.sub (n.smul mu), t1.add (n.smul mu), t2.sub (n.smul mu), t2.add (n.smul mu)]
  else
    [n, t1.sub (n.smul mu), t2.sub (n.smul mu)]

/-- Entries in the column `col` at the consecutive rows `row, row + 1, ...`
holding the given values. -/
def blockEntries : Int → Nat → List ℚ → List Triplet
  | _, _, [] => []
  | row, col, v :: vs => Triplet.mk row col v :: blockEntries (row + 1) col vs

/-- The rows one iteration of `GetValues` assigns for the node `id` (none when
the iteration fails). -/
def nodeRowsOf (c : ForceConstraint) (F M : NodesVariablesPhaseBased) (id : Nat) : List ℚ :=
  match GetValuesBody c F M [] id with
  | some rows => rows
  | none => []

/-- The setting of the statements about one force node: the constraint `c` of
end-effector `ee`, constructed on `terrain` with `force_limit` and bound by
`InitVariableDependedQuantities` to the force set `F` and the motion set `M` of
`x`; a motion knot for every force node; the force node `fn` and the motion
knot `m` at index `k`; the terrain basis `n, t1, t2` at the `(x, y)` of `m`;
phase tags in 0..5 for the nodes before `k`; and `off`, the number of rows of
the nodes before `k` (five for a pyramid tag, three for the drift tag). -/
structure NodeContext (terrain : HeightMap) (force_limit : ℚ) (ee : Nat) (fpps : Int)
    (x : Variables) (c : ForceConstraint) (F M : NodesVariablesPhaseBased) (k off : Nat)
    (m fn : Node) (n t1 t2 : Vector3d) : Prop where
  constraint : c = InitVariableDependedQuantities
    (ForceConstraint.new terrain force_limit ee fpps) x
  force : F = x.EEForceNodes ee
  motion : M = x.EEMotionNodes ee
  cover : F.GetNodes.length ≤ M.GetNodes.length
  knot : M.GetNodes[k]? = some m
  node : F.GetNodes[k]? = some fn
  normal : n = terrain.GetNormalizedBasis Direction.Normal m.p.x m.p.y
  tangent1 : t1 = terrain.GetNormalizedBasis Direction.Tangent1 m.p.x m.p.y
  tangent2 : t2 = terrain.GetNormalizedBasis Direction.Tangent2 m.p.x m.p.y
  before : ∀ id, id < k → 0 ≤ F.GetPhase id ee ∧ F.GetPhase id ee ≤ 5
  offset : off = 5 * pyramidCount F ee (List.range k) + 3 * driftCount F ee (List.range k)

/-- The matrix with the given dimensions and no stored entry: every coefficient
is zero. -/
def Jacobian.zero (nrows ncols : Nat) : Jacobian := ⟨nrows, ncols, fun _ _ => 0⟩

/-! ## Concrete inputs -/

/-- A flat terrain: normal along z, tangents along x and y, friction
coefficient 1/2. -/
def flatTerrain : HeightMap where
  GetNormalizedBasis := fun d _ _ =>
    match d with
    | .Normal => ⟨0, 0, 1⟩
    | .Tangent1 => ⟨1, 0, 0⟩
    | .Tangent2 => ⟨0, 1, 0⟩
  GetDerivativeOfNormalizedBasisWrt := fun _ _ _ _ => ⟨0, 0, 0⟩
  GetFrictionCoeff := 1 / 2

/-- A variable set with the given name and nodes in which node `id` has the
phase tag `tags[id]` for every end-effector, and the six values of node `id`
have the indices `6*id, ..., 6*id + 5` (position, then velocity). -/
def exampleSet (name : String) (nodes : List Node) (tags : List Int) : NodesVariablesPhaseBased where
  GetName := name
  GetNodes := nodes
  GetPhase := fun id _ => tags.getD id 0
  GetOptIndex := fun id dx dim =>
    6 * id + (match dx with
      | .kPos => 0
      | .kVel => 3) + (match dim with
      | .X => 0
      | .Y => 1
      | .Z => 2)
  GetNodeIDAtStartOfPhase := fun _ => 0

/-- Variables whose force set (for every end-effector) has the given nodes and
tags and whose motion set has the given motion nodes. -/
def exampleVariables (force_nodes : List Node) (tags : List Int) (motion_nodes : List Node) :
    Variables where
  EEForceNodes := fun _ => exampleSet "ee-force" force_nodes tags
  EEMotionNodes := fun _ => exampleSet "ee-motion" motion_nodes tags

/-- A node at rest with position value `(x, y, z)`. -/
def nodeAt (x y z : ℚ) : Node := ⟨⟨x, y, z⟩, ⟨0, 0, 0⟩⟩

/-- One force node with the drift tag 4 and force `(1, 1, 2)`, one motion node. -/
def driftVariables : Variables :=
  exampleVariables [nodeAt 1 1 2] [4] [nodeAt 0 0 0]

/-- Three force nodes with the tag 0, three motion nodes. -/
def threeNodeVariables : Variables :=
  exampleVariables [nodeAt 0 0 1, nodeAt 0 0 2, nodeAt 0 0 3] [0, 0, 0]
    [nodeAt 0 0 0, nodeAt 1 0 0, nodeAt 2 0 0]

/-- Four force nodes with the tags 0, 4, 1, 1 (three pyramid nodes, one drift
node) and four motion nodes. -/
def driftGaitVariables : Variables :=
  exampleVariables [nodeAt 0 0 4, nodeAt 1 1 2, nodeAt 2 2 4, nodeAt 0 (-1) (-2)] [0, 4, 1, 1]
    [nodeAt 0 0 0, nodeAt 1 0 0, nodeAt 2 0 0, nodeAt 3 0 0]

/-- The constraint of end-effector 2 on the flat terrain, with force limit 1000
and two nodes per phase, bound to `driftGaitVariables`. -/
def exampleConstraint : ForceConstraint :=
  InitVariableDependedQuantities (ForceConstraint.new flatTerrain 1000 2 1) driftGaitVariables

/-- A bowl-shaped terrain of height `(x^2 + y^2)/2` with the basis
`n = (-x, -y, 1)`, `t1 = (1, 0, x)`, `t2 = (0, 1, y)`, the derivatives of these
vectors with respect to x and y, and friction coefficient 1/2. -/
def bowlTerrain : HeightMap where
  GetNormalizedBasis := fun d x y =>
    match d with
    | .Normal => ⟨-x, -y, 1⟩
    | .Tangent1 => ⟨1, 0, x⟩
    | .Tangent2 => ⟨0, 1, y⟩
  GetDerivativeOfNormalizedBasisWrt := fun d dim _ _ =>
    match d, dim with
    | .Normal, .X_ => ⟨-1, 0, 0⟩
    | .Normal, .Y_ => ⟨0, -1, 0⟩
    | .Tangent1, .X_ => ⟨0, 0, 1⟩
    | .Tangent1, .Y_ => ⟨0, 0, 0⟩
    | .Tangent2, .X_ => ⟨0, 0, 0⟩
    | .Tangent2, .Y_ => ⟨0, 0, 1⟩
  GetFrictionCoeff := 1 / 2

/-- The constraint of end-effector 2 on the bowl terrain, with force limit 1000
and two nodes per phase, bound to `driftGaitVariables`. -/
def bowlConstraint : ForceConstraint :=
  InitVariableDependedQuantities (ForceConstraint.new bowlTerrain 1000 2 1) driftGaitVariables

/-- The variables `driftGaitVariables` with every motion knot moved vertically
and given a velocity; the x and y positions of the knots are unchanged. -/
def liftedGaitVariables : Variables :=
  exampleVariables [nodeAt 0 0 4, nodeAt 1 1 2, nodeAt 2 2 4, nodeAt 0 (-1) (-2)] [0, 4, 1, 1]
    [⟨⟨0, 0, 7⟩, ⟨1, 2, 3⟩⟩, ⟨⟨1, 0, -1⟩, ⟨0, 0, 1⟩⟩, ⟨⟨2, 0, 3⟩, ⟨4, 0, 0⟩⟩,
      ⟨⟨3, 0, 1 / 2⟩, ⟨0, 9, 0⟩⟩]

/-- Three force nodes with the tags 0, 7, 4 (the tag 7 is none of the tags
0..5) and three motion nodes. -/
def unknownTagVariables : Variables :=
  exampleVariables [nodeAt 0 0 4, nodeAt 1 1 2, nodeAt 2 2 4] [0, 7, 4]
    [nodeAt 0 0 0, nodeAt 1 0 0, nodeAt 2 0 0]

end towr

/-!
Whole-body trajectory generator of `include/xpp/opt/wb_traj_generator.h`.

The header declares the class `WBTrajGenerator`; the bodies of its methods are
in `implementation/wb_traj_generator-impl.h`, which is not part of the
sources, as are the types of `motion_phase.h`, `polynomial_helpers.h` and
`robot_state_cartesian.h`. What the header fixes is kept (the names and the
signatures); the rest is modelled from the spec. Times and coordinates are
rational numbers.
-/

namespace xpp.opt

/-- Modelled from the spec: the type `MotionPhase` of `motion_phase.h`, which is
not part of the sources: a duration, a contact-mode tag and one contact flag
per end-effector. -/
structure MotionPhase where
  duration : ℚ
  tag : Int
  contacts : List Bool

/-- Modelled from the spec: the state of a point in one dimension (`StateLin1d`
of the utilities, not part of the sources): position, velocity and
acceleration. -/
structure StateLin1d where
  p : ℚ
  v : ℚ
  a : ℚ
deriving DecidableEq, Repr

/-- Modelled from the spec: the part of a boundary node (`SplineNode`, the class
`RobotStateCartesian`, not part of the sources) that the height polynomial is
built from: the vertical component of the base position, velocity and
acceleration, and the global time of the phase boundary at which the node
stands. The time is part of the node because `BuildPhase` is declared with the
two nodes and no duration: the duration of the phase between two consecutive
nodes is the difference of their times. -/
structure SplineNode where
  t_global : ℚ
  base_z : StateLin1d
deriving DecidableEq, Repr

/-- Modelled from the spec: the height polynomial of a phase. The header names
its type `ZPolynomial`, an alias of `xpp::utils::LinearPolynomial`, whose
declaration is not part of the sources. The spec gives it a degree sufficient
to satisfy two boundary value/velocity pairs; it is the polynomial
`c0 + c1 t + c2 t^2 + c3 t^3` in the local phase time `t`. -/
structure ZPolynomial where
  c0 : ℚ
  c1 : ℚ
  c2 : ℚ
  c3 : ℚ
deriving DecidableEq, Repr

/-- Modelled from the spec: evaluation of the height polynomial at the local
time `t` (its code is not part of the sources): position, velocity and
acceleration. -/
def ZPolynomial.GetPoint (poly : ZPolynomial) (t : ℚ) : StateLin1d :=
  ⟨poly.c0 + poly.c1 * t + poly.c2 * t ^ 2 + poly.c3 * t ^ 3,
    poly.c1 + 2 * poly.c2 * t + 3 * poly.c3 * t ^ 2,
    2 * poly.c2 + 6 * poly.c3 * t⟩

/-- Modelled from the spec: `SetBoundary` of the height polynomial (its code is
not part of the sources): the polynomial with the boundary position and
velocity of `start` at the local time 0 and those of `finish` at the local
time `T`. -/
def ZPolynomial.SetBoundary (T : ℚ) (start finish : StateLin1d) : ZPolynomial :=
  ⟨start.p, start.v,
    (3 * (finish.p - start.p) - (2 * start.v + finish.v) * T) / T ^ 2,
    ((start.v + finish.v) * T - 2 * (finish.p - start.p)) / T ^ 3⟩

/-- Modelled from the spec: the height polynomial `z_poly` that
`WBTrajGenerator::BuildPhase(from, to, z_poly, ori, feet)` builds for the
consecutive node pair `(from, to)` (the body of `BuildPhase` is not part of
the sources): boundary position and velocity at 0 and at the phase duration
equal to the vertical components of `from` and `to`. The orientation and
end-effector polynomials of `BuildPhase` are left out. -/
def BuildPhase (from_node to_node : SplineNode) : ZPolynomial :=
  ZPolynomial.SetBoundary (to_node.t_global - from_node.t_global)
    from_node.base_z to_node.base_z

/-- The members of a `WBTrajGenerator` that phase lookup and sampling read:
the start time `t_start_`, the phase list given to `Init`, and the evaluation
`GetRobotState` of the splines at a global time, whose result type and code
are not part of the sources and are a parameter here. -/
structure WBTrajGenerator (State : Type) where
  t_start_ : ℚ
  phases : List MotionPhase
  GetRobotState : ℚ → State

/-- Modelled from the spec: `WBTrajGenerator::GetTotalTime` (its body is not
part of the sources): the sum of the phase durations. -/
def WBTrajGenerator.GetTotalTime {State : Type} (g : WBTrajGenerator State) : ℚ :=
  (g.phases.map MotionPhase.duration).sum

/-- Global time at which phase `k` starts: the start time plus the durations of
the phases before `k`; for `k` the number of phases it is the end of the last
phase. -/
def WBTrajGenerator.phaseStart {State : Type} (g : WBTrajGenerator State) (k : Nat) : ℚ :=
  g.t_start_ + ((g.phases.take k).map MotionPhase.duration).sum

/-- The cumulative phase-duration lookup of `GetPhaseID`: `start` is the global
time at which the phase `id` (the head of the list) starts. A time before the
end of the phase belongs to it, a time at or after the end belongs to a later
phase, and the last phase takes every remaining time. -/
def phaseLookup (t_global : ℚ) : List MotionPhase → ℚ → Nat → Nat
  | [], _, id => id
  | [_], _, id => id
  | phase :: next :: rest, start, id =>
    if t_global < start + phase.duration then id
    else phaseLookup t_global (next :: rest) (start + phase.duration) (id + 1)

/-- Modelled from the spec: `WBTrajGenerator::GetPhaseID` (its body is not part
of the sources): the owning phase index by cumulative phase-duration lookup,
where a tie at a boundary resolves to the later phase and a time beyond the
last boundary to the last phase; an empty phase list and a time before the
first boundary are precondition violations (`none`). -/
def WBTrajGenerator.GetPhaseID {State : Type} (g : WBTrajGenerator State) (t_global : ℚ) :
    Option Nat :=
  if g.phases.isEmpty ∨ t_global < g.t_start_ then none
  else some (phaseLookup t_global g.phases g.t_start_ 0)

/-- The sampling loop of `BuildWholeBodyTrajectory`: from the time `t` on, one
state every `dt` while the time is not after `t_end`; `fuel` bounds the number
of iterations. -/
def sampleLoop {State : Type} (GetRobotState : ℚ → State) (t_end dt : ℚ) :
    Nat → ℚ → List State
  | 0, _ => []
  | fuel + 1, t =>
    if t ≤ t_end then GetRobotState t :: sampleLoop GetRobotState t_end dt fuel (t + dt)
    else []

/-- Modelled from the spec: `WBTrajGenerator::BuildWholeBodyTrajectory` (its
body is not part of the sources): one state every `dt` from the start time to
the end of the last phase, the final sample included. A step that is not
positive gives no finite sequence (`none`); for a positive step the loop stops
by itself within `floor(T/dt) + 2` iterations. -/
def WBTrajGenerator.BuildWholeBodyTrajectory {State : Type} (g : WBTrajGenerator State)
    (dt : ℚ) : Option (List State) :=
  if 0 < dt then
    some (sampleLoop g.GetRobotState (g.t_start_ + g.GetTotalTime) dt
      (⌊g.GetTotalTime / dt⌋.toNat + 2) g.t_start_)
  else none

/-- Two stance phases of one second each. -/
def twoPhases : List MotionPhase := [⟨1, 0, [true, true]⟩, ⟨1, 0, [true, false]⟩]

/-- A generator over `twoPhases` that starts at time 3 and whose state at a
time is the time itself. -/
def exampleGenerator : WBTrajGenerator ℚ := ⟨3, twoPhases, fun t => t⟩

end xpp.opt

namespace towr

/-! ## Lemmas -/

theorem GetValuesBody_eq (c : ForceConstraint) (F M : NodesVariablesPhaseBased) (g : List ℚ)
    (k : Nat) (m fn : Node) (hm : M.GetNodes[k]? = some m) (hf : F.GetNodes[k]? = some fn) :
    GetValuesBody c F M g k = some (g ++ nodeValueRows c.mu_ (F.GetPhase k c.ee_) fn.p
      (c.terrain_.GetNormalizedBasis Direction.Normal m.p.x m.p.y)
      (c.terrain_.GetNormalizedBasis Direction.Tangent1 m.p.x m.p.y)
      (c.terrain_.GetNormalizedBasis Direction.Tangent2 m.p.x m.p.y)) := by
  unfold GetValuesBody nodeValueRows
  simp only [hm, hf, Option.bind_eq_bind, Option.some_bind, Option.pure_def]
  split_ifs <;> simp

theorem nodeValueRows_length (mu : ℚ) (phase : Int) (f n t1 t2 : Vector3d) :
    (nodeValueRows mu phase f n t1 t2).length = valueRowsOfPhase phase := by
  unfold nodeValueRows valueRowsOfPhase
  split_ifs <;> rfl

theorem GetValuesLoop_length (c : ForceConstraint) (F M : NodesVariablesPhaseBased) :
    ∀ (ids : List Nat) (g : List ℚ),
      (∀ id ∈ ids, id < M.GetNodes.length ∧ id < F.GetNodes.length) →
      ∃ w, GetValuesLoop c F M ids g = some w ∧
        w.length = g.length + (ids.map (fun id => valueRowsOfPhase (F.GetPhase id c.ee_))).sum := by
  intro ids
  induction ids with
  | nil => intro g _; exact ⟨g, rfl, by simp⟩
  | cons k ids ih =>
    intro g h
    obtain ⟨hkM, hkF⟩ := h k (List.mem_cons_self _ _)
    have hm : M.GetNodes[k]? = some (M.GetNodes[k]) := List.getElem?_eq_getElem hkM
    have hf : F.GetNodes[k]? = some (F.GetNodes[k]) := List.getElem?_eq_getElem hkF
    have hb := GetValuesBody_eq c F M g k _ _ hm hf
    obtain ⟨w, hw, hlen⟩ := ih _ (fun id hid => h id (List.mem_cons_of_mem _ hid))
    refine ⟨w, ?_, ?_⟩
    · simp only [GetValuesLoop, hb]
      exact hw
    · rw [hlen]
      simp [nodeValueRows_length, Nat.add_assoc]

theorem GetBoundsBody_length (c : ForceConstraint) (F : NodesVariablesPhaseBased)
    (bounds : List Bounds) (k : Nat) :
    (GetBoundsBody c F bounds k).length = bounds.length + boundRowsOfPhase (F.GetPhase k c.ee_) := by
  simp only [GetBoundsBody, boundRowsOfPhase]
  split_ifs <;> simp

theorem GetBounds_foldl_length (c : ForceConstraint) (F : NodesVariablesPhaseBased) :
    ∀ (ids : List Nat) (bounds : List Bounds),
      (ids.foldl (GetBoundsBody c F) bounds).length
        = bounds.length + (ids.map (fun id => boundRowsOfPhase (F.GetPhase id c.ee_))).sum := by
  intro ids
  induction ids with
  | nil => intro bounds; simp
  | cons k ids ih =>
    intro bounds
    simp only [List.foldl_cons, List.map_cons, List.sum_cons]
    rw [ih, GetBoundsBody_length]
    omega

theorem GetBoundsLoop_eq (c : ForceConstraint) (F : NodesVariablesPhaseBased)
    (hF : c.ee_force_ = some F) :
    ∀ (ids : List Nat) (bounds : List Bounds),
      GetBoundsLoop c ids bounds = some (ids.foldl (GetBoundsBody c F) bounds) := by
  intro ids
  induction ids with
  | nil => intro bounds; rfl
  | cons k ids ih =>
    intro bounds
    simp only [GetBoundsLoop, hF, List.foldl_cons]
    exact ih _

theorem isPyramidPhase_iff (phase : Int) :
    isPyramidPhase phase = true ↔ (phase = 0 ∨ phase = 1 ∨ phase = 2 ∨ phase = 3 ∨ phase = 5) := by
  unfold isPyramidPhase
  simp [Bool.or_eq_true, or_assoc]

theorem phase_cases (phase : Int) (h : 0 ≤ phase ∧ phase ≤ 5) :
    (isPyramidPhase phase = true ∧ phase ≠ 4) ∨ (isPyramidPhase phase = false ∧ phase = 4) := by
  have h6 : phase = 0 ∨ phase = 1 ∨ phase = 2 ∨ phase = 3 ∨ phase = 4 ∨ phase = 5 := by omega
  rcases h6 with h | h | h | h | h | h <;> subst h <;> decide

theorem valueRowsOfPhase_eq (phase : Int) (h : 0 ≤ phase ∧ phase ≤ 5) :
    valueRowsOfPhase phase
      = 5 * (if isPyramidPhase phase = true then 1 else 0) + 3 * (if phase = 4 then 1 else 0) := by
  unfold valueRowsOfPhase
  rcases phase_cases phase h with ⟨hp, h4⟩ | ⟨hp, h4⟩ <;> simp only [hp] <;> simp [h4]

theorem boundRowsOfPhase_eq (phase : Int) (h : 0 ≤ phase ∧ phase ≤ 5) :
    boundRowsOfPhase phase = valueRowsOfPhase phase := by
  unfold boundRowsOfPhase valueRowsOfPhase
  rcases phase_cases phase h with ⟨hp, h4⟩ | ⟨hp, h4⟩ <;> simp only [hp] <;> simp [h4]

theorem sum_valueRows (F : NodesVariablesPhaseBased) (ee : Nat) :
    ∀ ids : List Nat, (∀ id ∈ ids, 0 ≤ F.GetPhase id ee ∧ F.GetPhase id ee ≤ 5) →
      (ids.map (fun id => valueRowsOfPhase (F.GetPhase id ee))).sum
        = 5 * pyramidCount F ee ids + 3 * driftCount F ee ids := by
  intro ids
  induction ids with
  | nil => intro _; simp [pyramidCount, driftCount]
  | cons k ids ih =>
    intro h
    have hk := h k (List.mem_cons_self _ _)
    have ih := ih (fun id hid => h id (List.mem_cons_of_mem _ hid))
    simp only [pyramidCount, driftCount] at ih ⊢
    rw [List.map_cons, List.sum_cons, ih, valueRowsOfPhase_eq _ hk, List.countP_cons,
      List.countP_cons]
    simp only [decide_eq_true_eq]
    ring

theorem sum_boundRows (F : NodesVariablesPhaseBased) (ee : Nat) (ids : List Nat)
    (h : ∀ id ∈ ids, 0 ≤ F.GetPhase id ee ∧ F.GetPhase id ee ≤ 5) :
    (ids.map (fun id => boundRowsOfPhase (F.GetPhase id ee))).sum
      = 5 * pyramidCount F ee ids + 3 * driftCount F ee ids := by
  rw [← sum_valueRows F ee ids h]
  congr 1
  apply List.map_congr_left
  intro id hid
  exact boundRowsOfPhase_eq _ (h id hid)

theorem count_add (F : NodesVariablesPhaseBased) (ee : Nat) :
    ∀ ids : List Nat, (∀ id ∈ ids, 0 ≤ F.GetPhase id ee ∧ F.GetPhase id ee ≤ 5) →
      pyramidCount F ee ids + driftCount F ee ids = ids.length := by
  intro ids
  induction ids with
  | nil => intro _; simp [pyramidCount, driftCount]
  | cons k ids ih =>
    intro h
    have hk := h k (List.mem_cons_self _ _)
    have ih := ih (fun id hid => h id (List.mem_cons_of_mem _ hid))
    simp only [pyramidCount, driftCount] at ih ⊢
    rw [List.countP_cons, List.countP_cons, List.length_cons, ← ih]
    rcases phase_cases _ hk with ⟨hp, h4⟩ | ⟨hp, h4⟩ <;> simp only [hp] <;> simp [h4] <;> omega

theorem Init_GetRows (terrain : HeightMap) (force_limit : ℚ) (ee : Nat) (fpps : Int) (x : Variables) :
    (InitVariableDependedQuantities (ForceConstraint.new terrain force_limit ee fpps) x).GetRows
      = constraintCount ee (List.range (x.EEForceNodes ee).GetNodes.length) 5 3 fpps := by
  simp [InitVariableDependedQuantities, ForceConstraint.SetRows, ForceConstraint.GetRows,
    ForceConstraint.new, k2D, toInt32, NodesVariablesPhaseBased.GetIndicesOfAllNodes]

theorem constraintCount_normal (ee : Nat) (ids : List Nat) (fpps : Int) (hee : ee = 0 ∨ ee = 1)
    (hfit : 5 * (ids.length : Int) < 2147483648) :
    constraintCount ee ids 5 3 fpps = 5 * (ids.length : Int) := by
  have h23 : ¬ (ee = 2 ∨ ee = 3) := by omega
  simp only [constraintCount, hee, h23, if_true, if_false, toInt32, toSizeT]
  omega

theorem constraintCount_drift (ee : Nat) (ids : List Nat) (fpps : Int) (hee : ee = 2 ∨ ee = 3)
    (hfit : InInt32 ((2 * (fpps + 1) - 1) * 5 + ((fpps + 1) - 1) * 3)) :
    constraintCount ee ids 5 3 fpps = (2 * (fpps + 1) - 1) * 5 + ((fpps + 1) - 1) * 3 := by
  unfold InInt32 at hfit
  simp only [constraintCount, hee, if_true, toInt32]
  omega

theorem constraintCount_other (ee : Nat) (ids : List Nat) (fpps : Int) (hee : 3 < ee) :
    constraintCount ee ids 5 3 fpps = 0 := by
  have h01 : ¬ (ee = 0 ∨ ee = 1) := by omega
  have h23 : ¬ (ee = 2 ∨ ee = 3) := by omega
  simp only [constraintCount, h01, h23, if_false]

theorem Init_fields (terrain : HeightMap) (force_limit : ℚ) (ee : Nat) (fpps : Int) (x : Variables) :
    (InitVariableDependedQuantities (ForceConstraint.new terrain force_limit ee fpps) x).ee_ = ee ∧
    (InitVariableDependedQuantities (ForceConstraint.new terrain force_limit ee fpps) x).ee_force_
      = some (x.EEForceNodes ee) ∧
    (InitVariableDependedQuantities (ForceConstraint.new terrain force_limit ee fpps) x).ee_motion_
      = some (x.EEMotionNodes ee) ∧
    (InitVariableDependedQuantities (ForceConstraint.new terrain force_limit ee fpps)
      x).pure_stance_force_node_ids_ = List.range (x.EEForceNodes ee).GetNodes.length := by
  simp [InitVariableDependedQuantities, ForceConstraint.SetRows, ForceConstraint.new,
    NodesVariablesPhaseBased.GetIndicesOfAllNodes]

theorem GetValues_of_rows_eq (c : ForceConstraint) (written : List ℚ)
    (hw : GetValuesWritten c = some written) (hrows : c.GetRows = written.length) :
    GetValues c = some (written.map some) := by
  simp [GetValues, hw, hrows]

theorem nodeValueRows_pyramid (mu : ℚ) (phase : Int) (f n t1 t2 : Vector3d)
    (hphase : phase = 0 ∨ phase = 1 ∨ phase = 2 ∨ phase = 3 ∨ phase = 5) :
    nodeValueRows mu phase f n t1 t2
      = [f.dot n, f.dot (t1.sub (n.smul mu)), f.dot (t1.add (n.smul mu)),
          f.dot (t2.sub (n.smul mu)), f.dot (t2.add (n.smul mu))] := by
  have hp : isPyramidPhase phase = true := (isPyramidPhase_iff phase).mpr hphase
  simp [nodeValueRows, hp]

theorem nodeValueRows_drift (mu : ℚ) (f n t1 t2 : Vector3d) :
    nodeValueRows mu 4 f n t1 t2
      = [f.dot n, f.dot (t1.sub (n.smul mu)), f.dot (t2.sub (n.smul mu))] := by
  have hp : isPyramidPhase 4 = false := by decide
  simp [nodeValueRows, hp]

theorem GetBoundsBody_pyramid (c : ForceConstraint) (F : NodesVariablesPhaseBased)
    (bounds : List Bounds) (k : Nat)
    (hphase : F.GetPhase k c.ee_ = 0 ∨ F.GetPhase k c.ee_ = 1 ∨ F.GetPhase k c.ee_ = 2 ∨
      F.GetPhase k c.ee_ = 3 ∨ F.GetPhase k c.ee_ = 5) :
    GetBoundsBody c F bounds k
      = bounds ++ [Bounds.mk (some 0) (some c.fn_max_), Bounds.mk none (some 0),
          Bounds.mk (some 0) none, Bounds.mk none (some 0), Bounds.mk (some 0) none] := by
  have hp : isPyramidPhase (F.GetPhase k c.ee_) = true := (isPyramidPhase_iff _).mpr hphase
  simp [GetBoundsBody, hp, BoundSmallerZero, BoundGreaterZero]

theorem GetBoundsBody_drift (c : ForceConstraint) (F : NodesVariablesPhaseBased)
    (bounds : List Bounds) (k : Nat) (hphase : F.GetPhase k c.ee_ = 4) :
    GetBoundsBody c F bounds k
      = bounds ++ [Bounds.mk (some 0) (some c.fn_max_), Bounds.mk (some 0) (some 0),
          Bounds.mk (some 0) (some 0)] := by
  have hp : isPyramidPhase 4 = false := by decide
  simp [GetBoundsBody, hphase, hp, BoundZero]

theorem nodeValueRows_head (mu : ℚ) (phase : Int) (f n t1 t2 : Vector3d) :
    ∃ rest, nodeValueRows mu phase f n t1 t2 = f.dot n :: rest := by
  unfold nodeValueRows
  split_ifs
  · exact ⟨_, rfl⟩
  · exact ⟨_, rfl⟩
  · exact ⟨_, rfl⟩

theorem nodeValueRows_eq_map (mu : ℚ) (phase : Int) (f n t1 t2 : Vector3d)
    (hphase : 0 ≤ phase ∧ phase ≤ 5) :
    nodeValueRows mu phase f n t1 t2
      = (basisCombinations mu phase n t1 t2).map (fun v => f.dot v) := by
  rcases phase_cases phase hphase with ⟨hp, _⟩ | ⟨hp, h4⟩
  · simp [nodeValueRows, basisCombinations, hp]
  · subst h4
    simp [nodeValueRows, basisCombinations, hp]

theorem coeff_sub_smul (t n : Vector3d) (mu : ℚ) (dim : Dim3D) :
    (t.sub (n.smul mu)).coeff dim = t.coeff dim - mu * n.coeff dim := by
  cases dim <;> rfl

theorem coeff_add_smul (t n : Vector3d) (mu : ℚ) (dim : Dim3D) :
    (t.add (n.smul mu)).coeff dim = t.coeff dim + mu * n.coeff dim := by
  cases dim <;> rfl

theorem toInt32_of_fits (x : Int) (h0 : 0 ≤ x) (h1 : x < 2147483648) : toInt32 x = x := by
  unfold toInt32
  omega

theorem forceJacobianDim_eq (c : ForceConstraint) (F : NodesVariablesPhaseBased) (k : Nat)
    (phase : Int) (n t1 t2 : Vector3d) (row : Int) (dim : Dim3D)
    (hphase : 0 ≤ phase ∧ phase ≤ 5) (hrow : 0 ≤ row) (hfit : row + 4 < 2147483648) :
    forceJacobianDim c F k phase n t1 t2 row dim
      = blockEntries row (F.GetOptIndex k Dx.kPos dim)
          ((basisCombinations c.mu_ phase n t1 t2).map (fun v => v.coeff dim)) := by
  have e1 : toInt32 (row + 1) = row + 1 := toInt32_of_fits _ (by omega) (by omega)
  have e2 : toInt32 (row + 2) = row + 2 := toInt32_of_fits _ (by omega) (by omega)
  have e3 : toInt32 (row + 3) = row + 3 := toInt32_of_fits _ (by omega) (by omega)
  have e4 : toInt32 (row + 4) = row + 4 := toInt32_of_fits _ (by omega) (by omega)
  have a2 : row + 1 + 1 = row + 2 := by ring
  have a3 : row + 2 + 1 = row + 3 := by ring
  have a4 : row + 3 + 1 = row + 4 := by ring
  rcases phase_cases phase hphase with ⟨hp, h4⟩ | ⟨hp, h4⟩
  · simp [forceJacobianDim, basisCombinations, blockEntries, hp, h4, e1, e2, e3, e4, a2, a3, a4,
      coeff_sub_smul, coeff_add_smul]
  · subst h4
    simp [forceJacobianDim, basisCombinations, blockEntries, hp, e1, e2, a2,
      coeff_sub_smul]

theorem motionJacobianDim_eq (c : ForceConstraint) (M : NodesVariablesPhaseBased) (k : Nat)
    (phase : Int) (p f : Vector3d) (row : Int) (dim : Dim2D)
    (hphase : 0 ≤ phase ∧ phase ≤ 5) (hrow : 0 ≤ row) (hfit : row + 4 < 2147483648) :
    motionJacobianDim c M k phase p f row dim
      = blockEntries row (M.GetOptIndex k Dx.kPos dim.to3D)
          ((basisCombinations c.mu_ phase
            (c.terrain_.GetDerivativeOfNormalizedBasisWrt Direction.Normal dim p.x p.y)
            (c.terrain_.GetDerivativeOfNormalizedBasisWrt Direction.Tangent1 dim p.x p.y)
            (c.terrain_.GetDerivativeOfNormalizedBasisWrt Direction.Tangent2 dim p.x p.y)).map
            (fun v => f.dot v)) := by
  have e1 : toInt32 (row + 1) = row + 1 := toInt32_of_fits _ (by omega) (by omega)
  have e2 : toInt32 (row + 2) = row + 2 := toInt32_of_fits _ (by omega) (by omega)
  have e3 : toInt32 (row + 3) = row + 3 := toInt32_of_fits _ (by omega) (by omega)
  have e4 : toInt32 (row + 4) = row + 4 := toInt32_of_fits _ (by omega) (by omega)
  have a2 : row + 1 + 1 = row + 2 := by ring
  have a3 : row + 2 + 1 = row + 3 := by ring
  have a4 : row + 3 + 1 = row + 4 := by ring
  rcases phase_cases phase hphase with ⟨hp, h4⟩ | ⟨hp, h4⟩
  · simp [motionJacobianDim, basisCombinations, blockEntries, hp, e1, e2, e3, e4, a2, a3, a4]
  · subst h4
    simp [motionJacobianDim, basisCombinations, blockEntries, hp, e1, e2, a2]

theorem blockEntries_col (col : Nat) :
    ∀ (vals : List ℚ) (row : Int), ∀ t ∈ blockEntries row col vals, t.col = col := by
  intro vals
  induction vals with
  | nil => intro row t ht; simp [blockEntries] at ht
  | cons v vs ih =>
    intro row t ht
    simp only [blockEntries, List.mem_cons] at ht
    rcases ht with h | h
    · rw [h]
    · exact ih _ t h

theorem exampleSet_GetOptIndex_injective (name : String) (nodes : List Node) (tags : List Int)
    (j j2 : Nat) (dx dx2 : Dx) (d d2 : Dim3D)
    (h : (exampleSet name nodes tags).GetOptIndex j dx d
      = (exampleSet name nodes tags).GetOptIndex j2 dx2 d2) :
    j = j2 ∧ dx = dx2 ∧ d = d2 := by
  simp only [exampleSet] at h
  cases dx <;> cases dx2 <;> cases d <;> cases d2 <;> simp only at h <;>
    first
      | (refine ⟨by omega, rfl, rfl⟩)
      | (exfalso; omega)

theorem GetValuesLoop_eq_flatMap (c : ForceConstraint) (F M : NodesVariablesPhaseBased) :
    ∀ (ids : List Nat) (g : List ℚ),
      (∀ id ∈ ids, id < M.GetNodes.length ∧ id < F.GetNodes.length) →
      GetValuesLoop c F M ids g = some (g ++ ids.flatMap (nodeRowsOf c F M)) := by
  intro ids
  induction ids with
  | nil => intro g _; simp [GetValuesLoop]
  | cons k ids ih =>
    intro g h
    obtain ⟨hkM, hkF⟩ := h k (List.mem_cons_self _ _)
    have hm : M.GetNodes[k]? = some (M.GetNodes[k]) := List.getElem?_eq_getElem hkM
    have hf : F.GetNodes[k]? = some (F.GetNodes[k]) := List.getElem?_eq_getElem hkF
    have hb := GetValuesBody_eq c F M g k _ _ hm hf
    have hb0 := GetValuesBody_eq c F M [] k _ _ hm hf
    simp only [GetValuesLoop, hb]
    rw [ih _ (fun id hid => h id (List.mem_cons_of_mem _ hid))]
    simp [nodeRowsOf, hb0, List.flatMap_cons]

theorem nodeRowsOf_eq (c : ForceConstraint) (F M : NodesVariablesPhaseBased) (k : Nat)
    (m fn : Node) (hm : M.GetNodes[k]? = some m) (hf : F.GetNodes[k]? = some fn) :
    nodeRowsOf c F M k = nodeValueRows c.mu_ (F.GetPhase k c.ee_) fn.p
      (c.terrain_.GetNormalizedBasis Direction.Normal m.p.x m.p.y)
      (c.terrain_.GetNormalizedBasis Direction.Tangent1 m.p.x m.p.y)
      (c.terrain_.GetNormalizedBasis Direction.Tangent2 m.p.x m.p.y) := by
  simp [nodeRowsOf, GetValuesBody_eq c F M [] k m fn hm hf]

theorem flatMap_nodeRowsOf_length (c : ForceConstraint) (F M : NodesVariablesPhaseBased) :
    ∀ ids : List Nat, (∀ id ∈ ids, id < M.GetNodes.length ∧ id < F.GetNodes.length) →
      (ids.flatMap (nodeRowsOf c F M)).length
        = (ids.map (fun id => valueRowsOfPhase (F.GetPhase id c.ee_))).sum := by
  intro ids
  induction ids with
  | nil => intro _; simp
  | cons k ids ih =>
    intro h
    obtain ⟨hkM, hkF⟩ := h k (List.mem_cons_self _ _)
    have hm : M.GetNodes[k]? = some (M.GetNodes[k]) := List.getElem?_eq_getElem hkM
    have hf : F.GetNodes[k]? = some (F.GetNodes[k]) := List.getElem?_eq_getElem hkF
    simp only [List.flatMap_cons, List.length_append, List.map_cons, List.sum_cons,
      ih (fun id hid => h id (List.mem_cons_of_mem _ hid)),
      nodeRowsOf_eq c F M k _ _ hm hf, nodeValueRows_length]

theorem GetBoundsBody_append (c : ForceConstraint) (F : NodesVariablesPhaseBased)
    (bounds : List Bounds) (k : Nat) :
    GetBoundsBody c F bounds k = bounds ++ GetBoundsBody c F [] k := by
  simp only [GetBoundsBody]
  split_ifs <;> simp

theorem GetBounds_foldl_eq_flatMap (c : ForceConstraint) (F : NodesVariablesPhaseBased) :
    ∀ (ids : List Nat) (bounds : List Bounds),
      ids.foldl (GetBoundsBody c F) bounds
        = bounds ++ ids.flatMap (GetBoundsBody c F []) := by
  intro ids
  induction ids with
  | nil => intro bounds; simp
  | cons k ids ih =>
    intro bounds
    rw [List.foldl_cons, ih, GetBoundsBody_append c F bounds k, List.flatMap_cons,
      List.append_assoc]

theorem flatMap_GetBoundsBody_length (c : ForceConstraint) (F : NodesVariablesPhaseBased)
    (ids : List Nat) :
    (ids.flatMap (GetBoundsBody c F [])).length
      = (ids.map (fun id => boundRowsOfPhase (F.GetPhase id c.ee_))).sum := by
  have h := GetBounds_foldl_length c F ids []
  rw [GetBounds_foldl_eq_flatMap] at h
  simpa using h

theorem range_split (n k : Nat) (hk : k < n) :
    ∃ post, List.range n = List.range k ++ k :: post := by
  induction n with
  | zero => omega
  | succ n ih =>
    rcases Nat.lt_succ_iff_lt_or_eq.mp hk with h | h
    · obtain ⟨post, hpost⟩ := ih h
      exact ⟨post ++ [n], by rw [List.range_succ, hpost]; simp⟩
    · subst h
      exact ⟨[], List.range_succ k⟩

theorem drop_take_block {α : Type} (a b d : List α) (off len : Nat)
    (hoff : a.length = off) (hlen : b.length = len) :
    ((a ++ (b ++ d)).drop off).take len = b := by
  subst hoff hlen
  simp

theorem GetValuesWritten_block (c : ForceConstraint) (F M : NodesVariablesPhaseBased)
    (k : Nat) (m fn : Node)
    (hF : c.ee_force_ = some F) (hM : c.ee_motion_ = some M)
    (hids : c.pure_stance_force_node_ids_ = List.range F.GetNodes.length)
    (hcover : F.GetNodes.length ≤ M.GetNodes.length)
    (hm : M.GetNodes[k]? = some m) (hf : F.GetNodes[k]? = some fn) :
    ∃ before after : List ℚ,
      GetValuesWritten c = some (before ++ (nodeValueRows c.mu_ (F.GetPhase k c.ee_) fn.p
        (c.terrain_.GetNormalizedBasis Direction.Normal m.p.x m.p.y)
        (c.terrain_.GetNormalizedBasis Direction.Tangent1 m.p.x m.p.y)
        (c.terrain_.GetNormalizedBasis Direction.Tangent2 m.p.x m.p.y) ++ after)) ∧
      before.length
        = ((List.range k).map (fun id => valueRowsOfPhase (F.GetPhase id c.ee_))).sum := by
  have hk : k < F.GetNodes.length := by
    rcases Nat.lt_or_ge k F.GetNodes.length with h | h
    · exact h
    · rw [List.getElem?_eq_none h] at hf
      exact absurd hf (by simp)
  have hin : ∀ id ∈ List.range F.GetNodes.length,
      id < M.GetNodes.length ∧ id < F.GetNodes.length :=
    fun id hid => ⟨lt_of_lt_of_le (List.mem_range.mp hid) hcover, List.mem_range.mp hid⟩
  obtain ⟨post, hpost⟩ := range_split _ k hk
  have hinpre : ∀ id ∈ List.range k, id < M.GetNodes.length ∧ id < F.GetNodes.length :=
    fun id hid => hin id (by rw [hpost]; exact List.mem_append_left _ hid)
  refine ⟨(List.range k).flatMap (nodeRowsOf c F M), post.flatMap (nodeRowsOf c F M), ?_,
    flatMap_nodeRowsOf_length c F M _ hinpre⟩
  simp only [GetValuesWritten, hF, hM, hids, Option.bind_eq_bind, Option.some_bind]
  rw [GetValuesLoop_eq_flatMap c F M _ [] hin, hpost, List.flatMap_append, List.flatMap_cons,
    nodeRowsOf_eq c F M k m fn hm hf]
  simp

theorem GetBounds_block (c : ForceConstraint) (F : NodesVariablesPhaseBased) (k : Nat)
    (hF : c.ee_force_ = some F)
    (hids : c.pure_stance_force_node_ids_ = List.range F.GetNodes.length)
    (hk : k < F.GetNodes.length) :
    ∃ before after : List Bounds,
      GetBounds c = some (before ++ (GetBoundsBody c F [] k ++ after)) ∧
      before.length
        = ((List.range k).map (fun id => boundRowsOfPhase (F.GetPhase id c.ee_))).sum := by
  obtain ⟨post, hpost⟩ := range_split _ k hk
  refine ⟨(List.range k).flatMap (GetBoundsBody c F []), post.flatMap (GetBoundsBody c F []), ?_,
    flatMap_GetBoundsBody_length c F _⟩
  rw [GetBounds, hids, GetBoundsLoop_eq c F hF, GetBounds_foldl_eq_flatMap, hpost,
    List.flatMap_append, List.flatMap_cons]
  simp

theorem getElem?_lt_length {α : Type} (l : List α) (k : Nat) (a : α) (h : l[k]? = some a) :
    k < l.length := by
  rcases Nat.lt_or_ge k l.length with h1 | h1
  · exact h1
  · rw [List.getElem?_eq_none h1] at h
    exact absurd h (by simp)

theorem offset_values (F : NodesVariablesPhaseBased) (ee k : Nat)
    (hbefore : ∀ id, id < k → 0 ≤ F.GetPhase id ee ∧ F.GetPhase id ee ≤ 5) :
    ((List.range k).map (fun id => valueRowsOfPhase (F.GetPhase id ee))).sum
      = 5 * pyramidCount F ee (List.range k) + 3 * driftCount F ee (List.range k) :=
  sum_valueRows F ee _ (fun id hid => hbefore id (List.mem_range.mp hid))

theorem offset_bounds (F : NodesVariablesPhaseBased) (ee k : Nat)
    (hbefore : ∀ id, id < k → 0 ≤ F.GetPhase id ee ∧ F.GetPhase id ee ≤ 5) :
    ((List.range k).map (fun id => boundRowsOfPhase (F.GetPhase id ee))).sum
      = 5 * pyramidCount F ee (List.range k) + 3 * driftCount F ee (List.range k) :=
  sum_boundRows F ee _ (fun id hid => hbefore id (List.mem_range.mp hid))

theorem jacobianLoop_success (body : Int → Nat → Option (List Triplet × Int))
    (blk : Nat → Int → List Triplet) (adv : Nat → Int → Int) (ok : Nat → Prop)
    (hbody : ∀ id row, ok id → body row id = some (blk id row, adv id row)) :
    ∀ (ids : List Nat) (row : Int), (∀ id ∈ ids, ok id) →
      ∃ written, jacobianLoop body ids row = some written := by
  intro ids
  induction ids with
  | nil => intro row _; exact ⟨[], rfl⟩
  | cons a ids ih =>
    intro row h
    obtain ⟨rest, hrest⟩ := ih (adv a row) (fun id hid => h id (List.mem_cons_of_mem _ hid))
    refine ⟨blk a row ++ rest, ?_⟩
    simp only [jacobianLoop, hbody a row (h a (List.mem_cons_self _ _)), hrest]

theorem jacobianLoop_split (body : Int → Nat → Option (List Triplet × Int))
    (blk : Nat → Int → List Triplet) (adv : Nat → Int → Int) (ok : Nat → Prop)
    (hbody : ∀ id row, ok id → body row id = some (blk id row, adv id row))
    (k : Nat) (post : List Nat) :
    ∀ (pre : List Nat) (row : Int), (∀ id ∈ pre ++ k :: post, ok id) →
      ∃ before after, jacobianLoop body (pre ++ k :: post) row
        = some (before ++ (blk k (pre.foldl (fun r id => adv id r) row) ++ after)) := by
  intro pre
  induction pre with
  | nil =>
    intro row h
    obtain ⟨rest, hrest⟩ := jacobianLoop_success body blk adv ok hbody post (adv k row)
      (fun id hid => h id (by simp [hid]))
    refine ⟨[], rest, ?_⟩
    simp only [List.nil_append, jacobianLoop, hbody k row (h k (by simp)), hrest, List.foldl_nil]
  | cons a pre ih =>
    intro row h
    obtain ⟨before, after, hsplit⟩ := ih (adv a row)
      (fun id hid => h id (by
        rw [List.cons_append]
        exact List.mem_cons_of_mem _ hid))
    refine ⟨blk a row ++ before, after, ?_⟩
    simp only [List.cons_append, jacobianLoop, hbody a row (h a (by simp)), List.foldl_cons]
    rw [show pre.append (k :: post) = pre ++ k :: post from rfl, hsplit]
    simp

theorem forceJacobianBody_eq (c : ForceConstraint) (F M : NodesVariablesPhaseBased)
    (row : Int) (k : Nat) (hk : k < M.GetNodes.length) :
    forceJacobianBody c F M row k
      = some ([Dim3D.X, Dim3D.Y, Dim3D.Z].flatMap (forceJacobianDim c F k (F.GetPhase k c.ee_)
          (c.terrain_.GetNormalizedBasis Direction.Normal (M.GetNodes[k]).p.x (M.GetNodes[k]).p.y)
          (c.terrain_.GetNormalizedBasis Direction.Tangent1 (M.GetNodes[k]).p.x (M.GetNodes[k]).p.y)
          (c.terrain_.GetNormalizedBasis Direction.Tangent2 (M.GetNodes[k]).p.x (M.GetNodes[k]).p.y)
          row),
        advanceRow c (F.GetPhase k c.ee_) row) := by
  have hm : M.GetNodes[k]? = some (M.GetNodes[k]) := List.getElem?_eq_getElem hk
  simp only [forceJacobianBody, hm, Option.bind_eq_bind, Option.some_bind, Option.pure_def]

theorem motionJacobianBody_eq (c : ForceConstraint) (F M : NodesVariablesPhaseBased)
    (row : Int) (k : Nat) (hk : k < M.GetNodes.length ∧ k < F.GetNodes.length) :
    motionJacobianBody c F M row k
      = some ([Dim2D.X_, Dim2D.Y_].flatMap (motionJacobianDim c M k (F.GetPhase k c.ee_)
          (M.GetNodes[k]).p (F.GetNodes[k]).p row),
        advanceRow c (F.GetPhase k c.ee_) row) := by
  have hm : M.GetNodes[k]? = some (M.GetNodes[k]) := List.getElem?_eq_getElem hk.1
  have hf : F.GetNodes[k]? = some (F.GetNodes[k]) := List.getElem?_eq_getElem hk.2
  simp only [motionJacobianBody, hm, hf, Option.bind_eq_bind, Option.some_bind, Option.pure_def]

theorem advanceRow_eq (c : ForceConstraint) (phase : Int) (row : Int)
    (hper : c.n_constraints_per_node_ = 5) (hdrift : c.n_constraints_drift_node_ = 3)
    (hphase : 0 ≤ phase ∧ phase ≤ 5) (hrow : 0 ≤ row) (hfit : row + 5 < 2147483648) :
    advanceRow c phase row = row + (valueRowsOfPhase phase : Int) := by
  have e3 : toInt32 (row + 3) = row + 3 := toInt32_of_fits _ (by omega) (by omega)
  have e5 : toInt32 (row + 5) = row + 5 := toInt32_of_fits _ (by omega) (by omega)
  rcases phase_cases phase hphase with ⟨hp, h4⟩ | ⟨hp, h4⟩
  · simp [advanceRow, valueRowsOfPhase, hp, h4, hper, e5]
  · subst h4
    simp [advanceRow, valueRowsOfPhase, hp, hdrift, e3]

theorem valueRowsOfPhase_le (phase : Int) : valueRowsOfPhase phase ≤ 5 := by
  unfold valueRowsOfPhase
  split_ifs <;> omega

theorem rowAfter_eq (c : ForceConstraint) (F : NodesVariablesPhaseBased)
    (hper : c.n_constraints_per_node_ = 5) (hdrift : c.n_constraints_drift_node_ = 3) :
    ∀ (pre : List Nat) (row : Int),
      (∀ id ∈ pre, 0 ≤ F.GetPhase id c.ee_ ∧ F.GetPhase id c.ee_ ≤ 5) →
      0 ≤ row → row + 5 * (pre.length : Int) < 2147483648 →
      pre.foldl (fun r id => advanceRow c (F.GetPhase id c.ee_) r) row
        = row + ((pre.map (fun id => valueRowsOfPhase (F.GetPhase id c.ee_))).sum : Nat) := by
  intro pre
  induction pre with
  | nil => intro row _ _ _; simp
  | cons a pre ih =>
    intro row h hrow hfit
    simp only [List.length_cons, Nat.cast_add, Nat.cast_one] at hfit
    have ha := h a (List.mem_cons_self _ _)
    have hle := valueRowsOfPhase_le (F.GetPhase a c.ee_)
    rw [List.foldl_cons, advanceRow_eq c _ row hper hdrift ha hrow (by omega),
      ih _ (fun id hid => h id (List.mem_cons_of_mem _ hid)) (by omega) (by omega)]
    simp only [List.map_cons, List.sum_cons, Nat.cast_add]
    ring

theorem Init_params (terrain : HeightMap) (force_limit : ℚ) (ee : Nat) (fpps : Int)
    (x : Variables) :
    (InitVariableDependedQuantities (ForceConstraint.new terrain force_limit ee fpps) x).terrain_
      = terrain ∧
    (InitVariableDependedQuantities (ForceConstraint.new terrain force_limit ee fpps) x).fn_max_
      = force_limit ∧
    (InitVariableDependedQuantities (ForceConstraint.new terrain force_limit ee fpps) x).mu_
      = terrain.GetFrictionCoeff ∧
    (InitVariableDependedQuantities (ForceConstraint.new terrain force_limit ee fpps)
      x).n_constraints_per_node_ = 5 ∧
    (InitVariableDependedQuantities (ForceConstraint.new terrain force_limit ee fpps)
      x).n_constraints_drift_node_ = 3 := by
  simp [InitVariableDependedQuantities, ForceConstraint.SetRows, ForceConstraint.new, k2D, toInt32]

/-- In a node context, the rows of `GetValues` and the bounds of `GetBounds`:
the block of node `k` starts at `off` in both. -/
theorem NodeContext.blocks {terrain : HeightMap} {force_limit : ℚ} {ee : Nat} {fpps : Int}
    {x : Variables} {c : ForceConstraint} {F M : NodesVariablesPhaseBased} {k off : Nat}
    {m fn : Node} {n t1 t2 : Vector3d}
    (h : NodeContext terrain force_limit ee fpps x c F M k off m fn n t1 t2) :
    ∃ (w : List ℚ) (bs : List Bounds),
      GetValuesWritten c = some w ∧ GetBounds c = some bs ∧
      (∀ len, (nodeValueRows terrain.GetFrictionCoeff (F.GetPhase k ee) fn.p n t1 t2).length = len →
        (w.drop off).take len
          = nodeValueRows terrain.GetFrictionCoeff (F.GetPhase k ee) fn.p n t1 t2) ∧
      (∀ len, (GetBoundsBody c F [] k).length = len →
        (bs.drop off).take len = GetBoundsBody c F [] k) ∧
      c.ee_ = ee ∧ c.fn_max_ = force_limit := by
  obtain ⟨hc, hF, hM, hcover, hm, hf, hn, ht1, ht2, hbefore, hoff⟩ := h
  obtain ⟨hee, hcF, hcM, hids⟩ := Init_fields terrain force_limit ee fpps x
  obtain ⟨hterrain, hfn, hmu, _, _⟩ := Init_params terrain force_limit ee fpps x
  rw [← hc] at hee hcF hcM hids hterrain hfn hmu
  rw [← hF] at hcF hids
  rw [← hM] at hcM
  obtain ⟨vb, va, hw, hvlen⟩ := GetValuesWritten_block c F M k m fn hcF hcM hids hcover hm hf
  obtain ⟨bb, ba, hb, hblen⟩ := GetBounds_block c F k hcF hids (getElem?_lt_length _ _ _ hf)
  rw [hee] at hvlen hblen
  rw [offset_values F ee k hbefore, ← hoff] at hvlen
  rw [offset_bounds F ee k hbefore, ← hoff] at hblen
  rw [hterrain, hmu, hee, ← hn, ← ht1, ← ht2] at hw
  refine ⟨_, _, hw, hb, ?_, ?_, hee, hfn⟩
  · intro len hlen
    exact drop_take_block _ _ _ off len hvlen hlen
  · intro len hlen
    exact drop_take_block _ _ _ off len hblen hlen

theorem rowAfter_range (c : ForceConstraint) (F : NodesVariablesPhaseBased) (ee k off : Nat)
    (hee : c.ee_ = ee)
    (hper : c.n_constraints_per_node_ = 5) (hdrift : c.n_constraints_drift_node_ = 3)
    (hbefore : ∀ id, id < k → 0 ≤ F.GetPhase id ee ∧ F.GetPhase id ee ≤ 5)
    (hoff : off = 5 * pyramidCount F ee (List.range k) + 3 * driftCount F ee (List.range k))
    (hfit : 5 * (k : Int) < 2147483648) :
    (List.range k).foldl (fun r id => advanceRow c (F.GetPhase id c.ee_) r) 0 = (off : Int) := by
  subst hee
  rw [rowAfter_eq c F hper hdrift (List.range k) 0
    (fun id hid => hbefore id (List.mem_range.mp hid)) (le_refl 0)
    (by simpa using hfit), offset_values F c.ee_ k hbefore, ← hoff]
  simp

theorem offset_le (F : NodesVariablesPhaseBased) (ee k off : Nat)
    (hoff : off = 5 * pyramidCount F ee (List.range k) + 3 * driftCount F ee (List.range k))
    (hbefore : ∀ id, id < k → 0 ≤ F.GetPhase id ee ∧ F.GetPhase id ee ≤ 5) :
    off ≤ 5 * k := by
  have h := count_add F ee (List.range k) (fun id hid => hbefore id (List.mem_range.mp hid))
  rw [List.length_range] at h
  omega

/-- In a node context, the entries of the force branch of `FillJacobianBlock`:
the block of node `k` starts at row `off`. -/
theorem NodeContext.forceBlock {terrain : HeightMap} {force_limit : ℚ} {ee : Nat} {fpps : Int}
    {x : Variables} {c : ForceConstraint} {F M : NodesVariablesPhaseBased} {k off : Nat}
    {m fn : Node} {n t1 t2 : Vector3d}
    (h : NodeContext terrain force_limit ee fpps x c F M k off m fn n t1 t2)
    (hphase : 0 ≤ F.GetPhase k ee ∧ F.GetPhase k ee ≤ 5)
    (hfit : 5 * (F.GetNodes.length : Int) < 2147483648) :
    ∃ before after : List Triplet,
      forceJacobianWritten c F M
        = some (before ++ ([Dim3D.X, Dim3D.Y, Dim3D.Z].flatMap (fun dim =>
            blockEntries (off : Int) (F.GetOptIndex k Dx.kPos dim)
              ((basisCombinations terrain.GetFrictionCoeff (F.GetPhase k ee) n t1 t2).map
                (fun v => v.coeff dim))) ++ after)) := by
  obtain ⟨hc, hF, hM, hcover, hm, hf, hn, ht1, ht2, hbefore, hoff⟩ := h
  obtain ⟨hee, hcF, hcM, hids⟩ := Init_fields terrain force_limit ee fpps x
  obtain ⟨hterrain, hfn, hmu, hper, hdrift⟩ := Init_params terrain force_limit ee fpps x
  rw [← hc] at hee hcF hcM hids hterrain hfn hmu hper hdrift
  rw [← hF] at hcF hids
  have hkF : k < F.GetNodes.length := getElem?_lt_length _ _ _ hf
  have hkM : k < M.GetNodes.length := getElem?_lt_length _ _ _ hm
  obtain ⟨post, hpost⟩ := range_split _ k hkF
  have hok : ∀ id ∈ List.range k ++ k :: post, id < M.GetNodes.length := by
    intro id hid
    rw [← hpost] at hid
    exact lt_of_lt_of_le (List.mem_range.mp hid) hcover
  obtain ⟨before, after, hsplit⟩ := jacobianLoop_split (forceJacobianBody c F M)
    (fun id row => match forceJacobianBody c F M row id with
      | some (written, _) => written
      | none => [])
    (fun id row => advanceRow c (F.GetPhase id c.ee_) row)
    (fun id => id < M.GetNodes.length)
    (by
      intro id row hid
      simp only [forceJacobianBody_eq c F M row id hid])
    k post (List.range k) 0 hok
  have hle := offset_le F ee k off hoff hbefore
  rw [rowAfter_range c F ee k off hee hper hdrift hbefore hoff (by omega)] at hsplit
  refine ⟨before, after, ?_⟩
  rw [forceJacobianWritten, hids, hpost, hsplit]
  have hmk : M.GetNodes[k] = m := by
    have := List.getElem?_eq_getElem hkM
    rw [hm] at this
    exact (Option.some.inj this).symm
  simp only [forceJacobianBody_eq c F M _ k hkM, hmk, hterrain, hee, ← hn, ← ht1, ← ht2,
    List.flatMap_cons, List.flatMap_nil,
    forceJacobianDim_eq c F k _ n t1 t2 (off : Int) _ hphase (by omega) (by omega), hmu]

/-- In a node context, the entries of the motion branch of `FillJacobianBlock`:
the block of node `k` starts at row `off`. -/
theorem NodeContext.motionBlock {terrain : HeightMap} {force_limit : ℚ} {ee : Nat} {fpps : Int}
    {x : Variables} {c : ForceConstraint} {F M : NodesVariablesPhaseBased} {k off : Nat}
    {m fn : Node} {n t1 t2 : Vector3d}
    (h : NodeContext terrain force_limit ee fpps x c F M k off m fn n t1 t2)
    (hphase : 0 ≤ F.GetPhase k ee ∧ F.GetPhase k ee ≤ 5)
    (hfit : 5 * (F.GetNodes.length : Int) < 2147483648) :
    ∃ before after : List Triplet,
      motionJacobianWritten c F M
        = some (before ++ ([Dim2D.X_, Dim2D.Y_].flatMap (fun dim =>
            blockEntries (off : Int) (M.GetOptIndex k Dx.kPos dim.to3D)
              ((basisCombinations terrain.GetFrictionCoeff (F.GetPhase k ee)
                (terrain.GetDerivativeOfNormalizedBasisWrt Direction.Normal dim m.p.x m.p.y)
                (terrain.GetDerivativeOfNormalizedBasisWrt Direction.Tangent1 dim m.p.x m.p.y)
                (terrain.GetDerivativeOfNormalizedBasisWrt Direction.Tangent2 dim m.p.x m.p.y)).map
                (fun v => fn.p.dot v))) ++ after)) := by
  obtain ⟨hc, hF, hM, hcover, hm, hf, hn, ht1, ht2, hbefore, hoff⟩ := h
  obtain ⟨hee, hcF, hcM, hids⟩ := Init_fields terrain force_limit ee fpps x
  obtain ⟨hterrain, hfn, hmu, hper, hdrift⟩ := Init_params terrain force_limit ee fpps x
  rw [← hc] at hee hcF hcM hids hterrain hfn hmu hper hdrift
  rw [← hF] at hcF hids
  have hkF : k < F.GetNodes.length := getElem?_lt_length _ _ _ hf
  have hkM : k < M.GetNodes.length := getElem?_lt_length _ _ _ hm
  obtain ⟨post, hpost⟩ := range_split _ k hkF
  have hok : ∀ id ∈ List.range k ++ k :: post,
      id < M.GetNodes.length ∧ id < F.GetNodes.length := by
    intro id hid
    rw [← hpost] at hid
    exact ⟨lt_of_lt_of_le (List.mem_range.mp hid) hcover, List.mem_range.mp hid⟩
  obtain ⟨before, after, hsplit⟩ := jacobianLoop_split (motionJacobianBody c F M)
    (fun id row => match motionJacobianBody c F M row id with
      | some (written, _) => written
      | none => [])
    (fun id row => advanceRow c (F.GetPhase id c.ee_) row)
    (fun id => id < M.GetNodes.length ∧ id < F.GetNodes.length)
    (by
      intro id row hid
      simp only [motionJacobianBody_eq c F M row id hid])
    k post (List.range k) 0 hok
  have hle := offset_le F ee k off hoff hbefore
  rw [rowAfter_range c F ee k off hee hper hdrift hbefore hoff (by omega)] at hsplit
  refine ⟨before, after, ?_⟩
  rw [motionJacobianWritten, hids, hpost, hsplit]
  have hmk : M.GetNodes[k] = m := by
    have := List.getElem?_eq_getElem hkM
    rw [hm] at this
    exact (Option.some.inj this).symm
  have hfk : F.GetNodes[k] = fn := by
    have := List.getElem?_eq_getElem hkF
    rw [hf] at this
    exact (Option.some.inj this).symm
  simp only [motionJacobianBody_eq c F M _ k ⟨hkM, hkF⟩, hmk, hfk, hee,
    List.flatMap_cons, List.flatMap_nil,
    motionJacobianDim_eq c M k _ m.p fn.p (off : Int) _ hphase (by omega) (by omega), hmu,
    hterrain]

theorem FillJacobianBlock_force (c : ForceConstraint) (F M : NodesVariablesPhaseBased)
    (written : List Triplet) (jac : Jacobian)
    (hF : c.ee_force_ = some F) (hM : c.ee_motion_ = some M)
    (hw : forceJacobianWritten c F M = some written) (hname : F.GetName ≠ M.GetName) :
    FillJacobianBlock c F.GetName jac = jac.assignAll written := by
  simp only [FillJacobianBlock, hF, hM, hw, Option.bind_eq_bind, Option.some_bind, if_true,
    hname, if_false, Option.pure_def]
  cases jac.assignAll written <;> rfl

theorem FillJacobianBlock_motion (c : ForceConstraint) (F M : NodesVariablesPhaseBased)
    (written : List Triplet) (jac : Jacobian)
    (hF : c.ee_force_ = some F) (hM : c.ee_motion_ = some M)
    (hw : motionJacobianWritten c F M = some written) (hname : F.GetName ≠ M.GetName) :
    FillJacobianBlock c M.GetName jac = jac.assignAll written := by
  have hname2 : ¬ M.GetName = F.GetName := fun h => hname h.symm
  simp only [FillJacobianBlock, hF, hM, hw, Option.bind_eq_bind, Option.some_bind, if_true,
    hname2, if_false, Option.pure_def]

theorem driftGait_tags_before (k : Nat) (hk : k ≤ 4) :
    ∀ id, id < k → 0 ≤ (driftGaitVariables.EEForceNodes 2).GetPhase id 2 ∧
      (driftGaitVariables.EEForceNodes 2).GetPhase id 2 ≤ 5 := by
  intro id hid
  have h4 : id < 4 := by omega
  interval_cases id <;> decide

theorem exampleContext0 :
    NodeContext flatTerrain 1000 2 1 driftGaitVariables exampleConstraint
      (driftGaitVariables.EEForceNodes 2) (driftGaitVariables.EEMotionNodes 2) 0 0
      (nodeAt 0 0 0) (nodeAt 0 0 4) ⟨0, 0, 1⟩ ⟨1, 0, 0⟩ ⟨0, 1, 0⟩ :=
  ⟨rfl, rfl, rfl, by decide, rfl, rfl, rfl, rfl, rfl, driftGait_tags_before 0 (by decide),
    by decide⟩

theorem exampleContext1 :
    NodeContext flatTerrain 1000 2 1 driftGaitVariables exampleConstraint
      (driftGaitVariables.EEForceNodes 2) (driftGaitVariables.EEMotionNodes 2) 1 5
      (nodeAt 1 0 0) (nodeAt 1 1 2) ⟨0, 0, 1⟩ ⟨1, 0, 0⟩ ⟨0, 1, 0⟩ :=
  ⟨rfl, rfl, rfl, by decide, rfl, rfl, rfl, rfl, rfl, driftGait_tags_before 1 (by decide),
    by decide⟩

theorem exampleContext2 :
    NodeContext flatTerrain 1000 2 1 driftGaitVariables exampleConstraint
      (driftGaitVariables.EEForceNodes 2) (driftGaitVariables.EEMotionNodes 2) 2 8
      (nodeAt 2 0 0) (nodeAt 2 2 4) ⟨0, 0, 1⟩ ⟨1, 0, 0⟩ ⟨0, 1, 0⟩ :=
  ⟨rfl, rfl, rfl, by decide, rfl, rfl, rfl, rfl, rfl, driftGait_tags_before 2 (by decide),
    by decide⟩

theorem exampleContext3 :
    NodeContext flatTerrain 1000 2 1 driftGaitVariables exampleConstraint
      (driftGaitVariables.EEForceNodes 2) (driftGaitVariables.EEMotionNodes 2) 3 13
      (nodeAt 3 0 0) (nodeAt 0 (-1) (-2)) ⟨0, 0, 1⟩ ⟨1, 0, 0⟩ ⟨0, 1, 0⟩ :=
  ⟨rfl, rfl, rfl, by decide, rfl, rfl, rfl, rfl, rfl, driftGait_tags_before 3 (by decide),
    by decide⟩

theorem bowlContext1 :
    NodeContext bowlTerrain 1000 2 1 driftGaitVariables bowlConstraint
      (driftGaitVariables.EEForceNodes 2) (driftGaitVariables.EEMotionNodes 2) 1 5
      (nodeAt 1 0 0) (nodeAt 1 1 2) ⟨-1, 0, 1⟩ ⟨1, 0, 1⟩ ⟨0, 1, 0⟩ :=
  ⟨rfl, rfl, rfl, by decide, rfl, rfl, by decide!, by decide!, by decide!,
    driftGait_tags_before 1 (by decide), by decide⟩

theorem bowlContext2 :
    NodeContext bowlTerrain 1000 2 1 driftGaitVariables bowlConstraint
      (driftGaitVariables.EEForceNodes 2) (driftGaitVariables.EEMotionNodes 2) 2 8
      (nodeAt 2 0 0) (nodeAt 2 2 4) ⟨-2, 0, 1⟩ ⟨1, 0, 2⟩ ⟨0, 1, 0⟩ :=
  ⟨rfl, rfl, rfl, by decide, rfl, rfl, by decide!, by decide!, by decide!,
    driftGait_tags_before 2 (by decide), by decide⟩

theorem GetValuesBody_congr (c c2 : ForceConstraint) (F M M2 : NodesVariablesPhaseBased)
    (g : List ℚ) (k : Nat)
    (hterrain : c.terrain_ = c2.terrain_) (hmu : c.mu_ = c2.mu_) (hee : c.ee_ = c2.ee_)
    (hxy : (M.GetNodes[k]?).map (fun nd : Node => (nd.p.x, nd.p.y))
      = (M2.GetNodes[k]?).map (fun nd : Node => (nd.p.x, nd.p.y))) :
    GetValuesBody c F M g k = GetValuesBody c2 F M2 g k := by
  cases h1 : M.GetNodes[k]? with
  | none =>
    cases h2 : M2.GetNodes[k]? with
    | none => simp [GetValuesBody, h1, h2]
    | some m2 => rw [h1, h2] at hxy; simp at hxy
  | some m1 =>
    cases h2 : M2.GetNodes[k]? with
    | none => rw [h1, h2] at hxy; simp at hxy
    | some m2 =>
      rw [h1, h2] at hxy
      simp only [Option.map_some', Option.some.injEq, Prod.mk.injEq] at hxy
      obtain ⟨hx, hy⟩ := hxy
      simp only [GetValuesBody, h1, h2, Option.bind_eq_bind, Option.some_bind, hx, hy, hterrain,
        hmu, hee]

theorem GetValuesLoop_congr (c c2 : ForceConstraint) (F M M2 : NodesVariablesPhaseBased)
    (hterrain : c.terrain_ = c2.terrain_) (hmu : c.mu_ = c2.mu_) (hee : c.ee_ = c2.ee_)
    (hxy : M.GetNodes.map (fun nd : Node => (nd.p.x, nd.p.y))
      = M2.GetNodes.map (fun nd : Node => (nd.p.x, nd.p.y))) :
    ∀ (ids : List Nat) (g : List ℚ),
      GetValuesLoop c F M ids g = GetValuesLoop c2 F M2 ids g := by
  have hk : ∀ k : Nat, (M.GetNodes[k]?).map (fun nd : Node => (nd.p.x, nd.p.y))
      = (M2.GetNodes[k]?).map (fun nd : Node => (nd.p.x, nd.p.y)) := by
    intro k
    rw [← List.getElem?_map, ← List.getElem?_map, hxy]
  intro ids
  induction ids with
  | nil => intro g; rfl
  | cons k ids ih =>
    intro g
    simp only [GetValuesLoop, GetValuesBody_congr c c2 F M M2 g k hterrain hmu hee (hk k)]
    cases GetValuesBody c2 F M2 g k with
    | none => rfl
    | some g2 => exact ih g2

theorem driftCount_eq_zero_iff (F : NodesVariablesPhaseBased) (ee : Nat) (ids : List Nat) :
    driftCount F ee ids = 0 ↔ ∀ id ∈ ids, F.GetPhase id ee ≠ 4 := by
  simp [driftCount, List.countP_eq_zero]

theorem jacobianLoop_split_prefix (body : Int → Nat → Option (List Triplet × Int))
    (blk : Nat → Int → List Triplet) (adv : Nat → Int → Int) (ok : Nat → Prop)
    (hbody : ∀ id row, ok id → body row id = some (blk id row, adv id row))
    (k : Nat) (post : List Nat) :
    ∀ (pre : List Nat) (row : Int), (∀ id ∈ pre ++ k :: post, ok id) →
      ∃ before after, jacobianLoop body pre row = some before ∧
        jacobianLoop body (pre ++ k :: post) row
          = some (before ++ (blk k (pre.foldl (fun r id => adv id r) row) ++ after)) := by
  intro pre
  induction pre with
  | nil =>
    intro row h
    obtain ⟨rest, hrest⟩ := jacobianLoop_success body blk adv ok hbody post (adv k row)
      (fun id hid => h id (by simp [hid]))
    refine ⟨[], rest, rfl, ?_⟩
    simp only [List.nil_append, jacobianLoop, hbody k row (h k (by simp)), hrest, List.foldl_nil]
  | cons a pre ih =>
    intro row h
    obtain ⟨before, after, hpre, hsplit⟩ := ih (adv a row)
      (fun id hid => h id (by
        rw [List.cons_append]
        exact List.mem_cons_of_mem _ hid))
    refine ⟨blk a row ++ before, after, ?_, ?_⟩
    · simp only [jacobianLoop, hbody a row (h a (by simp)), hpre]
    · simp only [List.cons_append, jacobianLoop, hbody a row (h a (by simp)), List.foldl_cons]
      rw [show pre.append (k :: post) = pre ++ k :: post from rfl, hsplit]
      simp

theorem blockEntries_mem (col : Nat) :
    ∀ (vals : List ℚ) (row : Int), ∀ t ∈ blockEntries row col vals,
      t.col = col ∧ row ≤ t.row ∧ t.row < row + (vals.length : Int) := by
  intro vals
  induction vals with
  | nil => intro row t ht; simp [blockEntries] at ht
  | cons v vs ih =>
    intro row t ht
    simp only [blockEntries, List.mem_cons] at ht
    simp only [List.length_cons, Nat.cast_add, Nat.cast_one]
    rcases ht with h | h
    · rw [h]
      refine ⟨rfl, le_refl _, ?_⟩
      show row < row + ((vs.length : Int) + 1)
      omega
    · obtain ⟨h1, h2, h3⟩ := ih _ t h
      exact ⟨h1, by omega, by omega⟩

theorem blockEntries_row_exists (col : Nat) :
    ∀ (vals : List ℚ) (row : Int) (r : Nat), r < vals.length →
      ∃ t ∈ blockEntries row col vals, t.row = row + (r : Int) ∧ t.col = col := by
  intro vals
  induction vals with
  | nil => intro row r hr; simp at hr
  | cons v vs ih =>
    intro row r hr
    cases r with
    | zero => exact ⟨Triplet.mk row col v, by simp [blockEntries], by simp, rfl⟩
    | succ r =>
      simp only [List.length_cons, Nat.add_lt_add_iff_right] at hr
      obtain ⟨t, ht, hrow, hcol⟩ := ih (row + 1) r hr
      refine ⟨t, by simp [blockEntries, ht], ?_, hcol⟩
      rw [hrow]
      push_cast
      ring

theorem basisCombinations_length (mu : ℚ) (phase : Int) (n t1 t2 : Vector3d) :
    (basisCombinations mu phase n t1 t2).length = if isPyramidPhase phase = true then 5 else 3 := by
  unfold basisCombinations
  split_ifs <;> rfl

theorem valueRowsOfPhase_eq_len (phase : Int) (h : 0 ≤ phase ∧ phase ≤ 5) :
    valueRowsOfPhase phase = if isPyramidPhase phase = true then 5 else 3 := by
  unfold valueRowsOfPhase
  rcases phase_cases phase h with ⟨hp, h4⟩ | ⟨hp, h4⟩ <;> simp only [hp] <;> simp [h4]

theorem GetBoundsBody_nil_length (c : ForceConstraint) (F : NodesVariablesPhaseBased) (k : Nat) :
    (GetBoundsBody c F [] k).length = boundRowsOfPhase (F.GetPhase k c.ee_) := by
  have h := GetBoundsBody_length c F [] k
  simpa using h

theorem flatMap_blockEntries_rows {α : Type} (dims : List α) (col : α → Nat)
    (vals : α → List ℚ) (row : Int) (len : Nat) (hlen : ∀ d ∈ dims, (vals d).length = len) :
    ∀ t ∈ dims.flatMap (fun d => blockEntries row (col d) (vals d)),
      row ≤ t.row ∧ t.row < row + (len : Int) := by
  intro t ht
  rw [List.mem_flatMap] at ht
  obtain ⟨d, hd, htd⟩ := ht
  obtain ⟨_, h2, h3⟩ := blockEntries_mem (col d) (vals d) row t htd
  rw [hlen d hd] at h3
  exact ⟨h2, h3⟩

theorem flatMap_blockEntries_row_exists {α : Type} (dims : List α) (col : α → Nat)
    (vals : α → List ℚ) (row : Int) (len : Nat) (d : α) (hd : d ∈ dims)
    (hlen : (vals d).length = len) (r : Nat) (hr : r < len) :
    ∃ t ∈ dims.flatMap (fun d => blockEntries row (col d) (vals d)),
      t.row = row + (r : Int) ∧ t.col = col d := by
  obtain ⟨t, ht, hrow, hcol⟩ := blockEntries_row_exists (col d) (vals d) row r (by omega)
  exact ⟨t, List.mem_flatMap.mpr ⟨d, hd, ht⟩, hrow, hcol⟩

/-- In a node context, the four loops at node `k`: what the iterations before
`k` produced, what the iteration of `k` produces and what the whole loop
produces. -/
theorem NodeContext.loops {terrain : HeightMap} {force_limit : ℚ} {ee : Nat} {fpps : Int}
    {x : Variables} {c : ForceConstraint} {F M : NodesVariablesPhaseBased} {k off : Nat}
    {m fn : Node} {n t1 t2 : Vector3d}
    (h : NodeContext terrain force_limit ee fpps x c F M k off m fn n t1 t2)
    (hphase : 0 ≤ F.GetPhase k ee ∧ F.GetPhase k ee ≤ 5)
    (hfit : 5 * (F.GetNodes.length : Int) < 2147483648) :
    ∃ (vb va : List ℚ) (bb ba : List Bounds) (fb fa mb ma : List Triplet),
      (GetValuesLoop c F M (List.range k) [] = some vb ∧ vb.length = off ∧
        GetValuesBody c F M vb k = some (vb ++ nodeValueRows terrain.GetFrictionCoeff
          (F.GetPhase k ee) fn.p n t1 t2) ∧
        GetValuesWritten c = some (vb ++ (nodeValueRows terrain.GetFrictionCoeff
          (F.GetPhase k ee) fn.p n t1 t2 ++ va))) ∧
      (GetBoundsLoop c (List.range k) [] = some bb ∧ bb.length = off ∧
        GetBoundsBody c F bb k = bb ++ GetBoundsBody c F [] k ∧
        GetBounds c = some (bb ++ (GetBoundsBody c F [] k ++ ba))) ∧
      (List.range k).foldl (fun row id => advanceRow c (F.GetPhase id ee) row) 0 = (off : Int) ∧
      advanceRow c (F.GetPhase k ee) (off : Int)
        = (off : Int) + (valueRowsOfPhase (F.GetPhase k ee) : Int) ∧
      (jacobianLoop (forceJacobianBody c F M) (List.range k) 0 = some fb ∧
        forceJacobianBody c F M (off : Int) k
          = some ([Dim3D.X, Dim3D.Y, Dim3D.Z].flatMap (fun dim =>
              blockEntries (off : Int) (F.GetOptIndex k Dx.kPos dim)
                ((basisCombinations terrain.GetFrictionCoeff (F.GetPhase k ee) n t1 t2).map
                  (fun v => v.coeff dim))),
            advanceRow c (F.GetPhase k ee) (off : Int)) ∧
        forceJacobianWritten c F M
          = some (fb ++ ([Dim3D.X, Dim3D.Y, Dim3D.Z].flatMap (fun dim =>
              blockEntries (off : Int) (F.GetOptIndex k Dx.kPos dim)
                ((basisCombinations terrain.GetFrictionCoeff (F.GetPhase k ee) n t1 t2).map
                  (fun v => v.coeff dim))) ++ fa))) ∧
      (jacobianLoop (motionJacobianBody c F M) (List.range k) 0 = some mb ∧
        motionJacobianBody c F M (off : Int) k
          = some ([Dim2D.X_, Dim2D.Y_].flatMap (fun dim =>
              blockEntries (off : Int) (M.GetOptIndex k Dx.kPos dim.to3D)
                ((basisCombinations terrain.GetFrictionCoeff (F.GetPhase k ee)
                  (terrain.GetDerivativeOfNormalizedBasisWrt Direction.Normal dim m.p.x m.p.y)
                  (terrain.GetDerivativeOfNormalizedBasisWrt Direction.Tangent1 dim m.p.x m.p.y)
                  (terrain.GetDerivativeOfNormalizedBasisWrt Direction.Tangent2 dim m.p.x
                    m.p.y)).map (fun v => fn.p.dot v))),
            advanceRow c (F.GetPhase k ee) (off : Int)) ∧
        motionJacobianWritten c F M
          = some (mb ++ ([Dim2D.X_, Dim2D.Y_].flatMap (fun dim =>
              blockEntries (off : Int) (M.GetOptIndex k Dx.kPos dim.to3D)
                ((basisCombinations terrain.GetFrictionCoeff (F.GetPhase k ee)
                  (terrain.GetDerivativeOfNormalizedBasisWrt Direction.Normal dim m.p.x m.p.y)
                  (terrain.GetDerivativeOfNormalizedBasisWrt Direction.Tangent1 dim m.p.x m.p.y)
                  (terrain.GetDerivativeOfNormalizedBasisWrt Direction.Tangent2 dim m.p.x
                    m.p.y)).map (fun v => fn.p.dot v))) ++ ma))) := by
  obtain ⟨hc, hF, hM, hcover, hm, hf, hn, ht1, ht2, hbefore, hoff⟩ := h
  obtain ⟨hee, hcF, hcM, hids⟩ := Init_fields terrain force_limit ee fpps x
  obtain ⟨hterrain, hfn, hmu, hper, hdrift⟩ := Init_params terrain force_limit ee fpps x
  rw [← hc] at hee hcF hcM hids hterrain hfn hmu hper hdrift
  rw [← hF] at hcF hids
  rw [← hM] at hcM
  have hkF : k < F.GetNodes.length := getElem?_lt_length _ _ _ hf
  have hkM : k < M.GetNodes.length := getElem?_lt_length _ _ _ hm
  have hin : ∀ id ∈ List.range F.GetNodes.length,
      id < M.GetNodes.length ∧ id < F.GetNodes.length :=
    fun id hid => ⟨lt_of_lt_of_le (List.mem_range.mp hid) hcover, List.mem_range.mp hid⟩
  obtain ⟨post, hpost⟩ := range_split _ k hkF
  have hinpre : ∀ id ∈ List.range k, id < M.GetNodes.length ∧ id < F.GetNodes.length :=
    fun id hid => hin id (by rw [hpost]; exact List.mem_append_left _ hid)
  have hok : ∀ id ∈ List.range k ++ k :: post,
      id < M.GetNodes.length ∧ id < F.GetNodes.length := by
    intro id hid
    rw [← hpost] at hid
    exact hin id hid
  have hle := offset_le F ee k off hoff hbefore
  have hmk : M.GetNodes[k] = m := by
    have := List.getElem?_eq_getElem hkM
    rw [hm] at this
    exact (Option.some.inj this).symm
  have hfk : F.GetNodes[k] = fn := by
    have := List.getElem?_eq_getElem hkF
    rw [hf] at this
    exact (Option.some.inj this).symm
  have hrow0 := rowAfter_range c F ee k off hee hper hdrift hbefore hoff (by omega)
  -- force loop
  obtain ⟨fb, fa, hfpre, hfsplit⟩ := jacobianLoop_split_prefix (forceJacobianBody c F M)
    (fun id row => match forceJacobianBody c F M row id with
      | some (written, _) => written
      | none => [])
    (fun id row => advanceRow c (F.GetPhase id c.ee_) row)
    (fun id => id < M.GetNodes.length)
    (by
      intro id row hid
      simp only [forceJacobianBody_eq c F M row id hid])
    k post (List.range k) 0 (fun id hid => (hok id hid).1)
  rw [hrow0] at hfsplit
  have hfbody : forceJacobianBody c F M (off : Int) k
      = some ([Dim3D.X, Dim3D.Y, Dim3D.Z].flatMap (fun dim =>
          blockEntries (off : Int) (F.GetOptIndex k Dx.kPos dim)
            ((basisCombinations terrain.GetFrictionCoeff (F.GetPhase k ee) n t1 t2).map
              (fun v => v.coeff dim))),
        advanceRow c (F.GetPhase k ee) (off : Int)) := by
    simp only [forceJacobianBody_eq c F M _ k hkM, hmk, hterrain, hee, ← hn, ← ht1, ← ht2,
      List.flatMap_cons, List.flatMap_nil,
      forceJacobianDim_eq c F k _ n t1 t2 (off : Int) _ hphase (by omega) (by omega), hmu]
  -- motion loop
  obtain ⟨mb, ma, hmpre, hmsplit⟩ := jacobianLoop_split_prefix (motionJacobianBody c F M)
    (fun id row => match motionJacobianBody c F M row id with
      | some (written, _) => written
      | none => [])
    (fun id row => advanceRow c (F.GetPhase id c.ee_) row)
    (fun id => id < M.GetNodes.length ∧ id < F.GetNodes.length)
    (by
      intro id row hid
      simp only [motionJacobianBody_eq c F M row id hid])
    k post (List.range k) 0 hok
  rw [hrow0] at hmsplit
  have hmbody : motionJacobianBody c F M (off : Int) k
      = some ([Dim2D.X_, Dim2D.Y_].flatMap (fun dim =>
          blockEntries (off : Int) (M.GetOptIndex k Dx.kPos dim.to3D)
            ((basisCombinations terrain.GetFrictionCoeff (F.GetPhase k ee)
              (terrain.GetDerivativeOfNormalizedBasisWrt Direction.Normal dim m.p.x m.p.y)
              (terrain.GetDerivativeOfNormalizedBasisWrt Direction.Tangent1 dim m.p.x m.p.y)
              (terrain.GetDerivativeOfNormalizedBasisWrt Direction.Tangent2 dim m.p.x
                m.p.y)).map (fun v => fn.p.dot v))),
        advanceRow c (F.GetPhase k ee) (off : Int)) := by
    simp only [motionJacobianBody_eq c F M _ k ⟨hkM, hkF⟩, hmk, hfk, hee,
      List.flatMap_cons, List.flatMap_nil,
      motionJacobianDim_eq c M k _ m.p fn.p (off : Int) _ hphase (by omega) (by omega), hmu,
      hterrain]
  have hvblen : ((List.range k).flatMap (nodeRowsOf c F M)).length = off := by
    rw [flatMap_nodeRowsOf_length c F M _ hinpre, hee, offset_values F ee k hbefore, ← hoff]
  have hbblen : ((List.range k).flatMap (GetBoundsBody c F [])).length = off := by
    rw [flatMap_GetBoundsBody_length, hee, offset_bounds F ee k hbefore, ← hoff]
  have hrows : nodeRowsOf c F M k = nodeValueRows terrain.GetFrictionCoeff (F.GetPhase k ee)
      fn.p n t1 t2 := by
    rw [nodeRowsOf_eq c F M k m fn hm hf, hterrain, hmu, hee, ← hn, ← ht1, ← ht2]
  refine ⟨(List.range k).flatMap (nodeRowsOf c F M), post.flatMap (nodeRowsOf c F M),
    (List.range k).flatMap (GetBoundsBody c F []), post.flatMap (GetBoundsBody c F []),
    fb, fa, mb, ma, ⟨?_, hvblen, ?_, ?_⟩, ⟨?_, hbblen, GetBoundsBody_append c F _ k, ?_⟩,
    ?_, ?_, ⟨hfpre, hfbody, ?_⟩, ⟨hmpre, hmbody, ?_⟩⟩
  · rw [GetValuesLoop_eq_flatMap c F M _ [] hinpre, List.nil_append]
  · rw [GetValuesBody_eq c F M _ k m fn hm hf, hterrain, hmu, hee, ← hn, ← ht1, ← ht2]
  · simp only [GetValuesWritten, hcF, hcM, hids, Option.bind_eq_bind, Option.some_bind]
    rw [GetValuesLoop_eq_flatMap c F M _ [] hin, hpost, List.flatMap_append, List.flatMap_cons,
      hrows]
    simp
  · rw [GetBoundsLoop_eq c F hcF, GetBounds_foldl_eq_flatMap, List.nil_append]
  · rw [GetBounds, hids, GetBoundsLoop_eq c F hcF, GetBounds_foldl_eq_flatMap, hpost,
      List.flatMap_append, List.flatMap_cons]
    simp
  · rw [← hee]
    exact hrow0
  · rw [← hee]
    exact advanceRow_eq c _ _ hper hdrift (by rw [hee]; exact hphase) (by omega) (by omega)
  · rw [forceJacobianWritten, hids, hpost, hfsplit]
    simp only [hfbody]
  · rw [motionJacobianWritten, hids, hpost, hmsplit]
    simp only [hmbody]

theorem jacobianLoop_mem (body : Int → Nat → Option (List Triplet × Int))
    (blk : Nat → Int → List Triplet) (adv : Nat → Int → Int) (ok : Nat → Prop)
    (hbody : ∀ id row, ok id → body row id = some (blk id row, adv id row)) :
    ∀ (ids : List Nat) (row : Int) (written : List Triplet), (∀ id ∈ ids, ok id) →
      jacobianLoop body ids row = some written →
      ∀ t ∈ written, ∃ pre j post, ids = pre ++ j :: post ∧
        t ∈ blk j (pre.foldl (fun r id => adv id r) row) := by
  intro ids
  induction ids with
  | nil =>
    intro row written _ hw t ht
    simp only [jacobianLoop, Option.some.injEq] at hw
    rw [← hw] at ht
    simp at ht
  | cons a ids ih =>
    intro row written h hw t ht
    obtain ⟨rest, hrest⟩ := jacobianLoop_success body blk adv ok hbody ids (adv a row)
      (fun id hid => h id (List.mem_cons_of_mem _ hid))
    simp only [jacobianLoop, hbody a row (h a (List.mem_cons_self _ _)), hrest,
      Option.some.injEq] at hw
    rw [← hw, List.mem_append] at ht
    rcases ht with h1 | h1
    · exact ⟨[], a, ids, rfl, h1⟩
    · obtain ⟨pre, j, post, hsplit, hmem⟩ := ih (adv a row) rest
        (fun id hid => h id (List.mem_cons_of_mem _ hid)) hrest t h1
      exact ⟨a :: pre, j, post, by rw [hsplit]; rfl, hmem⟩

theorem range_split_unique (n j : Nat) (pre post : List Nat)
    (h : List.range n = pre ++ j :: post) : pre = List.range j ∧ j < n := by
  have hlen : pre.length < n := by
    have := congrArg List.length h
    simp only [List.length_range, List.length_append, List.length_cons] at this
    omega
  have hj : j = pre.length := by
    have h1 : (List.range n)[pre.length]? = some pre.length := by
      rw [List.getElem?_range hlen]
    have h2 : (pre ++ j :: post)[pre.length]? = some j := by
      rw [List.getElem?_append_right (le_refl _)]
      simp
    rw [h, h2] at h1
    exact Option.some.inj h1
  refine ⟨?_, by omega⟩
  have h2 := congrArg (List.take pre.length) h
  rw [List.take_left' rfl, List.take_range, Nat.min_eq_left (le_of_lt hlen)] at h2
  rw [hj]
  exact h2.symm

theorem Jacobian.assign_dims (jac jac2 : Jacobian) (t : Triplet)
    (h : jac.assign t = some jac2) : jac2.nrows = jac.nrows ∧ jac2.ncols = jac.ncols := by
  unfold Jacobian.assign at h
  split_ifs at h
  simp only [Option.some.injEq] at h
  rw [← h]
  exact ⟨rfl, rfl⟩

theorem Jacobian.assignAll_success :
    ∀ (ts : List Triplet) (jac : Jacobian),
      (∀ t ∈ ts, 0 ≤ t.row ∧ t.row < (jac.nrows : Int) ∧ t.col < jac.ncols) →
      ∃ jac2, jac.assignAll ts = some jac2 := by
  intro ts
  induction ts with
  | nil => intro jac _; exact ⟨jac, rfl⟩
  | cons t ts ih =>
    intro jac h
    have ht := h t (List.mem_cons_self _ _)
    have hassign : ∃ jac1, jac.assign t = some jac1 := by
      unfold Jacobian.assign
      rw [if_pos ht]
      exact ⟨_, rfl⟩
    obtain ⟨jac1, h1⟩ := hassign
    obtain ⟨hr, hc⟩ := Jacobian.assign_dims jac jac1 t h1
    obtain ⟨jac2, h2⟩ := ih jac1 (fun s hs => by
      rw [hr, hc]
      exact h s (List.mem_cons_of_mem _ hs))
    exact ⟨jac2, by simp only [Jacobian.assignAll, h1, h2]⟩

theorem Jacobian.assignAll_frame (i j : Nat) :
    ∀ (ts : List Triplet) (jac jac2 : Jacobian), jac.assignAll ts = some jac2 →
      (∀ t ∈ ts, ¬ ((i : Int) = t.row ∧ j = t.col)) → jac2.coeff i j = jac.coeff i j := by
  intro ts
  induction ts with
  | nil =>
    intro jac jac2 h _
    simp only [Jacobian.assignAll, Option.some.injEq] at h
    rw [h]
  | cons t ts ih =>
    intro jac jac2 h hno
    cases h1 : jac.assign t with
    | none => simp [Jacobian.assignAll, h1] at h
    | some jac1 =>
      simp only [Jacobian.assignAll, h1] at h
      rw [ih jac1 jac2 h (fun s hs => hno s (List.mem_cons_of_mem _ hs))]
      unfold Jacobian.assign at h1
      split_ifs at h1
      simp only [Option.some.injEq] at h1
      rw [← h1]
      simp only
      rw [if_neg (hno t (List.mem_cons_self _ _))]

theorem sum_valueRows_le (F : NodesVariablesPhaseBased) (ee : Nat) :
    ∀ ids : List Nat,
      (ids.map (fun id => valueRowsOfPhase (F.GetPhase id ee))).sum ≤ 5 * ids.length := by
  intro ids
  induction ids with
  | nil => simp
  | cons a ids ih =>
    have := valueRowsOfPhase_le (F.GetPhase a ee)
    simp only [List.map_cons, List.sum_cons, List.length_cons]
    omega

theorem forceJacobianWritten_mem (c : ForceConstraint) (F M : NodesVariablesPhaseBased)
    (ee : Nat) (written : List Triplet) (hee : c.ee_ = ee)
    (hper : c.n_constraints_per_node_ = 5) (hdrift : c.n_constraints_drift_node_ = 3)
    (hids : c.pure_stance_force_node_ids_ = List.range F.GetNodes.length)
    (hcover : F.GetNodes.length ≤ M.GetNodes.length)
    (hall : ∀ id, id < F.GetNodes.length → 0 ≤ F.GetPhase id ee ∧ F.GetPhase id ee ≤ 5)
    (hfit : 5 * (F.GetNodes.length : Int) < 2147483648)
    (hw : forceJacobianWritten c F M = some written) :
    ∀ t ∈ written, ∃ (j : Nat) (dim : Dim3D), j < F.GetNodes.length ∧
      t.col = F.GetOptIndex j Dx.kPos dim ∧
      (((List.range j).map (fun id => valueRowsOfPhase (F.GetPhase id ee))).sum : Int) ≤ t.row ∧
      t.row < (((List.range j).map (fun id => valueRowsOfPhase (F.GetPhase id ee))).sum : Int)
        + (valueRowsOfPhase (F.GetPhase j ee) : Int) := by
  subst hee
  intro t ht
  rw [forceJacobianWritten, hids] at hw
  obtain ⟨pre, j, post, hsplit, hmem⟩ := jacobianLoop_mem (forceJacobianBody c F M)
    (fun id row => match forceJacobianBody c F M row id with
      | some (written, _) => written
      | none => [])
    (fun id row => advanceRow c (F.GetPhase id c.ee_) row)
    (fun id => id < M.GetNodes.length)
    (by
      intro id row hid
      simp only [forceJacobianBody_eq c F M row id hid])
    _ 0 written
    (fun id hid => lt_of_lt_of_le (List.mem_range.mp hid) hcover) hw t ht
  obtain ⟨hpre, hj⟩ := range_split_unique _ j pre post hsplit
  subst hpre
  have hjM : j < M.GetNodes.length := lt_of_lt_of_le hj hcover
  have hsumle := sum_valueRows_le F c.ee_ (List.range j)
  rw [List.length_range] at hsumle
  have hrow := rowAfter_eq c F hper hdrift (List.range j) 0
    (fun id hid => hall id (lt_trans (List.mem_range.mp hid) hj)) (le_refl 0)
    (by rw [List.length_range]; omega)
  rw [zero_add] at hrow
  rw [hrow] at hmem
  simp only [forceJacobianBody_eq c F M _ j hjM, List.flatMap_cons, List.flatMap_nil,
    List.append_nil, List.mem_append] at hmem
  have h0 : (0 : Int)
      ≤ (((List.range j).map (fun id => valueRowsOfPhase (F.GetPhase id c.ee_))).sum : Nat) :=
    Int.ofNat_nonneg _
  have h4 : ((((List.range j).map (fun id => valueRowsOfPhase (F.GetPhase id c.ee_))).sum : Nat)
      : Int) + 4 < 2147483648 := by omega
  have hlenc : ∀ (dim : Dim3D) (a b d : Vector3d),
      ((basisCombinations c.mu_ (F.GetPhase j c.ee_) a b d).map (fun v => v.coeff dim)).length
        = valueRowsOfPhase (F.GetPhase j c.ee_) := by
    intro dim a b d
    rw [List.length_map, basisCombinations_length, valueRowsOfPhase_eq_len _ (hall j hj)]
  rcases hmem with h1 | h1 | h1
  · rw [forceJacobianDim_eq c F j _ _ _ _ _ _ (hall j hj) h0 h4] at h1
    obtain ⟨hc, hr1, hr2⟩ := blockEntries_mem _ _ _ t h1
    rw [hlenc] at hr2
    exact ⟨j, Dim3D.X, hj, hc, hr1, hr2⟩
  · rw [forceJacobianDim_eq c F j _ _ _ _ _ _ (hall j hj) h0 h4] at h1
    obtain ⟨hc, hr1, hr2⟩ := blockEntries_mem _ _ _ t h1
    rw [hlenc] at hr2
    exact ⟨j, Dim3D.Y, hj, hc, hr1, hr2⟩
  · rw [forceJacobianDim_eq c F j _ _ _ _ _ _ (hall j hj) h0 h4] at h1
    obtain ⟨hc, hr1, hr2⟩ := blockEntries_mem _ _ _ t h1
    rw [hlenc] at hr2
    exact ⟨j, Dim3D.Z, hj, hc, hr1, hr2⟩

theorem sum_valueRows_range_succ_le (F : NodesVariablesPhaseBased) (ee n j : Nat) (hj : j < n) :
    ((List.range j).map (fun id => valueRowsOfPhase (F.GetPhase id ee))).sum
        + valueRowsOfPhase (F.GetPhase j ee)
      ≤ ((List.range n).map (fun id => valueRowsOfPhase (F.GetPhase id ee))).sum := by
  obtain ⟨post, hpost⟩ := range_split n j hj
  rw [hpost]
  simp only [List.map_append, List.map_cons, List.sum_append, List.sum_cons]
  omega

theorem driftGait_force_columns (j : Nat) (dim : Dim3D)
    (hj : j < (driftGaitVariables.EEForceNodes 2).GetNodes.length) :
    (driftGaitVariables.EEForceNodes 2).GetOptIndex j Dx.kPos dim < 24 := by
  have h4 : j < 4 := hj
  cases dim <;> simp only [driftGaitVariables, exampleVariables, exampleSet] <;> omega

theorem isPyramidPhase_of_outside (phase : Int) (h : phase < 0 ∨ 5 < phase) :
    isPyramidPhase phase = false := by
  rw [Bool.eq_false_iff, Ne, isPyramidPhase_iff]
  omega

theorem valueRowsOfPhase_eq_boundRows_add (phase : Int) :
    valueRowsOfPhase phase = boundRowsOfPhase phase
      + (if (!isPyramidPhase phase && decide (phase ≠ 4)) = true then 1 else 0) := by
  unfold valueRowsOfPhase boundRowsOfPhase
  by_cases hp : isPyramidPhase phase = true
  · simp [hp]
  · by_cases h4 : phase = 4
    · simp [hp, h4]
    · simp [hp, h4]

theorem sum_valueRows_eq_sum_boundRows_add (F : NodesVariablesPhaseBased) (ee : Nat) :
    ∀ ids : List Nat,
      (ids.map (fun id => valueRowsOfPhase (F.GetPhase id ee))).sum
        = (ids.map (fun id => boundRowsOfPhase (F.GetPhase id ee))).sum + otherCount F ee ids := by
  intro ids
  induction ids with
  | nil => simp [otherCount]
  | cons k ids ih =>
    simp only [otherCount] at ih ⊢
    rw [List.map_cons, List.sum_cons, List.map_cons, List.sum_cons, ih, List.countP_cons,
      valueRowsOfPhase_eq_boundRows_add]
    omega

theorem otherCount_pos (F : NodesVariablesPhaseBased) (ee : Nat) (ids : List Nat) (k : Nat)
    (hk : k ∈ ids) (h : F.GetPhase k ee < 0 ∨ 5 < F.GetPhase k ee) :
    0 < otherCount F ee ids := by
  unfold otherCount
  rw [List.countP_pos_iff]
  refine ⟨k, hk, ?_⟩
  have h4 : F.GetPhase k ee ≠ 4 := by omega
  simp [isPyramidPhase_of_outside _ h, h4]

/-! ## Theorems for the claims -/

/-- C1 (counterexample): for end-effector 0 and a single force node with the
drift tag 4 the declared row count is 5 while `GetValues` assigns 3 rows and
`GetBounds` returns 3 bounds. -/
theorem C1_counterexample :
    (driftVariables.EEForceNodes 0).GetPhase 0 0 = 4 ∧
    (InitVariableDependedQuantities (ForceConstraint.new flatTerrain 1000 0 0)
      driftVariables).GetRows = 5 ∧
    GetValuesWritten (InitVariableDependedQuantities (ForceConstraint.new flatTerrain 1000 0 0)
      driftVariables) = some [2, 0, 0] ∧
    GetBounds (InitVariableDependedQuantities (ForceConstraint.new flatTerrain 1000 0 0)
      driftVariables) = some [⟨some 0, some 1000⟩, BoundZero, BoundZero] ∧
    GetValues (InitVariableDependedQuantities (ForceConstraint.new flatTerrain 1000 0 0)
      driftVariables) = some [some 2, some 0, some 0, none, none] := by
  decide!

/-- C1 (amended): after construction and `InitVariableDependedQuantities`, for
force nodes whose phase tags all lie in 0..5 (with a motion knot for every
force node and a row count that fits an `int`), `GetValues` assigns exactly as
many rows as `GetBounds` returns bounds, five for every node with a pyramid tag
and three for every node with the drift tag; the declared row count equals this
number for end-effector 0 or 1 when no node carries the drift tag, and for
end-effector 2 or 3 when `5a + 3b` equals the hard-coded formula; in both cases
`GetValues` returns a vector all of whose rows are assigned. -/
theorem C1_row_counts (terrain : HeightMap) (force_limit : ℚ) (ee : Nat) (fpps : Int)
    (x : Variables)
    (htags : ∀ id, id < (x.EEForceNodes ee).GetNodes.length →
      0 ≤ (x.EEForceNodes ee).GetPhase id ee ∧ (x.EEForceNodes ee).GetPhase id ee ≤ 5)
    (hmotion : (x.EEForceNodes ee).GetNodes.length ≤ (x.EEMotionNodes ee).GetNodes.length)
    (hfit : 5 * ((x.EEForceNodes ee).GetNodes.length : Int) < 2147483648) :
    ∃ (written : List ℚ) (bounds : List Bounds),
      GetValuesWritten (InitVariableDependedQuantities
        (ForceConstraint.new terrain force_limit ee fpps) x) = some written ∧
      GetBounds (InitVariableDependedQuantities
        (ForceConstraint.new terrain force_limit ee fpps) x) = some bounds ∧
      written.length = bounds.length ∧
      written.length
        = 5 * pyramidCount (x.EEForceNodes ee) ee (List.range (x.EEForceNodes ee).GetNodes.length)
          + 3 * driftCount (x.EEForceNodes ee) ee (List.range (x.EEForceNodes ee).GetNodes.length) ∧
      (((ee = 0 ∨ ee = 1) ∧
          driftCount (x.EEForceNodes ee) ee (List.range (x.EEForceNodes ee).GetNodes.length) = 0) ∨
        ((ee = 2 ∨ ee = 3) ∧
          (written.length : Int) = (2 * (fpps + 1) - 1) * 5 + ((fpps + 1) - 1) * 3) →
        (InitVariableDependedQuantities
          (ForceConstraint.new terrain force_limit ee fpps) x).GetRows = written.length ∧
        GetValues (InitVariableDependedQuantities
          (ForceConstraint.new terrain force_limit ee fpps) x) = some (written.map some)) := by
  obtain ⟨hee, hF, hM, hids⟩ := Init_fields terrain force_limit ee fpps x
  have hrows := Init_GetRows terrain force_limit ee fpps x
  generalize InitVariableDependedQuantities (ForceConstraint.new terrain force_limit ee fpps) x = c
    at hee hF hM hids hrows ⊢
  generalize x.EEForceNodes ee = F at htags hmotion hfit hF hrows hids ⊢
  generalize x.EEMotionNodes ee = M at hmotion hM ⊢
  have htags2 : ∀ id ∈ List.range F.GetNodes.length,
      0 ≤ F.GetPhase id ee ∧ F.GetPhase id ee ≤ 5 :=
    fun id hid => htags id (List.mem_range.mp hid)
  have hin : ∀ id ∈ List.range F.GetNodes.length,
      id < M.GetNodes.length ∧ id < F.GetNodes.length :=
    fun id hid => ⟨lt_of_lt_of_le (List.mem_range.mp hid) hmotion, List.mem_range.mp hid⟩
  obtain ⟨w, hw, hlen⟩ := GetValuesLoop_length c F M _ [] hin
  have hsumv := sum_valueRows F ee _ htags2
  have hsumb := sum_boundRows F ee _ htags2
  have hcount := count_add F ee _ htags2
  rw [hee] at hlen
  have hwlen : w.length = 5 * pyramidCount F ee (List.range F.GetNodes.length)
      + 3 * driftCount F ee (List.range F.GetNodes.length) := by
    rw [hlen, hsumv]
    simp
  have hW : GetValuesWritten c = some w := by
    simp [GetValuesWritten, hF, hM, hids, hw]
  refine ⟨w, (List.range F.GetNodes.length).foldl (GetBoundsBody c F) [], hW, ?_, ?_, hwlen, ?_⟩
  · rw [GetBounds, hids, GetBoundsLoop_eq c F hF]
  · rw [GetBounds_foldl_length, hee, hsumb, hwlen]
    simp
  · intro hcase
    have hR : c.GetRows = (w.length : Int) := by
      rw [hrows]
      rcases hcase with ⟨h01, hb⟩ | ⟨h23, hform⟩
      · rw [constraintCount_normal ee _ fpps h01 (by simpa using hfit)]
        simp only [List.length_range] at hcount ⊢
        rw [hwlen, hb]
        omega
      · rw [constraintCount_drift ee _ fpps h23, ← hform]
        rw [← hform]
        simp only [List.length_range] at hcount
        unfold InInt32
        omega
    exact ⟨hR, GetValues_of_rows_eq c w hW hR⟩

/-- Witness of C1 (amended): end-effector 2 with two nodes per phase and the
four force nodes tagged 0, 4, 1, 1. -/
theorem C1_row_counts_witness :
    5 * ((driftGaitVariables.EEForceNodes 2).GetNodes.length : Int) < 2147483648 ∧
    ∃ (written : List ℚ) (bounds : List Bounds),
      GetValuesWritten (InitVariableDependedQuantities
        (ForceConstraint.new flatTerrain 1000 2 1) driftGaitVariables) = some written ∧
      GetBounds (InitVariableDependedQuantities
        (ForceConstraint.new flatTerrain 1000 2 1) driftGaitVariables) = some bounds ∧
      written.length = bounds.length ∧
      written.length
        = 5 * pyramidCount (driftGaitVariables.EEForceNodes 2) 2
            (List.range (driftGaitVariables.EEForceNodes 2).GetNodes.length)
          + 3 * driftCount (driftGaitVariables.EEForceNodes 2) 2
            (List.range (driftGaitVariables.EEForceNodes 2).GetNodes.length) ∧
      ((((2 : Nat) = 0 ∨ (2 : Nat) = 1) ∧
          driftCount (driftGaitVariables.EEForceNodes 2) 2
            (List.range (driftGaitVariables.EEForceNodes 2).GetNodes.length) = 0) ∨
        (((2 : Nat) = 2 ∨ (2 : Nat) = 3) ∧
          (written.length : Int) = (2 * ((1 : Int) + 1) - 1) * 5 + (((1 : Int) + 1) - 1) * 3) →
        (InitVariableDependedQuantities
          (ForceConstraint.new flatTerrain 1000 2 1) driftGaitVariables).GetRows = written.length ∧
        GetValues (InitVariableDependedQuantities
          (ForceConstraint.new flatTerrain 1000 2 1) driftGaitVariables) = some (written.map some)) :=
  ⟨by decide,
    C1_row_counts flatTerrain 1000 2 1 driftGaitVariables
      (by
        intro id hid
        have h4 : id < 4 := hid
        interval_cases id <;> decide)
      (by decide) (by decide)⟩

/-- C2: for a force node `k` with one of the pyramid tags 0, 1, 2, 3, 5, with `f`
the force of the node and `n, t1, t2` the terrain basis at the `(x, y)` of the
motion knot `k`, `GetValues` writes at the rows `off, ..., off + 4` of the node
exactly `f·n, f·(t1 − μn), f·(t1 + μn), f·(t2 − μn), f·(t2 + μn)`, and
`GetBounds` returns at the same five positions the bounds
`[0, fn_max], (−∞, 0], [0, +∞), (−∞, 0], [0, +∞)`. -/
theorem C2_pyramid_rows_and_bounds {terrain : HeightMap} {force_limit : ℚ} {ee : Nat}
    {fpps : Int} {x : Variables} {c : ForceConstraint} {F M : NodesVariablesPhaseBased}
    {k off : Nat} {m fn : Node} {n t1 t2 : Vector3d}
    (h : NodeContext terrain force_limit ee fpps x c F M k off m fn n t1 t2)
    (hphase : F.GetPhase k ee = 0 ∨ F.GetPhase k ee = 1 ∨ F.GetPhase k ee = 2 ∨
      F.GetPhase k ee = 3 ∨ F.GetPhase k ee = 5) :
    ∃ (w : List ℚ) (bs : List Bounds),
      GetValuesWritten c = some w ∧ GetBounds c = some bs ∧
      (w.drop off).take 5
        = [ fn.p.dot n,
            fn.p.dot (t1.sub (n.smul terrain.GetFrictionCoeff)),
            fn.p.dot (t1.add (n.smul terrain.GetFrictionCoeff)),
            fn.p.dot (t2.sub (n.smul terrain.GetFrictionCoeff)),
            fn.p.dot (t2.add (n.smul terrain.GetFrictionCoeff)) ] ∧
      (bs.drop off).take 5
        = [ Bounds.mk (some 0) (some force_limit), Bounds.mk none (some 0),
            Bounds.mk (some 0) none, Bounds.mk none (some 0), Bounds.mk (some 0) none ] := by
  obtain ⟨w, bs, hw, hb, hv, hbb, hee, hfn⟩ := h.blocks
  rw [← hee] at hphase
  have hB := GetBoundsBody_pyramid c F [] k hphase
  rw [hee] at hphase
  rw [nodeValueRows_pyramid _ _ _ _ _ _ hphase] at hv
  rw [hB, hfn] at hbb
  exact ⟨w, bs, hw, hb, hv 5 rfl, hbb 5 rfl⟩

/-- Witness of C2: node 0 of `exampleConstraint` (tag 0, force `(0, 0, 4)`) has
the rows `4, -2, 2, -2, 2` at the positions 0..4. -/
theorem C2_pyramid_rows_and_bounds_witness :
    ∃ (w : List ℚ) (bs : List Bounds),
      GetValuesWritten exampleConstraint = some w ∧ GetBounds exampleConstraint = some bs ∧
      (w.drop 0).take 5 = [4, -2, 2, -2, 2] ∧
      (bs.drop 0).take 5
        = [ Bounds.mk (some 0) (some 1000), Bounds.mk none (some 0),
            Bounds.mk (some 0) none, Bounds.mk none (some 0), Bounds.mk (some 0) none ] := by
  obtain ⟨w, bs, hw, hb, hv, hbb⟩ := C2_pyramid_rows_and_bounds exampleContext0 (Or.inl rfl)
  exact ⟨w, bs, hw, hb, hv.trans (by decide!), hbb⟩

/-- C5: for a force node `k` with any of the six tags 0..5 and a force `f` with
`f·n < 0` (`n` the terrain normal at the motion knot), the first row `GetValues`
writes for the node (row `off`) is `f·n`, which is negative, the bound
`GetBounds` returns at that position has the lower bound 0, and the row does
not lie within it. -/
theorem C5_unilateral_row_rejected {terrain : HeightMap} {force_limit : ℚ} {ee : Nat}
    {fpps : Int} {x : Variables} {c : ForceConstraint} {F M : NodesVariablesPhaseBased}
    {k off : Nat} {m fn : Node} {n t1 t2 : Vector3d}
    (h : NodeContext terrain force_limit ee fpps x c F M k off m fn n t1 t2)
    (hphase : 0 ≤ F.GetPhase k ee ∧ F.GetPhase k ee ≤ 5)
    (hneg : fn.p.dot n < 0) :
    ∃ (w : List ℚ) (bs : List Bounds) (row : ℚ) (bound : Bounds),
      GetValuesWritten c = some w ∧ GetBounds c = some bs ∧
      (w.drop off).head? = some row ∧ (bs.drop off).head? = some bound ∧
      row = fn.p.dot n ∧ row < 0 ∧ bound.lower = some 0 ∧ ¬ bound.contains row := by
  obtain ⟨w, bs, hw, hb, hv, hbb, hee, hfn⟩ := h.blocks
  obtain ⟨rest, hrest⟩ := nodeValueRows_head terrain.GetFrictionCoeff (F.GetPhase k ee) fn.p
    n t1 t2
  have hB : ∃ brest, GetBoundsBody c F [] k
      = Bounds.mk (some 0) (some force_limit) :: brest := by
    rw [← hee] at hphase
    rcases phase_cases _ hphase with ⟨hp, _⟩ | ⟨_, h4⟩
    · exact ⟨_, by rw [GetBoundsBody_pyramid c F [] k ((isPyramidPhase_iff _).mp hp), hfn]; rfl⟩
    · exact ⟨_, by rw [GetBoundsBody_drift c F [] k h4, hfn]; rfl⟩
  obtain ⟨brest, hbrest⟩ := hB
  have hv1 := hv _ rfl
  have hb1 := hbb _ rfl
  rw [hrest] at hv1
  rw [hbrest] at hb1
  have hwh : (w.drop off).head? = some (fn.p.dot n) := by
    cases hd : w.drop off with
    | nil => rw [hd] at hv1; simp at hv1
    | cons a l =>
      rw [hd] at hv1
      simp only [List.length_cons, List.take_succ_cons, List.cons.injEq] at hv1
      simp [hv1.1]
  have hbh : (bs.drop off).head? = some (Bounds.mk (some 0) (some force_limit)) := by
    cases hd : bs.drop off with
    | nil => rw [hd] at hb1; simp at hb1
    | cons a l =>
      rw [hd] at hb1
      simp only [List.length_cons, List.take_succ_cons, List.cons.injEq] at hb1
      simp [hb1.1]
  refine ⟨w, bs, _, _, hw, hb, hwh, hbh, rfl, hneg, rfl, ?_⟩
  simp only [Bounds.contains, not_and, not_le]
  intro h0
  exact absurd h0 (not_le.mpr hneg)

/-- Witness of C5: node 3 of `exampleConstraint` (tag 1, force `(0, -1, -2)`
pulling on the ground) has the first row `-2` at position 13, outside the
bound at that position. -/
theorem C5_unilateral_row_rejected_witness :
    ∃ (w : List ℚ) (bs : List Bounds) (bound : Bounds),
      GetValuesWritten exampleConstraint = some w ∧ GetBounds exampleConstraint = some bs ∧
      (w.drop 13).head? = some (-2) ∧ (bs.drop 13).head? = some bound ∧
      bound.lower = some 0 ∧ ¬ bound.contains (-2) := by
  obtain ⟨w, bs, row, bound, hw, hb, hrow, hbound, heq, _, hlow, hout⟩ :=
    C5_unilateral_row_rejected exampleContext3 (by decide) (by decide!)
  have hr : row = -2 := heq.trans (by decide!)
  subst hr
  exact ⟨w, bs, bound, hw, hb, hrow, hbound, hlow, hout⟩

/-- C7: for a force node `k` with a tag in 0..5 the force branch of
`FillJacobianBlock` writes, for every dimension `dim` of `X, Y, Z`, in the column
`GetOptIndex(k, kPos, dim)` and at the rows `off, off + 1, ...` of the node's
block, the `dim`-components of the basis combinations (`n, t1 − μn, t1 + μn,
t2 − μn, t2 + μn` for a pyramid tag, `n, t1 − μn, t2 − μn` for the drift tag)
that `GetValues` dots with the force in the same rows; so every row value is
the sum over `dim` of the entry times `f(dim)`. -/
theorem C7_force_jacobian_entries {terrain : HeightMap} {force_limit : ℚ} {ee : Nat}
    {fpps : Int} {x : Variables} {c : ForceConstraint} {F M : NodesVariablesPhaseBased}
    {k off : Nat} {m fn : Node} {n t1 t2 : Vector3d}
    (h : NodeContext terrain force_limit ee fpps x c F M k off m fn n t1 t2)
    (hphase : 0 ≤ F.GetPhase k ee ∧ F.GetPhase k ee ≤ 5)
    (hfit : 5 * (F.GetNodes.length : Int) < 2147483648) :
    ∃ (w : List ℚ) (before after : List Triplet),
      GetValuesWritten c = some w ∧
      (w.drop off).take (basisCombinations terrain.GetFrictionCoeff (F.GetPhase k ee) n t1 t2).length
        = (basisCombinations terrain.GetFrictionCoeff (F.GetPhase k ee) n t1 t2).map
            (fun v => fn.p.dot v) ∧
      forceJacobianWritten c F M
        = some (before ++ ([Dim3D.X, Dim3D.Y, Dim3D.Z].flatMap (fun dim =>
            blockEntries (off : Int) (F.GetOptIndex k Dx.kPos dim)
              ((basisCombinations terrain.GetFrictionCoeff (F.GetPhase k ee) n t1 t2).map
                (fun v => v.coeff dim))) ++ after)) ∧
      (∀ jac : Jacobian, F.GetName ≠ M.GetName →
        FillJacobianBlock c F.GetName jac
          = jac.assignAll (before ++ ([Dim3D.X, Dim3D.Y, Dim3D.Z].flatMap (fun dim =>
            blockEntries (off : Int) (F.GetOptIndex k Dx.kPos dim)
              ((basisCombinations terrain.GetFrictionCoeff (F.GetPhase k ee) n t1 t2).map
                (fun v => v.coeff dim))) ++ after))) ∧
      (∀ v ∈ basisCombinations terrain.GetFrictionCoeff (F.GetPhase k ee) n t1 t2,
        fn.p.dot v = v.coeff Dim3D.X * fn.p.coeff Dim3D.X + v.coeff Dim3D.Y * fn.p.coeff Dim3D.Y
          + v.coeff Dim3D.Z * fn.p.coeff Dim3D.Z) := by
  obtain ⟨w, bs, hw, hb, hv, hbb, hee, hfn⟩ := h.blocks
  obtain ⟨before, after, hjac⟩ := h.forceBlock hphase hfit
  obtain ⟨_, hcF, hcM, _⟩ := Init_fields terrain force_limit ee fpps x
  rw [← h.constraint, ← h.force] at hcF
  rw [← h.constraint, ← h.motion] at hcM
  rw [nodeValueRows_eq_map _ _ _ _ _ _ hphase] at hv
  refine ⟨w, before, after, hw, hv _ (by simp), hjac, ?_, ?_⟩
  · intro jac hname
    exact FillJacobianBlock_force c F M _ jac hcF hcM hjac hname
  · intro v _
    simp only [Vector3d.dot, Vector3d.coeff]
    ring

/-- Witness of C7: node 1 of `bowlConstraint` (drift tag 4, knot at `(1, 0)`,
so `n = (-1, 0, 1)`, `t1 = (1, 0, 1)`, `t2 = (0, 1, 0)`), whose block starts at
row 5: the columns 6, 7, 8 of its force receive the components of `n`,
`t1 − n/2`, `t2 − n/2`, and its rows are `1, 5/2, 1/2`. -/
theorem C7_force_jacobian_entries_witness :
    ∃ (w : List ℚ) (before after : List Triplet),
      GetValuesWritten bowlConstraint = some w ∧
      (w.drop 5).take 3 = [1, 5 / 2, 1 / 2] ∧
      forceJacobianWritten bowlConstraint (driftGaitVariables.EEForceNodes 2)
        (driftGaitVariables.EEMotionNodes 2)
        = some (before ++
            ([ Triplet.mk 5 6 (-1), Triplet.mk 6 6 (3 / 2), Triplet.mk 7 6 (1 / 2),
               Triplet.mk 5 7 0, Triplet.mk 6 7 0, Triplet.mk 7 7 1,
               Triplet.mk 5 8 1, Triplet.mk 6 8 (1 / 2), Triplet.mk 7 8 (-1 / 2) ] ++ after)) := by
  obtain ⟨w, before, after, hw, hv, hjac, _, _⟩ :=
    C7_force_jacobian_entries bowlContext1 (by decide) (by decide)
  refine ⟨w, before, after, hw, ?_, hjac.trans ?_⟩
  · have h3 : (basisCombinations bowlTerrain.GetFrictionCoeff
        ((driftGaitVariables.EEForceNodes 2).GetPhase 1 2) ⟨-1, 0, 1⟩ ⟨1, 0, 1⟩ ⟨0, 1, 0⟩).length
        = 3 := by decide!
    rw [h3] at hv
    exact hv.trans (by decide!)
  · have hblk : [Dim3D.X, Dim3D.Y, Dim3D.Z].flatMap (fun dim =>
          blockEntries ((5 : Nat) : Int)
            ((driftGaitVariables.EEForceNodes 2).GetOptIndex 1 Dx.kPos dim)
            ((basisCombinations bowlTerrain.GetFrictionCoeff
              ((driftGaitVariables.EEForceNodes 2).GetPhase 1 2)
              ⟨-1, 0, 1⟩ ⟨1, 0, 1⟩ ⟨0, 1, 0⟩).map (fun v => v.coeff dim)))
        = [ Triplet.mk 5 6 (-1), Triplet.mk 6 6 (3 / 2), Triplet.mk 7 6 (1 / 2),
            Triplet.mk 5 7 0, Triplet.mk 6 7 0, Triplet.mk 7 7 1,
            Triplet.mk 5 8 1, Triplet.mk 6 8 (1 / 2), Triplet.mk 7 8 (-1 / 2) ] := by decide!
    rw [hblk]

/-- C8: for a force node `k` with a tag in 0..5 the motion branch of
`FillJacobianBlock` writes, for each horizontal dimension `dim` of `X_, Y_`, with
`dn, dt1, dt2` the derivatives of the terrain basis with respect to `dim` at the
motion knot, in the column `GetOptIndex(k, kPos, dim)` and at the rows
`off, off + 1, ...` of the node's block, the entries `f·dn, f·(dt1 − μ dn),
f·(dt1 + μ dn), f·(dt2 − μ dn), f·(dt2 + μ dn)` for a pyramid tag and `f·dn,
f·(dt1 − μ dn), f·(dt2 − μ dn)` for the drift tag: the combinations and their
order are those of the rows `GetValues` writes at the same rows, applied to the
derivatives. Every entry of the block is in the column of the x or of the y
position of knot `k`; so, when `GetOptIndex` gives different indices to
different node values, none is in the column of a vertical position or of a
velocity. -/
theorem C8_motion_jacobian_entries {terrain : HeightMap} {force_limit : ℚ} {ee : Nat}
    {fpps : Int} {x : Variables} {c : ForceConstraint} {F M : NodesVariablesPhaseBased}
    {k off : Nat} {m fn : Node} {n t1 t2 : Vector3d}
    (h : NodeContext terrain force_limit ee fpps x c F M k off m fn n t1 t2)
    (hphase : 0 ≤ F.GetPhase k ee ∧ F.GetPhase k ee ≤ 5)
    (hfit : 5 * (F.GetNodes.length : Int) < 2147483648) :
    ∃ (w : List ℚ) (before block after : List Triplet),
      GetValuesWritten c = some w ∧
      (w.drop off).take (basisCombinations terrain.GetFrictionCoeff (F.GetPhase k ee) n t1 t2).length
        = (basisCombinations terrain.GetFrictionCoeff (F.GetPhase k ee) n t1 t2).map
            (fun v => fn.p.dot v) ∧
      block = [Dim2D.X_, Dim2D.Y_].flatMap (fun dim =>
        blockEntries (off : Int) (M.GetOptIndex k Dx.kPos dim.to3D)
          ((basisCombinations terrain.GetFrictionCoeff (F.GetPhase k ee)
            (terrain.GetDerivativeOfNormalizedBasisWrt Direction.Normal dim m.p.x m.p.y)
            (terrain.GetDerivativeOfNormalizedBasisWrt Direction.Tangent1 dim m.p.x m.p.y)
            (terrain.GetDerivativeOfNormalizedBasisWrt Direction.Tangent2 dim m.p.x m.p.y)).map
            (fun v => fn.p.dot v))) ∧
      motionJacobianWritten c F M = some (before ++ (block ++ after)) ∧
      (∀ jac : Jacobian, F.GetName ≠ M.GetName →
        FillJacobianBlock c M.GetName jac = jac.assignAll (before ++ (block ++ after))) ∧
      (∀ t ∈ block, t.col = M.GetOptIndex k Dx.kPos Dim3D.X ∨
        t.col = M.GetOptIndex k Dx.kPos Dim3D.Y) ∧
      ((∀ (j j2 : Nat) (dx dx2 : Dx) (d d2 : Dim3D),
          M.GetOptIndex j dx d = M.GetOptIndex j2 dx2 d2 → j = j2 ∧ dx = dx2 ∧ d = d2) →
        ∀ t ∈ block, ∀ (j : Nat) (d : Dim3D),
          t.col ≠ M.GetOptIndex j Dx.kPos Dim3D.Z ∧ t.col ≠ M.GetOptIndex j Dx.kVel d) := by
  obtain ⟨w, bs, hw, hb, hv, hbb, hee, hfn⟩ := h.blocks
  obtain ⟨before, after, hjac⟩ := h.motionBlock hphase hfit
  obtain ⟨_, hcF, hcM, _⟩ := Init_fields terrain force_limit ee fpps x
  rw [← h.constraint, ← h.force] at hcF
  rw [← h.constraint, ← h.motion] at hcM
  rw [nodeValueRows_eq_map _ _ _ _ _ _ hphase] at hv
  have hcols : ∀ t ∈ [Dim2D.X_, Dim2D.Y_].flatMap (fun dim =>
        blockEntries (off : Int) (M.GetOptIndex k Dx.kPos dim.to3D)
          ((basisCombinations terrain.GetFrictionCoeff (F.GetPhase k ee)
            (terrain.GetDerivativeOfNormalizedBasisWrt Direction.Normal dim m.p.x m.p.y)
            (terrain.GetDerivativeOfNormalizedBasisWrt Direction.Tangent1 dim m.p.x m.p.y)
            (terrain.GetDerivativeOfNormalizedBasisWrt Direction.Tangent2 dim m.p.x m.p.y)).map
            (fun v => fn.p.dot v))),
      t.col = M.GetOptIndex k Dx.kPos Dim3D.X ∨ t.col = M.GetOptIndex k Dx.kPos Dim3D.Y := by
    intro t ht
    simp only [List.flatMap_cons, List.flatMap_nil, List.append_nil, List.mem_append] at ht
    rcases ht with h1 | h1
    · exact Or.inl (blockEntries_col _ _ _ t h1)
    · exact Or.inr (blockEntries_col _ _ _ t h1)
  refine ⟨w, before, _, after, hw, hv _ (by simp), rfl, hjac, ?_, hcols, ?_⟩
  · intro jac hname
    exact FillJacobianBlock_motion c F M _ jac hcF hcM hjac hname
  · intro hinj t ht j d
    rcases hcols t ht with h1 | h1
    · rw [h1]
      constructor
      · intro hc
        exact absurd (hinj _ _ _ _ _ _ hc).2.2 (by decide)
      · intro hc
        exact absurd (hinj _ _ _ _ _ _ hc).2.1 (by decide)
    · rw [h1]
      constructor
      · intro hc
        exact absurd (hinj _ _ _ _ _ _ hc).2.2 (by decide)
      · intro hc
        exact absurd (hinj _ _ _ _ _ _ hc).2.1 (by decide)

/-- Witness of C8: node 2 of `bowlConstraint` (tag 1, knot at `(2, 0)`, force
`(2, 2, 4)`), whose block starts at row 8: only the columns 12 and 13 of the x
and y position of knot 2 receive entries, none of the columns of a z position
or of a velocity. -/
theorem C8_motion_jacobian_entries_witness :
    ∃ (before after : List Triplet),
      motionJacobianWritten bowlConstraint (driftGaitVariables.EEForceNodes 2)
        (driftGaitVariables.EEMotionNodes 2)
        = some (before ++
            ([ Triplet.mk 8 12 (-2), Triplet.mk 9 12 5, Triplet.mk 10 12 3,
               Triplet.mk 11 12 1, Triplet.mk 12 12 (-1),
               Triplet.mk 8 13 (-2), Triplet.mk 9 13 1, Triplet.mk 10 13 (-1),
               Triplet.mk 11 13 5, Triplet.mk 12 13 3 ] ++ after)) ∧
      ∀ t ∈ [ Triplet.mk 8 12 (-2), Triplet.mk 9 12 5, Triplet.mk 10 12 3,
              Triplet.mk 11 12 1, Triplet.mk 12 12 (-1),
              Triplet.mk 8 13 (-2), Triplet.mk 9 13 1, Triplet.mk 10 13 (-1),
              Triplet.mk 11 13 5, Triplet.mk 12 13 3 ],
        ∀ (j : Nat) (d : Dim3D),
          t.col ≠ (driftGaitVariables.EEMotionNodes 2).GetOptIndex j Dx.kPos Dim3D.Z ∧
          t.col ≠ (driftGaitVariables.EEMotionNodes 2).GetOptIndex j Dx.kVel d := by
  obtain ⟨w, before, block, after, _, _, hblock, hjac, _, _, hfree⟩ :=
    C8_motion_jacobian_entries bowlContext2 (by decide) (by decide)
  have hlist : block = [ Triplet.mk 8 12 (-2), Triplet.mk 9 12 5, Triplet.mk 10 12 3,
      Triplet.mk 11 12 1, Triplet.mk 12 12 (-1),
      Triplet.mk 8 13 (-2), Triplet.mk 9 13 1, Triplet.mk 10 13 (-1),
      Triplet.mk 11 13 5, Triplet.mk 12 13 3 ] := by
    rw [hblock]
    decide!
  rw [hlist] at hjac hfree
  exact ⟨before, after, hjac, hfree (exampleSet_GetOptIndex_injective "ee-motion" _ _)⟩

/-- C9 (counterexample): for end-effector 0, one node per phase
(`force_polynomials_per_stance_phase = 0`) and three force nodes the declared
row count is 15, not `nodeCountPerPhase × 5 = 5`. -/
theorem C9_counterexample :
    (InitVariableDependedQuantities (ForceConstraint.new flatTerrain 1000 0 0)
      threeNodeVariables).GetRows = 15 ∧
    (InitVariableDependedQuantities (ForceConstraint.new flatTerrain 1000 0 0)
      threeNodeVariables).GetRows ≠ ((0 : Int) + 1) * 5 := by
  decide

/-- C9 (amended): for end-effector 0 or 1 the row count declared by
`InitVariableDependedQuantities` is five times the number of force nodes,
whatever `force_polynomials_per_stance_phase` is, as long as that product fits
an `int`. -/
theorem C9_declared_rows_normal_class (terrain : HeightMap) (force_limit : ℚ) (ee : Nat)
    (fpps : Int) (x : Variables) (hee : ee = 0 ∨ ee = 1)
    (hfit : 5 * ((x.EEForceNodes ee).GetNodes.length : Int) < 2147483648) :
    (InitVariableDependedQuantities (ForceConstraint.new terrain force_limit ee fpps) x).GetRows
      = 5 * ((x.EEForceNodes ee).GetNodes.length : Int) := by
  rw [Init_GetRows, constraintCount_normal ee _ fpps hee (by simpa using hfit)]
  simp

/-- Witness of C9 (amended): end-effector 1 with three force nodes declares 15
rows for `force_polynomials_per_stance_phase = 7`. -/
theorem C9_declared_rows_normal_class_witness :
    5 * ((threeNodeVariables.EEForceNodes 1).GetNodes.length : Int) < 2147483648 ∧
    (InitVariableDependedQuantities (ForceConstraint.new flatTerrain 1000 1 7)
      threeNodeVariables).GetRows = 5 * ((threeNodeVariables.EEForceNodes 1).GetNodes.length : Int) :=
  ⟨by decide,
    C9_declared_rows_normal_class flatTerrain 1000 1 7 threeNodeVariables (Or.inr rfl) (by decide)⟩

/-- C10: for end-effector 2 or 3 the row count declared by
`InitVariableDependedQuantities` is `(2*npp - 1)*5 + (npp - 1)*3` with
`npp = force_polynomials_per_stance_phase + 1`, for every variable composite
(so whatever the number of force nodes), provided the value fits an `int`. -/
theorem C10_declared_rows_drift_class (terrain : HeightMap) (force_limit : ℚ) (ee : Nat)
    (fpps : Int) (x : Variables) (hee : ee = 2 ∨ ee = 3)
    (hfit : InInt32 ((2 * (fpps + 1) - 1) * 5 + ((fpps + 1) - 1) * 3)) :
    (InitVariableDependedQuantities (ForceConstraint.new terrain force_limit ee fpps) x).GetRows
      = (2 * (fpps + 1) - 1) * 5 + ((fpps + 1) - 1) * 3 := by
  rw [Init_GetRows, constraintCount_drift ee _ fpps hee hfit]

/-- Witness of C10: end-effector 3 with `force_polynomials_per_stance_phase = 3`
declares 44 rows although the variable set holds three force nodes. -/
theorem C10_declared_rows_drift_class_witness :
    InInt32 ((2 * ((3 : Int) + 1) - 1) * 5 + (((3 : Int) + 1) - 1) * 3) ∧
    (InitVariableDependedQuantities (ForceConstraint.new flatTerrain 1000 3 3)
      threeNodeVariables).GetRows = 44 :=
  ⟨by decide,
    C10_declared_rows_drift_class flatTerrain 1000 3 3 threeNodeVariables (Or.inr rfl) (by decide)⟩

/-- C11: for force nodes whose phase tags lie in 0..5, the block of node `k`
starts at the same row offset `off` and has the same length `len` (5 rows for
the tags 0, 1, 2, 3, 5 and 3 rows for the tag 4) in `GetValues`, in
`GetBounds` and in the force and the motion branch of `FillJacobianBlock`:
the iterations before `k` assign `off` rows and append `off` bounds, the
iteration of `k` assigns `len` rows and appends `len` bounds, and in both
branches of `FillJacobianBlock` the row counter is `off` when the loop reaches
node `k`, the entries of node `k` lie in the rows `off, ..., off + len - 1`
(each of which receives an entry) and the row counter is `off + len`
afterwards. -/
theorem C11_block_alignment {terrain : HeightMap} {force_limit : ℚ} {ee : Nat}
    {fpps : Int} {x : Variables} {c : ForceConstraint} {F M : NodesVariablesPhaseBased}
    {k off : Nat} {m fn : Node} {n t1 t2 : Vector3d}
    (h : NodeContext terrain force_limit ee fpps x c F M k off m fn n t1 t2)
    (hphase : 0 ≤ F.GetPhase k ee ∧ F.GetPhase k ee ≤ 5)
    (hfit : 5 * (F.GetNodes.length : Int) < 2147483648) :
    ∃ (len : Nat) (vb vblock va : List ℚ) (bb bblock ba : List Bounds)
      (fb fblock fa mb mblock ma : List Triplet),
      len = (if isPyramidPhase (F.GetPhase k ee) = true then 5 else 3) ∧
      (GetValuesLoop c F M (List.range k) [] = some vb ∧ vb.length = off ∧
        GetValuesBody c F M vb k = some (vb ++ vblock) ∧ vblock.length = len ∧
        GetValuesWritten c = some (vb ++ (vblock ++ va))) ∧
      (GetBoundsLoop c (List.range k) [] = some bb ∧ bb.length = off ∧
        GetBoundsBody c F bb k = bb ++ bblock ∧ bblock.length = len ∧
        GetBounds c = some (bb ++ (bblock ++ ba))) ∧
      (List.range k).foldl (fun row id => advanceRow c (F.GetPhase id ee) row) 0 = (off : Int) ∧
      (jacobianLoop (forceJacobianBody c F M) (List.range k) 0 = some fb ∧
        forceJacobianBody c F M (off : Int) k = some (fblock, (off : Int) + (len : Int)) ∧
        forceJacobianWritten c F M = some (fb ++ (fblock ++ fa)) ∧
        (∀ t ∈ fblock, (off : Int) ≤ t.row ∧ t.row < (off : Int) + (len : Int)) ∧
        (∀ r, r < len → ∃ t ∈ fblock, t.row = (off : Int) + (r : Int))) ∧
      (jacobianLoop (motionJacobianBody c F M) (List.range k) 0 = some mb ∧
        motionJacobianBody c F M (off : Int) k = some (mblock, (off : Int) + (len : Int)) ∧
        motionJacobianWritten c F M = some (mb ++ (mblock ++ ma)) ∧
        (∀ t ∈ mblock, (off : Int) ≤ t.row ∧ t.row < (off : Int) + (len : Int)) ∧
        (∀ r, r < len → ∃ t ∈ mblock, t.row = (off : Int) + (r : Int))) := by
  obtain ⟨vb, va, bb, ba, fb, fa, mb, ma, ⟨hv1, hv2, hv3, hv4⟩, ⟨hb1, hb2, hb3, hb4⟩, hrow,
    hadv, ⟨hf1, hf2, hf3⟩, ⟨hm1, hm2, hm3⟩⟩ := h.loops hphase hfit
  have hee : c.ee_ = ee := by
    rw [h.constraint]
    exact (Init_fields terrain force_limit ee fpps x).1
  have hlen := valueRowsOfPhase_eq_len _ hphase
  rw [hlen] at hadv
  rw [hadv] at hf2 hm2
  have hcomb : ∀ (a b d : Vector3d),
      (basisCombinations terrain.GetFrictionCoeff (F.GetPhase k ee) a b d).length
        = if isPyramidPhase (F.GetPhase k ee) = true then 5 else 3 :=
    fun a b d => basisCombinations_length _ _ a b d
  refine ⟨_, vb, _, va, bb, _, ba, fb, _, fa, mb, _, ma, rfl, ⟨hv1, hv2, hv3, ?_, hv4⟩,
    ⟨hb1, hb2, hb3, ?_, hb4⟩, hrow, ⟨hf1, hf2, hf3, ?_, ?_⟩, ⟨hm1, hm2, hm3, ?_, ?_⟩⟩
  · rw [nodeValueRows_length, hlen]
  · rw [GetBoundsBody_nil_length, hee, boundRowsOfPhase_eq _ hphase, hlen]
  · exact flatMap_blockEntries_rows _ _ _ _ _ (fun d _ => by rw [List.length_map, hcomb])
  · intro r hr
    obtain ⟨t, ht, hrow, _⟩ := flatMap_blockEntries_row_exists [Dim3D.X, Dim3D.Y, Dim3D.Z]
      (fun dim => F.GetOptIndex k Dx.kPos dim)
      (fun dim => (basisCombinations terrain.GetFrictionCoeff (F.GetPhase k ee) n t1 t2).map
        (fun v => v.coeff dim)) (off : Int) _ Dim3D.X (by simp)
      (by rw [List.length_map, hcomb]) r hr
    exact ⟨t, ht, hrow⟩
  · exact flatMap_blockEntries_rows _ _ _ _ _ (fun d _ => by rw [List.length_map, hcomb])
  · intro r hr
    obtain ⟨t, ht, hrow, _⟩ := flatMap_blockEntries_row_exists [Dim2D.X_, Dim2D.Y_]
      (fun dim => M.GetOptIndex k Dx.kPos dim.to3D)
      (fun dim => (basisCombinations terrain.GetFrictionCoeff (F.GetPhase k ee)
        (terrain.GetDerivativeOfNormalizedBasisWrt Direction.Normal dim m.p.x m.p.y)
        (terrain.GetDerivativeOfNormalizedBasisWrt Direction.Tangent1 dim m.p.x m.p.y)
        (terrain.GetDerivativeOfNormalizedBasisWrt Direction.Tangent2 dim m.p.x m.p.y)).map
        (fun v => fn.p.dot v)) (off : Int) _ Dim2D.X_ (by simp)
      (by rw [List.length_map, hcomb]) r hr
    exact ⟨t, ht, hrow⟩

/-- Witness of C11: node 1 of `bowlConstraint` (drift tag 4, after one pyramid
node): its block starts at row 5 and has 3 rows in all four places. -/
theorem C11_block_alignment_witness :
    ∃ (vb vblock va : List ℚ) (bb bblock ba : List Bounds)
      (fb fblock fa mb mblock ma : List Triplet),
      (vb.length = 5 ∧ vblock.length = 3 ∧
        GetValuesWritten bowlConstraint = some (vb ++ (vblock ++ va))) ∧
      (bb.length = 5 ∧ bblock.length = 3 ∧
        GetBounds bowlConstraint = some (bb ++ (bblock ++ ba))) ∧
      (forceJacobianBody bowlConstraint (driftGaitVariables.EEForceNodes 2)
          (driftGaitVariables.EEMotionNodes 2) 5 1 = some (fblock, 8) ∧
        forceJacobianWritten bowlConstraint (driftGaitVariables.EEForceNodes 2)
          (driftGaitVariables.EEMotionNodes 2) = some (fb ++ (fblock ++ fa))) ∧
      (motionJacobianBody bowlConstraint (driftGaitVariables.EEForceNodes 2)
          (driftGaitVariables.EEMotionNodes 2) 5 1 = some (mblock, 8) ∧
        motionJacobianWritten bowlConstraint (driftGaitVariables.EEForceNodes 2)
          (driftGaitVariables.EEMotionNodes 2) = some (mb ++ (mblock ++ ma))) := by
  obtain ⟨len, vb, vblock, va, bb, bblock, ba, fb, fblock, fa, mb, mblock, ma, hlen,
    ⟨_, hv2, _, hv4, hv5⟩, ⟨_, hb2, _, hb4, hb5⟩, _, ⟨_, hf2, hf3, _, _⟩,
    ⟨_, hm2, hm3, _, _⟩⟩ := C11_block_alignment bowlContext1 (by decide) (by decide)
  have hlen3 : len = 3 := hlen.trans (by decide)
  subst hlen3
  exact ⟨vb, vblock, va, bb, bblock, ba, fb, fblock, fa, mb, mblock, ma,
    ⟨hv2, hv4, hv5⟩, ⟨hb2, hb4, hb5⟩, ⟨hf2, hf3⟩, ⟨hm2, hm3⟩⟩

/-- C12 (counterexample): end-effector 3 with four nodes per phase declares 44
rows; for three force nodes `GetValues` writes 15 rows and still returns a
vector (of 44 entries), and `GetBounds` returns 15 bounds. -/
theorem C12_counterexample :
    (InitVariableDependedQuantities (ForceConstraint.new flatTerrain 1000 3 3)
      threeNodeVariables).GetRows = 44 ∧
    (GetValuesWritten (InitVariableDependedQuantities (ForceConstraint.new flatTerrain 1000 3 3)
      threeNodeVariables)).map List.length = some 15 ∧
    (GetValues (InitVariableDependedQuantities (ForceConstraint.new flatTerrain 1000 3 3)
      threeNodeVariables)).map List.length = some 44 ∧
    (GetBounds (InitVariableDependedQuantities (ForceConstraint.new flatTerrain 1000 3 3)
      threeNodeVariables)).map List.length = some 15 := by
  decide!

/-- C12 (amended): after `InitVariableDependedQuantities`, with a motion knot
for every force node, `GetBounds` returns the bounds it generated whatever the
declared row count is, and `GetValues` returns a vector of the declared size
whenever at least as many rows are declared as it writes: the rows it writes
come first and the remaining declared rows are never assigned. Neither
function compares the two counts. -/
theorem C12_no_row_count_check (terrain : HeightMap) (force_limit : ℚ) (ee : Nat)
    (fpps : Int) (x : Variables)
    (hmotion : (x.EEForceNodes ee).GetNodes.length ≤ (x.EEMotionNodes ee).GetNodes.length) :
    ∃ (written : List ℚ) (bounds : List Bounds),
      GetValuesWritten (InitVariableDependedQuantities
        (ForceConstraint.new terrain force_limit ee fpps) x) = some written ∧
      GetBounds (InitVariableDependedQuantities
        (ForceConstraint.new terrain force_limit ee fpps) x) = some bounds ∧
      ((written.length : Int) ≤ (InitVariableDependedQuantities
          (ForceConstraint.new terrain force_limit ee fpps) x).GetRows →
        GetValues (InitVariableDependedQuantities
          (ForceConstraint.new terrain force_limit ee fpps) x)
          = some (written.map some ++ List.replicate
              ((InitVariableDependedQuantities
                (ForceConstraint.new terrain force_limit ee fpps) x).GetRows.toNat
                - written.length) none)) := by
  obtain ⟨hcee, hF, hM, hids⟩ := Init_fields terrain force_limit ee fpps x
  generalize InitVariableDependedQuantities (ForceConstraint.new terrain force_limit ee fpps) x = c
    at hcee hF hM hids ⊢
  have hin : ∀ id ∈ List.range (x.EEForceNodes ee).GetNodes.length,
      id < (x.EEMotionNodes ee).GetNodes.length ∧ id < (x.EEForceNodes ee).GetNodes.length :=
    fun id hid => ⟨lt_of_lt_of_le (List.mem_range.mp hid) hmotion, List.mem_range.mp hid⟩
  obtain ⟨w, hw, _⟩ := GetValuesLoop_length c _ _ _ [] hin
  have hW : GetValuesWritten c = some w := by
    simp [GetValuesWritten, hF, hM, hids, hw]
  refine ⟨w, _, hW, by rw [GetBounds, hids, GetBoundsLoop_eq c _ hF], ?_⟩
  intro hle
  have h0 : 0 ≤ c.GetRows := le_trans (Int.ofNat_nonneg _) hle
  simp [GetValues, hW, h0, hle]

/-- Witness of C12 (amended): the input of the counterexample; both functions
return, with 15 rows written and 44 declared. -/
theorem C12_no_row_count_check_witness :
    ∃ (written : List ℚ) (bounds : List Bounds),
      GetValuesWritten (InitVariableDependedQuantities
        (ForceConstraint.new flatTerrain 1000 3 3) threeNodeVariables) = some written ∧
      GetBounds (InitVariableDependedQuantities
        (ForceConstraint.new flatTerrain 1000 3 3) threeNodeVariables) = some bounds ∧
      ((written.length : Int) ≤ (InitVariableDependedQuantities
          (ForceConstraint.new flatTerrain 1000 3 3) threeNodeVariables).GetRows →
        GetValues (InitVariableDependedQuantities
          (ForceConstraint.new flatTerrain 1000 3 3) threeNodeVariables)
          = some (written.map some ++ List.replicate
              ((InitVariableDependedQuantities
                (ForceConstraint.new flatTerrain 1000 3 3) threeNodeVariables).GetRows.toNat
                - written.length) none)) :=
  C12_no_row_count_check flatTerrain 1000 3 3 threeNodeVariables (by decide)

/-- C13: after `InitVariableDependedQuantities`, for every name of a variable
set that differs from the name of the bound force set and from the name of
the bound motion set, `FillJacobianBlock` returns and the matrix it returns is
the matrix it was given. -/
theorem C13_unrecognized_name_noop (terrain : HeightMap) (force_limit : ℚ) (ee : Nat)
    (fpps : Int) (x : Variables) (var_set : String) (jac : Jacobian)
    (hforce : var_set ≠ (x.EEForceNodes ee).GetName)
    (hmotion : var_set ≠ (x.EEMotionNodes ee).GetName) :
    FillJacobianBlock (InitVariableDependedQuantities
      (ForceConstraint.new terrain force_limit ee fpps) x) var_set jac = some jac := by
  obtain ⟨_, hF, hM, _⟩ := Init_fields terrain force_limit ee fpps x
  simp [FillJacobianBlock, hF, hM, hforce, hmotion]

/-- Witness of C13: the name `base-lin` is neither `ee-force` nor `ee-motion`. -/
theorem C13_unrecognized_name_noop_witness :
    FillJacobianBlock bowlConstraint "base-lin" (Jacobian.mk 18 24 (fun _ _ => 7))
      = some (Jacobian.mk 18 24 (fun _ _ => 7)) :=
  C13_unrecognized_name_noop bowlTerrain 1000 2 1 driftGaitVariables "base-lin"
    (Jacobian.mk 18 24 (fun _ _ => 7)) (by decide) (by decide)

/-- C14: for the force variable set and force nodes whose phase tags all lie in
0..5, the entries `FillJacobianBlock` writes for knot `k` are in the columns
`GetOptIndex(k, kPos, dim)` and in the rows `off, ..., off + len - 1` of the
block of knot `k`. When `GetOptIndex` gives different knots different columns,
every entry written in a column of knot `k` lies in these rows; so
`FillJacobianBlock`, started on a zero matrix that is large enough, returns a
matrix whose coefficients in the columns of knot `k` are zero at every row
outside the block of knot `k`. -/
theorem C14_force_block_sparsity {terrain : HeightMap} {force_limit : ℚ} {ee : Nat}
    {fpps : Int} {x : Variables} {c : ForceConstraint} {F M : NodesVariablesPhaseBased}
    {k off : Nat} {m fn : Node} {n t1 t2 : Vector3d}
    (h : NodeContext terrain force_limit ee fpps x c F M k off m fn n t1 t2)
    (hall : ∀ id, id < F.GetNodes.length → 0 ≤ F.GetPhase id ee ∧ F.GetPhase id ee ≤ 5)
    (hfit : 5 * (F.GetNodes.length : Int) < 2147483648) :
    ∃ (len : Nat) (written fblock : List Triplet),
      len = (if isPyramidPhase (F.GetPhase k ee) = true then 5 else 3) ∧
      forceJacobianWritten c F M = some written ∧
      forceJacobianBody c F M (off : Int) k = some (fblock, (off : Int) + (len : Int)) ∧
      (∀ t ∈ fblock, (∃ dim, t.col = F.GetOptIndex k Dx.kPos dim) ∧
        (off : Int) ≤ t.row ∧ t.row < (off : Int) + (len : Int)) ∧
      ((∀ (j j2 : Nat) (d d2 : Dim3D),
          F.GetOptIndex j Dx.kPos d = F.GetOptIndex j2 Dx.kPos d2 → j = j2) →
        (∀ t ∈ written, ∀ dim, t.col = F.GetOptIndex k Dx.kPos dim →
          (off : Int) ≤ t.row ∧ t.row < (off : Int) + (len : Int)) ∧
        (∀ (nrows ncols : Nat), F.GetName ≠ M.GetName →
          5 * pyramidCount F ee (List.range F.GetNodes.length)
            + 3 * driftCount F ee (List.range F.GetNodes.length) ≤ nrows →
          (∀ (j : Nat) (dim : Dim3D), j < F.GetNodes.length →
            F.GetOptIndex j Dx.kPos dim < ncols) →
          ∃ jac2, FillJacobianBlock c F.GetName (Jacobian.zero nrows ncols) = some jac2 ∧
            ∀ (i : Nat) (dim : Dim3D), ¬ ((off : Int) ≤ (i : Int) ∧ (i : Int) < (off : Int) + (len : Int)) →
              jac2.coeff i (F.GetOptIndex k Dx.kPos dim) = 0)) := by
  have hkF : k < F.GetNodes.length := getElem?_lt_length _ _ _ h.node
  have hphase := hall k hkF
  obtain ⟨vb, va, bb, ba, fb, fa, mb, ma, _, _, _, hadv, ⟨_, hf2, hf3⟩, _⟩ := h.loops hphase hfit
  obtain ⟨hee, hcF, hcM, hids⟩ := Init_fields terrain force_limit ee fpps x
  obtain ⟨_, _, _, hper, hdrift⟩ := Init_params terrain force_limit ee fpps x
  rw [← h.constraint] at hee hcF hcM hids hper hdrift
  rw [← h.force] at hcF hids
  rw [← h.motion] at hcM
  have hlen := valueRowsOfPhase_eq_len _ hphase
  rw [hadv, hlen] at hf2
  have hcomb : ∀ (dim : Dim3D),
      ((basisCombinations terrain.GetFrictionCoeff (F.GetPhase k ee) n t1 t2).map
        (fun v => v.coeff dim)).length
        = if isPyramidPhase (F.GetPhase k ee) = true then 5 else 3 :=
    fun dim => by rw [List.length_map, basisCombinations_length]
  have hmemw := forceJacobianWritten_mem c F M ee _ hee hper hdrift hids h.cover hall hfit hf3
  have hSk : ((List.range k).map (fun id => valueRowsOfPhase (F.GetPhase id ee))).sum = off := by
    rw [offset_values F ee k h.before, ← h.offset]
  refine ⟨_, _, _, rfl, hf3, hf2, ?_, ?_⟩
  · intro t ht
    rw [List.mem_flatMap] at ht
    obtain ⟨dim, _, htd⟩ := ht
    obtain ⟨hc, h2, h3⟩ := blockEntries_mem _ _ _ t htd
    rw [hcomb] at h3
    exact ⟨⟨dim, hc⟩, h2, h3⟩
  · intro hinj
    have hcol : ∀ t ∈ fb ++ ([Dim3D.X, Dim3D.Y, Dim3D.Z].flatMap (fun dim =>
          blockEntries (off : Int) (F.GetOptIndex k Dx.kPos dim)
            ((basisCombinations terrain.GetFrictionCoeff (F.GetPhase k ee) n t1 t2).map
              (fun v => v.coeff dim))) ++ fa),
        ∀ dim, t.col = F.GetOptIndex k Dx.kPos dim →
          (off : Int) ≤ t.row ∧ t.row < (off : Int)
            + ((if isPyramidPhase (F.GetPhase k ee) = true then 5 else 3 : Nat) : Int) := by
      intro t ht dim hc
      obtain ⟨j, dim2, _, hc2, hr1, hr2⟩ := hmemw t ht
      have hjk : j = k := hinj j k dim2 dim (hc2.symm.trans hc)
      subst hjk
      rw [hSk] at hr1 hr2
      rw [hlen] at hr2
      exact ⟨hr1, hr2⟩
    refine ⟨hcol, ?_⟩
    intro nrows ncols hname hrows hcols
    have hsize : ∀ t ∈ fb ++ ([Dim3D.X, Dim3D.Y, Dim3D.Z].flatMap (fun dim =>
          blockEntries (off : Int) (F.GetOptIndex k Dx.kPos dim)
            ((basisCombinations terrain.GetFrictionCoeff (F.GetPhase k ee) n t1 t2).map
              (fun v => v.coeff dim))) ++ fa),
        0 ≤ t.row ∧ t.row < ((Jacobian.zero nrows ncols).nrows : Int) ∧
          t.col < (Jacobian.zero nrows ncols).ncols := by
      intro t ht
      obtain ⟨j, dim2, hj, hc2, hr1, hr2⟩ := hmemw t ht
      have hle := sum_valueRows_range_succ_le F ee F.GetNodes.length j hj
      rw [sum_valueRows F ee _ (fun id hid => hall id (List.mem_range.mp hid))] at hle
      refine ⟨by omega, ?_, ?_⟩
      · show t.row < (nrows : Int)
        omega
      · show t.col < ncols
        rw [hc2]
        exact hcols j dim2 hj
    obtain ⟨jac2, hjac2⟩ := Jacobian.assignAll_success _ (Jacobian.zero nrows ncols) hsize
    refine ⟨jac2, ?_, ?_⟩
    · rw [FillJacobianBlock_force c F M _ _ hcF hcM hf3 hname, hjac2]
    · intro i dim hout
      rw [Jacobian.assignAll_frame i (F.GetOptIndex k Dx.kPos dim) _ _ _ hjac2]
      · rfl
      · intro t ht hit
        obtain ⟨hi, hc⟩ := hit
        have := hcol t ht dim hc.symm
        rw [← hi] at this
        exact hout this

/-- Witness of C14: knot 1 of `bowlConstraint` (block in the rows 5, 6, 7): in
the 18 x 24 matrix that `FillJacobianBlock` fills from zero for the force set,
the columns 6, 7, 8 of knot 1 are zero outside the rows 5, 6, 7. -/
theorem C14_force_block_sparsity_witness :
    ∃ jac2, FillJacobianBlock bowlConstraint (driftGaitVariables.EEForceNodes 2).GetName
        (Jacobian.zero 18 24) = some jac2 ∧
      ∀ (i : Nat) (dim : Dim3D), ¬ ((5 : Int) ≤ (i : Int) ∧ (i : Int) < 8) →
        jac2.coeff i ((driftGaitVariables.EEForceNodes 2).GetOptIndex 1 Dx.kPos dim) = 0 := by
  obtain ⟨len, written, fblock, hlen, _, _, _, hinj⟩ :=
    C14_force_block_sparsity bowlContext1 (driftGait_tags_before 4 (by decide)) (by decide)
  have hlen3 : len = 3 := hlen.trans (by decide)
  subst hlen3
  obtain ⟨_, hmat⟩ := hinj (fun j j2 d d2 heq =>
    (exampleSet_GetOptIndex_injective "ee-force" _ _ j j2 Dx.kPos Dx.kPos d d2 heq).1)
  obtain ⟨jac2, hjac, hzero⟩ := hmat 18 24 (by decide) (by decide) driftGait_force_columns
  exact ⟨jac2, hjac, hzero⟩

/-- C18: the rows `GetValues` writes depend on the motion variable set only
through the x and y positions of its knots. For two variable composites with
the same force set whose motion knots agree in the x and y position (they may
differ in the z position and in the velocity, and the two motion sets may
differ in name and indices), on the same terrain, every iteration of
`GetValues` assigns the same rows, and `GetValues` returns the same vector. -/
theorem C18_values_depend_on_horizontal_position (terrain : HeightMap) (force_limit : ℚ)
    (ee : Nat) (fpps : Int) (x x2 : Variables)
    (hforce : x.EEForceNodes ee = x2.EEForceNodes ee)
    (hxy : (x.EEMotionNodes ee).GetNodes.map (fun nd : Node => (nd.p.x, nd.p.y))
      = (x2.EEMotionNodes ee).GetNodes.map (fun nd : Node => (nd.p.x, nd.p.y))) :
    (∀ (g : List ℚ) (k : Nat),
      GetValuesBody (InitVariableDependedQuantities
          (ForceConstraint.new terrain force_limit ee fpps) x)
          (x.EEForceNodes ee) (x.EEMotionNodes ee) g k
        = GetValuesBody (InitVariableDependedQuantities
          (ForceConstraint.new terrain force_limit ee fpps) x2)
          (x2.EEForceNodes ee) (x2.EEMotionNodes ee) g k) ∧
    GetValues (InitVariableDependedQuantities
        (ForceConstraint.new terrain force_limit ee fpps) x)
      = GetValues (InitVariableDependedQuantities
        (ForceConstraint.new terrain force_limit ee fpps) x2) := by
  obtain ⟨hee, hF, hM, hids⟩ := Init_fields terrain force_limit ee fpps x
  obtain ⟨hee2, hF2, hM2, hids2⟩ := Init_fields terrain force_limit ee fpps x2
  obtain ⟨ht, _, hmu, _, _⟩ := Init_params terrain force_limit ee fpps x
  obtain ⟨ht2, _, hmu2, _, _⟩ := Init_params terrain force_limit ee fpps x2
  have hrows := Init_GetRows terrain force_limit ee fpps x
  have hrows2 := Init_GetRows terrain force_limit ee fpps x2
  rw [← hforce] at hF2 hids2 hrows2
  have hk : ∀ k : Nat, ((x.EEMotionNodes ee).GetNodes[k]?).map (fun nd : Node => (nd.p.x, nd.p.y))
      = ((x2.EEMotionNodes ee).GetNodes[k]?).map (fun nd : Node => (nd.p.x, nd.p.y)) := by
    intro k
    rw [← List.getElem?_map, ← List.getElem?_map, hxy]
  constructor
  · intro g k
    rw [← hforce]
    exact GetValuesBody_congr _ _ _ _ _ g k (ht.trans ht2.symm) (hmu.trans hmu2.symm)
      (hee.trans hee2.symm) (hk k)
  · have hw : GetValuesWritten (InitVariableDependedQuantities
          (ForceConstraint.new terrain force_limit ee fpps) x)
        = GetValuesWritten (InitVariableDependedQuantities
          (ForceConstraint.new terrain force_limit ee fpps) x2) := by
      simp only [GetValuesWritten, hF, hM, hF2, hM2, hids, hids2, Option.bind_eq_bind,
        Option.some_bind]
      exact GetValuesLoop_congr _ _ _ _ _ (ht.trans ht2.symm) (hmu.trans hmu2.symm)
        (hee.trans hee2.symm) hxy _ _
    simp only [GetValues, hw, hrows, hrows2]

/-- Witness of C18: `liftedGaitVariables` differs from `driftGaitVariables` in
the z positions and velocities of the motion knots only, and `GetValues`
returns the same 18 rows for both. -/
theorem C18_values_depend_on_horizontal_position_witness :
    GetValues (InitVariableDependedQuantities (ForceConstraint.new bowlTerrain 1000 2 1)
        driftGaitVariables)
      = GetValues (InitVariableDependedQuantities (ForceConstraint.new bowlTerrain 1000 2 1)
        liftedGaitVariables) ∧
    (driftGaitVariables.EEMotionNodes 2).GetNodes ≠ (liftedGaitVariables.EEMotionNodes 2).GetNodes :=
  ⟨(C18_values_depend_on_horizontal_position bowlTerrain 1000 2 1 driftGaitVariables
      liftedGaitVariables rfl (by decide!)).2, by decide!⟩

/-- C19: for end-effector 0 or 1 and force nodes whose phase tags all lie in
0..5 (with a motion knot for every force node and a row count that fits an
`int`), `GetValues` returns its rows, and the row count declared by
`InitVariableDependedQuantities`, five per node, equals the number of rows
`GetValues` writes if and only if no node carries the drift tag 4. -/
theorem C19_normal_class_count_matches_iff (terrain : HeightMap) (force_limit : ℚ) (ee : Nat)
    (fpps : Int) (x : Variables) (hee : ee = 0 ∨ ee = 1)
    (htags : ∀ id, id < (x.EEForceNodes ee).GetNodes.length →
      0 ≤ (x.EEForceNodes ee).GetPhase id ee ∧ (x.EEForceNodes ee).GetPhase id ee ≤ 5)
    (hmotion : (x.EEForceNodes ee).GetNodes.length ≤ (x.EEMotionNodes ee).GetNodes.length)
    (hfit : 5 * ((x.EEForceNodes ee).GetNodes.length : Int) < 2147483648) :
    ∃ written : List ℚ,
      GetValuesWritten (InitVariableDependedQuantities
        (ForceConstraint.new terrain force_limit ee fpps) x) = some written ∧
      (InitVariableDependedQuantities
        (ForceConstraint.new terrain force_limit ee fpps) x).GetRows
          = 5 * ((x.EEForceNodes ee).GetNodes.length : Int) ∧
      ((InitVariableDependedQuantities
          (ForceConstraint.new terrain force_limit ee fpps) x).GetRows = written.length ↔
        ∀ id, id < (x.EEForceNodes ee).GetNodes.length →
          (x.EEForceNodes ee).GetPhase id ee ≠ 4) := by
  obtain ⟨hcee, hF, hM, hids⟩ := Init_fields terrain force_limit ee fpps x
  have hrows := Init_GetRows terrain force_limit ee fpps x
  rw [constraintCount_normal ee _ fpps hee (by simpa using hfit), List.length_range] at hrows
  generalize InitVariableDependedQuantities (ForceConstraint.new terrain force_limit ee fpps) x = c
    at hcee hF hM hids hrows ⊢
  generalize x.EEForceNodes ee = F at htags hmotion hfit hF hrows hids ⊢
  generalize x.EEMotionNodes ee = M at hmotion hM ⊢
  have htags2 : ∀ id ∈ List.range F.GetNodes.length,
      0 ≤ F.GetPhase id ee ∧ F.GetPhase id ee ≤ 5 :=
    fun id hid => htags id (List.mem_range.mp hid)
  have hin : ∀ id ∈ List.range F.GetNodes.length,
      id < M.GetNodes.length ∧ id < F.GetNodes.length :=
    fun id hid => ⟨lt_of_lt_of_le (List.mem_range.mp hid) hmotion, List.mem_range.mp hid⟩
  obtain ⟨w, hw, hlen⟩ := GetValuesLoop_length c F M _ [] hin
  rw [hcee, sum_valueRows F ee _ htags2] at hlen
  have hcount := count_add F ee _ htags2
  rw [List.length_range] at hcount
  have hzero := driftCount_eq_zero_iff F ee (List.range F.GetNodes.length)
  refine ⟨w, by simp [GetValuesWritten, hF, hM, hids, hw], hrows, ?_⟩
  rw [hrows]
  simp only [List.length_nil, Nat.zero_add] at hlen
  constructor
  · intro heq id hid
    have hd : driftCount F ee (List.range F.GetNodes.length) = 0 := by omega
    exact hzero.mp hd id (List.mem_range.mpr hid)
  · intro hno
    have hd : driftCount F ee (List.range F.GetNodes.length) = 0 :=
      hzero.mpr (fun id hid => hno id (List.mem_range.mp hid))
    omega

/-- Witness of C19: end-effector 0 with the three force nodes tagged 0, 0, 0
declares 15 rows and `GetValues` writes 15 rows. -/
theorem C19_normal_class_count_matches_iff_witness :
    ∃ written : List ℚ,
      GetValuesWritten (InitVariableDependedQuantities
        (ForceConstraint.new flatTerrain 1000 0 3) threeNodeVariables) = some written ∧
      (InitVariableDependedQuantities
        (ForceConstraint.new flatTerrain 1000 0 3) threeNodeVariables).GetRows = 15 ∧
      (written.length : Int) = 15 := by
  obtain ⟨written, hw, hrows, hiff⟩ := C19_normal_class_count_matches_iff flatTerrain 1000 0 3
    threeNodeVariables (Or.inl rfl)
    (by
      intro id hid
      have h3 : id < 3 := hid
      interval_cases id <;> decide)
    (by decide) (by decide)
  have hrows15 : (InitVariableDependedQuantities
      (ForceConstraint.new flatTerrain 1000 0 3) threeNodeVariables).GetRows = 15 :=
    hrows.trans (by decide)
  refine ⟨written, hw, hrows15, ?_⟩
  rw [← hrows15]
  exact (hiff.mpr (by
    intro id hid
    have h3 : id < 3 := hid
    interval_cases id <;> decide)).symm

/-- C20: for end-effector 2 or 3, with `npp = force_polynomials_per_stance_phase
+ 1` and force nodes whose phase tags all lie in 0..5, `a` of them with a
pyramid tag and `b` with the drift tag 4 (a motion knot for every force node, a
declared count that fits an `int`), `GetValues` writes `5a + 3b` rows and
`GetBounds` returns `5a + 3b` bounds, and the declared row count equals both
numbers if and only if `5a + 3b = 13 npp − 8`; in particular it does when
`a = 2 npp − 1` and `b = npp − 1`. -/
theorem C20_drift_class_count_matches_iff (terrain : HeightMap) (force_limit : ℚ) (ee : Nat)
    (fpps : Int) (x : Variables) (a b : Nat) (hee : ee = 2 ∨ ee = 3)
    (htags : ∀ id, id < (x.EEForceNodes ee).GetNodes.length →
      0 ≤ (x.EEForceNodes ee).GetPhase id ee ∧ (x.EEForceNodes ee).GetPhase id ee ≤ 5)
    (hmotion : (x.EEForceNodes ee).GetNodes.length ≤ (x.EEMotionNodes ee).GetNodes.length)
    (ha : a = pyramidCount (x.EEForceNodes ee) ee
      (List.range (x.EEForceNodes ee).GetNodes.length))
    (hb : b = driftCount (x.EEForceNodes ee) ee
      (List.range (x.EEForceNodes ee).GetNodes.length))
    (hfit : InInt32 ((2 * (fpps + 1) - 1) * 5 + ((fpps + 1) - 1) * 3)) :
    ∃ (written : List ℚ) (bounds : List Bounds),
      GetValuesWritten (InitVariableDependedQuantities
        (ForceConstraint.new terrain force_limit ee fpps) x) = some written ∧
      GetBounds (InitVariableDependedQuantities
        (ForceConstraint.new terrain force_limit ee fpps) x) = some bounds ∧
      written.length = 5 * a + 3 * b ∧ bounds.length = 5 * a + 3 * b ∧
      (((InitVariableDependedQuantities
            (ForceConstraint.new terrain force_limit ee fpps) x).GetRows = written.length ∧
          (InitVariableDependedQuantities
            (ForceConstraint.new terrain force_limit ee fpps) x).GetRows = bounds.length) ↔
        5 * (a : Int) + 3 * (b : Int) = 13 * (fpps + 1) - 8) ∧
      ((a : Int) = 2 * (fpps + 1) - 1 ∧ (b : Int) = (fpps + 1) - 1 →
        (InitVariableDependedQuantities
            (ForceConstraint.new terrain force_limit ee fpps) x).GetRows = written.length ∧
          (InitVariableDependedQuantities
            (ForceConstraint.new terrain force_limit ee fpps) x).GetRows = bounds.length) := by
  obtain ⟨hcee, hF, hM, hids⟩ := Init_fields terrain force_limit ee fpps x
  have hrows := Init_GetRows terrain force_limit ee fpps x
  rw [constraintCount_drift ee _ fpps hee hfit] at hrows
  generalize InitVariableDependedQuantities (ForceConstraint.new terrain force_limit ee fpps) x = c
    at hcee hF hM hids hrows ⊢
  generalize x.EEForceNodes ee = F at htags hmotion hF hids ha hb ⊢
  generalize x.EEMotionNodes ee = M at hmotion hM ⊢
  have htags2 : ∀ id ∈ List.range F.GetNodes.length,
      0 ≤ F.GetPhase id ee ∧ F.GetPhase id ee ≤ 5 :=
    fun id hid => htags id (List.mem_range.mp hid)
  have hin : ∀ id ∈ List.range F.GetNodes.length,
      id < M.GetNodes.length ∧ id < F.GetNodes.length :=
    fun id hid => ⟨lt_of_lt_of_le (List.mem_range.mp hid) hmotion, List.mem_range.mp hid⟩
  obtain ⟨w, hw, hlen⟩ := GetValuesLoop_length c F M _ [] hin
  rw [hcee, sum_valueRows F ee _ htags2, ← ha, ← hb] at hlen
  simp only [List.length_nil, Nat.zero_add] at hlen
  have hblen : ((List.range F.GetNodes.length).foldl (GetBoundsBody c F) []).length
      = 5 * a + 3 * b := by
    rw [GetBounds_foldl_length, hcee, sum_boundRows F ee _ htags2, ← ha, ← hb]
    simp
  refine ⟨w, (List.range F.GetNodes.length).foldl (GetBoundsBody c F) [],
    by simp [GetValuesWritten, hF, hM, hids, hw],
    by rw [GetBounds, hids, GetBoundsLoop_eq c F hF], hlen, hblen, ?_, ?_⟩
  · rw [hrows, hlen, hblen]
    constructor
    · rintro ⟨h1, _⟩
      push_cast at h1
      omega
    · intro h1
      push_cast
      constructor <;> omega
  · rintro ⟨h1, h2⟩
    rw [hrows, hlen, hblen]
    push_cast
    constructor <;> omega

/-- Witness of C20: end-effector 2 with two nodes per phase and the four force
nodes tagged 0, 4, 1, 1 (`a = 3`, `b = 1`): 18 rows declared, written and
bounded. -/
theorem C20_drift_class_count_matches_iff_witness :
    ∃ (written : List ℚ) (bounds : List Bounds),
      GetValuesWritten exampleConstraint = some written ∧
      GetBounds exampleConstraint = some bounds ∧
      written.length = 18 ∧ bounds.length = 18 ∧
      exampleConstraint.GetRows = written.length ∧
      exampleConstraint.GetRows = bounds.length := by
  obtain ⟨written, bounds, hw, hb, hwl, hbl, _, hpart⟩ :=
    C20_drift_class_count_matches_iff flatTerrain 1000 2 1 driftGaitVariables 3 1 (Or.inl rfl)
      (by
        intro id hid
        have h4 : id < 4 := hid
        interval_cases id <;> decide)
      (by decide) (by decide) (by decide) (by decide)
  obtain ⟨h1, h2⟩ := hpart ⟨by decide, by decide⟩
  exact ⟨written, bounds, hw, hb, hwl, hbl, h1, h2⟩

/-- C21: after `InitVariableDependedQuantities`, for a force node `k` (with a
motion knot `k`) whose phase tag is outside 0..5, the iteration of `GetValues`
for the node assigns exactly one row, the normal force `f . n`, and the
iteration of `GetBounds` appends no bound. When every force node has a motion
knot, `GetValues` writes the rows of the nodes before `k`, then this row, then
the rows of the later nodes; it writes one row more than `GetBounds` returns
bounds for every node with a tag outside 0..5, so the two counts differ. -/
theorem C21_unknown_tag_row_without_bound (terrain : HeightMap) (force_limit : ℚ) (ee : Nat)
    (fpps : Int) (x : Variables) (k : Nat) (m fn : Node)
    (hm : (x.EEMotionNodes ee).GetNodes[k]? = some m)
    (hf : (x.EEForceNodes ee).GetNodes[k]? = some fn)
    (hmotion : (x.EEForceNodes ee).GetNodes.length ≤ (x.EEMotionNodes ee).GetNodes.length)
    (hphase : (x.EEForceNodes ee).GetPhase k ee < 0 ∨ 5 < (x.EEForceNodes ee).GetPhase k ee) :
    (∀ g : List ℚ,
      GetValuesBody (InitVariableDependedQuantities
          (ForceConstraint.new terrain force_limit ee fpps) x)
        (x.EEForceNodes ee) (x.EEMotionNodes ee) g k
        = some (g ++ [fn.p.dot (terrain.GetNormalizedBasis Direction.Normal m.p.x m.p.y)])) ∧
    (∀ bounds : List Bounds,
      GetBoundsBody (InitVariableDependedQuantities
          (ForceConstraint.new terrain force_limit ee fpps) x)
        (x.EEForceNodes ee) bounds k = bounds) ∧
    ∃ (vb va : List ℚ) (bounds : List Bounds),
      GetValuesLoop (InitVariableDependedQuantities
          (ForceConstraint.new terrain force_limit ee fpps) x)
        (x.EEForceNodes ee) (x.EEMotionNodes ee) (List.range k) [] = some vb ∧
      GetValuesWritten (InitVariableDependedQuantities
          (ForceConstraint.new terrain force_limit ee fpps) x)
        = some (vb ++ [fn.p.dot (terrain.GetNormalizedBasis Direction.Normal m.p.x m.p.y)]
            ++ va) ∧
      GetBounds (InitVariableDependedQuantities
          (ForceConstraint.new terrain force_limit ee fpps) x) = some bounds ∧
      (vb ++ [fn.p.dot (terrain.GetNormalizedBasis Direction.Normal m.p.x m.p.y)] ++ va).length
        = bounds.length
          + otherCount (x.EEForceNodes ee) ee (List.range (x.EEForceNodes ee).GetNodes.length) ∧
      (vb ++ [fn.p.dot (terrain.GetNormalizedBasis Direction.Normal m.p.x m.p.y)] ++ va).length
        ≠ bounds.length := by
  obtain ⟨hcee, hF, hM, hids⟩ := Init_fields terrain force_limit ee fpps x
  obtain ⟨hterr, _, _, _, _⟩ := Init_params terrain force_limit ee fpps x
  generalize InitVariableDependedQuantities (ForceConstraint.new terrain force_limit ee fpps) x = c
    at hcee hF hM hids hterr ⊢
  have hpyr : isPyramidPhase ((x.EEForceNodes ee).GetPhase k c.ee_) = false := by
    rw [hcee]
    exact isPyramidPhase_of_outside _ hphase
  have h4 : (x.EEForceNodes ee).GetPhase k c.ee_ ≠ 4 := by
    rw [hcee]
    omega
  have hrows : ∀ mu n t1 t2, nodeValueRows mu ((x.EEForceNodes ee).GetPhase k c.ee_) fn.p n t1 t2
      = [fn.p.dot n] := by
    intro mu n t1 t2
    simp [nodeValueRows, hpyr, h4]
  have hk : k < (x.EEForceNodes ee).GetNodes.length := getElem?_lt_length _ _ _ hf
  have hin : ∀ id ∈ List.range (x.EEForceNodes ee).GetNodes.length,
      id < (x.EEMotionNodes ee).GetNodes.length ∧ id < (x.EEForceNodes ee).GetNodes.length :=
    fun id hid => ⟨lt_of_lt_of_le (List.mem_range.mp hid) hmotion, List.mem_range.mp hid⟩
  obtain ⟨post, hpost⟩ := range_split _ k hk
  have hinpre : ∀ id ∈ List.range k,
      id < (x.EEMotionNodes ee).GetNodes.length ∧ id < (x.EEForceNodes ee).GetNodes.length :=
    fun id hid => hin id (by rw [hpost]; exact List.mem_append_left _ hid)
  have hnode : nodeRowsOf c (x.EEForceNodes ee) (x.EEMotionNodes ee) k
      = [fn.p.dot (terrain.GetNormalizedBasis Direction.Normal m.p.x m.p.y)] := by
    rw [nodeRowsOf_eq c _ _ k m fn hm hf, hrows, hterr]
  have hW : GetValuesWritten c
      = some ((List.range (x.EEForceNodes ee).GetNodes.length).flatMap
          (nodeRowsOf c (x.EEForceNodes ee) (x.EEMotionNodes ee))) := by
    simp only [GetValuesWritten, hF, hM, hids, Option.bind_eq_bind, Option.some_bind]
    rw [GetValuesLoop_eq_flatMap c _ _ _ [] hin]
    simp
  have hsplit : (List.range (x.EEForceNodes ee).GetNodes.length).flatMap
        (nodeRowsOf c (x.EEForceNodes ee) (x.EEMotionNodes ee))
      = (List.range k).flatMap (nodeRowsOf c (x.EEForceNodes ee) (x.EEMotionNodes ee))
          ++ [fn.p.dot (terrain.GetNormalizedBasis Direction.Normal m.p.x m.p.y)]
          ++ post.flatMap (nodeRowsOf c (x.EEForceNodes ee) (x.EEMotionNodes ee)) := by
    rw [hpost, List.flatMap_append, List.flatMap_cons, hnode]
    simp
  have hlenW := flatMap_nodeRowsOf_length c (x.EEForceNodes ee) (x.EEMotionNodes ee) _ hin
  have hlenB := GetBounds_foldl_length c (x.EEForceNodes ee)
    (List.range (x.EEForceNodes ee).GetNodes.length) []
  have hsum := sum_valueRows_eq_sum_boundRows_add (x.EEForceNodes ee) c.ee_
    (List.range (x.EEForceNodes ee).GetNodes.length)
  have hpos := otherCount_pos (x.EEForceNodes ee) ee
    (List.range (x.EEForceNodes ee).GetNodes.length) k (List.mem_range.mpr hk) hphase
  refine ⟨?_, ?_, ?_⟩
  · intro g
    rw [GetValuesBody_eq c _ _ g k m fn hm hf, hrows, hterr]
  · intro bounds
    simp [GetBoundsBody, hpyr, h4]
  · refine ⟨(List.range k).flatMap (nodeRowsOf c (x.EEForceNodes ee) (x.EEMotionNodes ee)),
      post.flatMap (nodeRowsOf c (x.EEForceNodes ee) (x.EEMotionNodes ee)),
      (List.range (x.EEForceNodes ee).GetNodes.length).foldl
        (GetBoundsBody c (x.EEForceNodes ee)) [], ?_, ?_, ?_, ?_, ?_⟩
    · rw [GetValuesLoop_eq_flatMap c _ _ _ [] hinpre]
      simp
    · rw [hW, hsplit]
    · rw [GetBounds, hids, GetBoundsLoop_eq c _ hF]
    · rw [← hsplit, hlenW, hlenB, hsum, hcee]
      simp
    · rw [← hsplit, hlenW, hlenB, hsum, hcee]
      simp only [List.length_nil, Nat.zero_add]
      omega

/-- Witness of C21: end-effector 0 on the flat terrain with the force nodes
tagged 0, 7, 4: the node 1 with the tag 7 and the force `(1, 1, 2)` gives the
single row 2 after the five rows of node 0, `GetValues` writes 9 rows and
`GetBounds` returns 8 bounds. -/
theorem C21_unknown_tag_row_without_bound_witness :
    GetValuesWritten (InitVariableDependedQuantities (ForceConstraint.new flatTerrain 1000 0 1)
      unknownTagVariables) = some [4, -2, 2, -2, 2, 2, 4, 0, 0] ∧
    (GetBounds (InitVariableDependedQuantities (ForceConstraint.new flatTerrain 1000 0 1)
      unknownTagVariables)).map List.length = some 8 ∧
    GetBoundsBody (InitVariableDependedQuantities (ForceConstraint.new flatTerrain 1000 0 1)
      unknownTagVariables) (unknownTagVariables.EEForceNodes 0) [] 1 = [] := by
  have h := C21_unknown_tag_row_without_bound flatTerrain 1000 0 1 unknownTagVariables 1
    (nodeAt 1 0 0) (nodeAt 1 1 2) rfl rfl (by decide) (by decide)
  exact ⟨by decide!, by decide!, h.2.1 []⟩

/-- C22: for every end-effector index other than 0, 1, 2 and 3,
`InitVariableDependedQuantities` declares 0 rows, whatever the force nodes of
the variable set are and whatever `force_polynomials_per_stance_phase` is. -/
theorem C22_declared_rows_other_end_effector (terrain : HeightMap) (force_limit : ℚ) (ee : Nat)
    (fpps : Int) (x : Variables) (hee : ee ≠ 0 ∧ ee ≠ 1 ∧ ee ≠ 2 ∧ ee ≠ 3) :
    (InitVariableDependedQuantities (ForceConstraint.new terrain force_limit ee fpps) x).GetRows
      = 0 := by
  rw [Init_GetRows]
  exact constraintCount_other ee _ fpps (by omega)

/-- Witness of C22: end-effector 4 with three force nodes and four nodes per
phase declares 0 rows. -/
theorem C22_declared_rows_other_end_effector_witness :
    (threeNodeVariables.EEForceNodes 4).GetNodes.length = 3 ∧
    (InitVariableDependedQuantities (ForceConstraint.new flatTerrain 1000 4 3)
      threeNodeVariables).GetRows = 0 :=
  ⟨rfl, C22_declared_rows_other_end_effector flatTerrain 1000 4 3 threeNodeVariables
    (by decide)⟩

end towr

namespace xpp.opt

/-! ## Lemmas on the trajectory generator -/

theorem map_range_succ {α : Type} (f : Nat → α) (n : Nat) :
    (List.range (n + 1)).map f = f 0 :: (List.range n).map (fun i => f (i + 1)) := by
  rw [List.range_succ_eq_map, List.map_cons, List.map_map]
  rfl

theorem sampleLoop_eq {State : Type} (GetRobotState : ℚ → State) (t_end dt : ℚ) (hdt : 0 < dt) :
    ∀ (n fuel : Nat) (t : ℚ), n + 2 ≤ fuel → t + (n : ℚ) * dt = t_end →
      sampleLoop GetRobotState t_end dt fuel t
        = (List.range (n + 1)).map (fun i : Nat => GetRobotState (t + (i : ℚ) * dt)) := by
  intro n
  induction n with
  | zero =>
    intro fuel t hfuel ht
    obtain ⟨f, rfl⟩ : ∃ f, fuel = f + 2 := ⟨fuel - 2, by omega⟩
    have h1 : t ≤ t_end := by rw [← ht]; simp
    have h2 : ¬ (t + dt ≤ t_end) := by
      rw [← ht]
      simp only [Nat.cast_zero, zero_mul, add_zero, add_le_iff_nonpos_right, not_le]
      exact hdt
    simp [sampleLoop, h1, h2, List.range_succ]
  | succ n ih =>
    intro fuel t hfuel ht
    obtain ⟨f, rfl⟩ : ∃ f, fuel = f + 1 := ⟨fuel - 1, by omega⟩
    have h1 : t ≤ t_end := by
      rw [← ht]
      have : (0 : ℚ) ≤ ((n + 1 : Nat) : ℚ) * dt := mul_nonneg (Nat.cast_nonneg _) (le_of_lt hdt)
      linarith
    have hnext : (t + dt) + (n : ℚ) * dt = t_end := by
      rw [← ht]
      push_cast
      ring
    rw [sampleLoop, if_pos h1, ih f (t + dt) (by omega) hnext,
      map_range_succ (fun i : Nat => GetRobotState (t + (i : ℚ) * dt)) (n + 1)]
    simp only [Nat.cast_zero, zero_mul, add_zero, List.cons.injEq, true_and]
    apply List.map_congr_left
    intro i _
    simp only [Nat.cast_add, Nat.cast_one]
    congr 1
    ring

theorem BuildWholeBodyTrajectory_eq {State : Type} (g : WBTrajGenerator State) (dt : ℚ)
    (n : Nat) (hdt : 0 < dt) (hdiv : g.GetTotalTime = (n : ℚ) * dt) :
    g.BuildWholeBodyTrajectory dt
      = some ((List.range (n + 1)).map
          (fun i : Nat => g.GetRobotState (g.t_start_ + (i : ℚ) * dt))) := by
  have hfloor : ⌊g.GetTotalTime / dt⌋.toNat = n := by
    rw [hdiv, mul_div_assoc, div_self (ne_of_gt hdt), mul_one]
    simp
  rw [WBTrajGenerator.BuildWholeBodyTrajectory, if_pos hdt, hfloor,
    sampleLoop_eq g.GetRobotState _ dt hdt n (n + 2) g.t_start_ (le_refl _) (by rw [hdiv])]

theorem phaseLookup_spec (t : ℚ) :
    ∀ (rest : List MotionPhase) (phase : MotionPhase) (start : ℚ) (id : Nat), start ≤ t →
      ∃ j, phaseLookup t (phase :: rest) start id = id + j ∧ j < (phase :: rest).length ∧
        start + (((phase :: rest).take j).map MotionPhase.duration).sum ≤ t ∧
        (j + 1 < (phase :: rest).length →
          t < start + (((phase :: rest).take (j + 1)).map MotionPhase.duration).sum) := by
  intro rest
  induction rest with
  | nil =>
    intro phase start id h
    exact ⟨0, rfl, by simp, by simpa using h, by simp⟩
  | cons next rest ih =>
    intro phase start id h
    by_cases hlt : t < start + phase.duration
    · refine ⟨0, by simp [phaseLookup, hlt], by simp, by simpa using h, ?_⟩
      intro _
      simpa using hlt
    · obtain ⟨j, hj1, hj2, hj3, hj4⟩ := ih next (start + phase.duration) (id + 1)
        (not_lt.mp hlt)
      refine ⟨j + 1, ?_, ?_, ?_, ?_⟩
      · simp only [phaseLookup, hlt, if_false, hj1]
        omega
      · simp only [List.length_cons] at hj2 ⊢
        omega
      · simp only [List.take_succ_cons, List.map_cons, List.sum_cons]
        linarith
      · intro hlen
        simp only [List.length_cons] at hlen hj4
        have := hj4 (by omega)
        simp only [List.take_succ_cons, List.map_cons, List.sum_cons] at this ⊢
        linarith

theorem take_sum_mono :
    ∀ (ds : List ℚ), (∀ d ∈ ds, 0 ≤ d) → ∀ (i j : Nat), i ≤ j →
      (ds.take i).sum ≤ (ds.take j).sum := by
  intro ds
  induction ds with
  | nil => intro _ i j _; simp
  | cons d ds ih =>
    intro h i j hij
    have hd := h d (List.mem_cons_self _ _)
    have hds : ∀ e ∈ ds, 0 ≤ e := fun e he => h e (List.mem_cons_of_mem _ he)
    cases i with
    | zero =>
      cases j with
      | zero => simp
      | succ j =>
        have := ih hds 0 j (Nat.zero_le _)
        simp only [List.take_zero, List.sum_nil, List.take_succ_cons, List.sum_cons] at this ⊢
        linarith
    | succ i =>
      cases j with
      | zero => omega
      | succ j =>
        have := ih hds i j (by omega)
        simp only [List.take_succ_cons, List.sum_cons]
        linarith

theorem phaseStart_mono {State : Type} (g : WBTrajGenerator State)
    (hnonneg : ∀ p ∈ g.phases, 0 ≤ p.duration) (i j : Nat) (hij : i ≤ j) :
    g.phaseStart i ≤ g.phaseStart j := by
  unfold WBTrajGenerator.phaseStart
  rw [List.map_take, List.map_take]
  have := take_sum_mono (g.phases.map MotionPhase.duration)
    (by
      intro d hd
      rw [List.mem_map] at hd
      obtain ⟨p, hp, rfl⟩ := hd
      exact hnonneg p hp) i j hij
  linarith

theorem phaseStart_succ {State : Type} (g : WBTrajGenerator State) (k : Nat)
    (hk : k < g.phases.length) :
    g.phaseStart (k + 1) = g.phaseStart k + (g.phases[k]).duration := by
  unfold WBTrajGenerator.phaseStart
  rw [List.take_succ, List.getElem?_eq_getElem hk]
  simp only [Option.toList, List.map_append, List.sum_append, List.map_cons, List.map_nil,
    List.sum_cons, List.sum_nil]
  ring

/-! ## Theorems for the claims on the trajectory generator -/

/-- C15: for a phase list of total duration `T`, a start time `t_start` and a
step `dt > 0` that divides `T` (`T = n dt` for a natural number `n`),
`BuildWholeBodyTrajectory(dt)` returns exactly `n + 1 = T/dt + 1` states, the
states at the times `t_start + i dt` for `i = 0, ..., n`, the last of which is
the end of the last phase; for two phases of 1 s each and `dt = 1/10` it
returns exactly 21 states. -/
theorem C15_sample_count {State : Type} (g : WBTrajGenerator State) (dt : ℚ) (n : Nat)
    (hdt : 0 < dt) (hdiv : g.GetTotalTime = (n : ℚ) * dt) :
    g.BuildWholeBodyTrajectory dt
      = some ((List.range (n + 1)).map
          (fun i : Nat => g.GetRobotState (g.t_start_ + (i : ℚ) * dt))) ∧
    (g.BuildWholeBodyTrajectory dt).map List.length = some (n + 1) ∧
    ((n : ℚ) + 1 = g.GetTotalTime / dt + 1) ∧
    g.t_start_ + (n : ℚ) * dt = g.t_start_ + g.GetTotalTime ∧
    (∀ g2 : WBTrajGenerator State, g2.phases.map MotionPhase.duration = [1, 1] →
      (g2.BuildWholeBodyTrajectory (1 / 10)).map List.length = some 21) := by
  have h := BuildWholeBodyTrajectory_eq g dt n hdt hdiv
  refine ⟨h, by rw [h]; simp, ?_, by rw [hdiv], ?_⟩
  · rw [hdiv, mul_div_assoc, div_self (ne_of_gt hdt), mul_one]
  · intro g2 hg2
    have h2 := BuildWholeBodyTrajectory_eq g2 (1 / 10) 20 (by norm_num)
      (by rw [WBTrajGenerator.GetTotalTime, hg2]; norm_num)
    rw [h2]
    simp

/-- Witness of C15: two phases of 1 s, start time 3 and `dt = 1/10`: 21 states,
the first at time 3 and the last at time 5. -/
theorem C15_sample_count_witness :
    (exampleGenerator.BuildWholeBodyTrajectory (1 / 10)).map List.length = some 21 ∧
    (exampleGenerator.BuildWholeBodyTrajectory (1 / 10)).map List.head? = some (some 3) ∧
    (exampleGenerator.BuildWholeBodyTrajectory (1 / 10)).map List.getLast? = some (some 5) := by
  have h := (C15_sample_count exampleGenerator (1 / 10) 20 (by norm_num)
    (by norm_num [WBTrajGenerator.GetTotalTime, exampleGenerator, twoPhases])).1
  rw [h]
  refine ⟨by simp, ?_, ?_⟩
  · simp [List.range_succ_eq_map, exampleGenerator]
  · simp only [Option.map_some', Option.some.injEq]
    rw [List.range_succ, List.map_append, List.getLast?_append]
    norm_num [exampleGenerator]

/-- C16: for a non-empty phase list and a global time `t` at or after the first
boundary (the start time), `GetPhaseID(t)` returns a phase `k` whose interval
of cumulative durations contains `t`: phase `k` starts at or before `t`, and
`t` is before the start of phase `k + 1` unless `k` is the last phase. With
durations that are not negative `k` is the only such phase, and a `t` beyond
the end of the last phase resolves to the last phase; with positive durations
a `t` exactly on the boundary between the phases `j` and `j + 1` resolves to
phase `j + 1`. -/
theorem C16_phase_lookup {State : Type} (g : WBTrajGenerator State) (t : ℚ)
    (hne : g.phases ≠ []) (ht : g.t_start_ ≤ t) :
    ∃ k, g.GetPhaseID t = some k ∧ k < g.phases.length ∧ g.phaseStart k ≤ t ∧
      (k + 1 < g.phases.length → t < g.phaseStart (k + 1)) ∧
      ((∀ p ∈ g.phases, 0 ≤ p.duration) →
        (∀ j, j < g.phases.length → g.phaseStart j ≤ t →
          (j + 1 < g.phases.length → t < g.phaseStart (j + 1)) → k = j) ∧
        (g.phaseStart g.phases.length ≤ t → k = g.phases.length - 1)) ∧
      ((∀ p ∈ g.phases, 0 < p.duration) →
        ∀ j, j + 1 < g.phases.length → t = g.phaseStart (j + 1) → k = j + 1) := by
  obtain ⟨phase, rest, hphases⟩ : ∃ phase rest, g.phases = phase :: rest := by
    cases hp : g.phases with
    | nil => exact absurd hp hne
    | cons phase rest => exact ⟨phase, rest, rfl⟩
  obtain ⟨k, hk1, hk2, hk3, hk4⟩ := phaseLookup_spec t rest phase g.t_start_ 0 ht
  rw [← hphases] at hk1 hk2 hk3 hk4
  rw [Nat.zero_add] at hk1
  have hid : g.GetPhaseID t = some k := by
    unfold WBTrajGenerator.GetPhaseID
    rw [if_neg, hk1]
    rw [hphases]
    simp only [List.isEmpty_cons, Bool.false_eq_true, false_or, not_lt]
    exact ht
  have huniq : (∀ p ∈ g.phases, 0 ≤ p.duration) →
      ∀ j, j < g.phases.length → g.phaseStart j ≤ t →
        (j + 1 < g.phases.length → t < g.phaseStart (j + 1)) → k = j := by
    intro hnonneg j hj hj1 hj2
    rcases Nat.lt_trichotomy k j with h | h | h
    · have h1 := hk4 (by omega)
      have h2 := phaseStart_mono g hnonneg (k + 1) j (by omega)
      unfold WBTrajGenerator.phaseStart at h2 hj1
      linarith
    · exact h
    · have h1 := hj2 (by omega)
      have h2 := phaseStart_mono g hnonneg (j + 1) k (by omega)
      unfold WBTrajGenerator.phaseStart at h2 h1
      linarith
  refine ⟨k, hid, hk2, hk3, hk4, ?_, ?_⟩
  · intro hnonneg
    refine ⟨huniq hnonneg, ?_⟩
    intro hend
    have hlen : 0 < g.phases.length := by rw [hphases]; simp
    refine huniq hnonneg (g.phases.length - 1) (by omega) ?_ (by omega)
    exact le_trans (phaseStart_mono g hnonneg _ _ (by omega)) hend
  · intro hpos j hj htie
    have hnonneg : ∀ p ∈ g.phases, 0 ≤ p.duration := fun p hp => le_of_lt (hpos p hp)
    refine huniq hnonneg (j + 1) hj (le_of_eq htie.symm) ?_
    intro _
    rw [phaseStart_succ g (j + 1) hj, htie]
    have := hpos (g.phases[j + 1]) (List.getElem_mem _)
    linarith

/-- Witness of C16: two phases of 1 s starting at time 3; the time 4 on the
boundary between them resolves to phase 1, the time 3.5 to phase 0 and the
time 9 beyond the end to phase 1. -/
theorem C16_phase_lookup_witness :
    exampleGenerator.GetPhaseID 4 = some 1 ∧ exampleGenerator.GetPhaseID (7 / 2) = some 0 ∧
    exampleGenerator.GetPhaseID 9 = some 1 := by
  obtain ⟨k, hk, _, _, _, _, htie⟩ := C16_phase_lookup exampleGenerator 4
    (by simp [exampleGenerator, twoPhases]) (by decide!)
  have hk1 : k = 1 := htie (by
    intro p hp
    simp only [exampleGenerator, twoPhases, List.mem_cons, List.mem_singleton,
      List.not_mem_nil, or_false] at hp
    rcases hp with h | h <;> rw [h] <;> norm_num) 0 (by decide) (by decide!)
  subst hk1
  exact ⟨hk, by decide!, by decide!⟩

/-- C17: for every consecutive node pair `(from, to)` whose phase has the
duration `T > 0` (the time from `from` to `to`), the height polynomial that
`BuildPhase` constructs takes the vertical base position and the vertical base
velocity of `from` at the local time 0 and those of `to` at the local time
`T`. -/
theorem C17_height_polynomial_boundary (from_node to_node : SplineNode) (T : ℚ)
    (hT : 0 < T) (hdur : to_node.t_global - from_node.t_global = T) :
    ((BuildPhase from_node to_node).GetPoint 0).p = from_node.base_z.p ∧
    ((BuildPhase from_node to_node).GetPoint 0).v = from_node.base_z.v ∧
    ((BuildPhase from_node to_node).GetPoint T).p = to_node.base_z.p ∧
    ((BuildPhase from_node to_node).GetPoint T).v = to_node.base_z.v := by
  have hne : T ≠ 0 := ne_of_gt hT
  simp only [BuildPhase, ZPolynomial.SetBoundary, ZPolynomial.GetPoint, hdur]
  refine ⟨by ring, by ring, ?_, ?_⟩
  · field_simp
    ring
  · field_simp
    ring

/-- Witness of C17: from the node at time 3 with height 1 and vertical velocity
1/2 to the node at time 5 with height 3 and vertical velocity -1, a phase of
2 s: the height polynomial has height 1 and velocity 1/2 at the local time 0,
height 3 and velocity -1 at the local time 2. -/
theorem C17_height_polynomial_boundary_witness :
    ((BuildPhase ⟨3, ⟨1, 1 / 2, 0⟩⟩ ⟨5, ⟨3, -1, 0⟩⟩).GetPoint 0).p = 1 ∧
    ((BuildPhase ⟨3, ⟨1, 1 / 2, 0⟩⟩ ⟨5, ⟨3, -1, 0⟩⟩).GetPoint 0).v = 1 / 2 ∧
    ((BuildPhase ⟨3, ⟨1, 1 / 2, 0⟩⟩ ⟨5, ⟨3, -1, 0⟩⟩).GetPoint 2).p = 3 ∧
    ((BuildPhase ⟨3, ⟨1, 1 / 2, 0⟩⟩ ⟨5, ⟨3, -1, 0⟩⟩).GetPoint 2).v = -1 :=
  C17_height_polynomial_boundary ⟨3, ⟨1, 1 / 2, 0⟩⟩ ⟨5, ⟨3, -1, 0⟩⟩ 2 (by norm_num)
    (by norm_num)

end xpp.opt

